import Mathlib

/-!
# MRtrix3 affine registration: transform update and convergence monitoring

A shallow embedding of `src/registration/transform/affine.cpp`:

* `DoubleExpSmoothSlopeCheck` (the convergence monitor `go_on`),
* the 12-parameter codec used by `Affine::set_parameter_vector` /
  `Affine::get_parameter_vector`,
* `AffineRobustEstimator::operator()`,
* `Affine::get_jacobian_vector_wrt_params` / `Affine::get_jacobian_wrt_params`,
* `AffineUpdate::operator()`.

Conventions of the embedding.

* `default_type` (C++ `double`) is idealised as a linearly ordered field `K`;
  all concrete evaluations are carried out over `ℚ`.  Where the rounding of `double`
  arithmetic decides a property (flat-sequence detection by the monitor), the monitor is
  also embedded with the rounding of every operation explicit (`go_on_rounded`);
  `round_double` is the rounding of binary64.
* A dynamic Eigen column vector is a `List K`.  Coefficient-wise Eigen
  operations on vectors of different sizes and out-of-range container accesses
  have no defined result in the source; the embedding returns `none` there.
* `size_t` counters are natural numbers reduced modulo `2 ^ 64` at every
  increment.
-/

namespace MR.Registration.Transform

/-- A dynamically sized Eigen column vector (`Eigen::Matrix<default_type, Eigen::Dynamic, 1>`). -/
abbrev Vec (K : Type) := List K

/-- The number of values of a `size_t`. -/
def SIZE_MOD : Nat := 2 ^ 64

section VectorOps

variable {K : Type} [LinearOrderedField K]

/-- Coefficient-wise combination of two Eigen vectors; defined only for equal sizes. -/
def cwise (f : K → K → K) (a b : Vec K) : Option (Vec K) :=
  if a.length = b.length then some (List.zipWith f a b) else none

/-- Eigen `a + b`. -/
def vadd (a b : Vec K) : Option (Vec K) := cwise (fun x y => x + y) a b

/-- Eigen `a - b`. -/
def vsub (a b : Vec K) : Option (Vec K) := cwise (fun x y => x - y) a b

/-- Eigen `s * a` for a scalar `s`. -/
def smul (s : K) (a : Vec K) : Vec K := a.map (fun x => s * x)

/-- The zero vector of the size of `c`. -/
def zeros (c : Vec K) : Vec K := c.map fun _ => 0

end VectorOps

/-! ## The convergence monitor -/

/-- The private members of `class DoubleExpSmoothSlopeCheck` (affine.cpp lines 100-106).
The two deques `ds`, `db` are lists whose head is the front of the deque. -/
structure DoubleExpSmoothSlopeCheck (K : Type) where
  stop_cnt : Nat
  alpha : K
  beta : K
  thresh : Vec K
  x0 : Vec K
  buffer_len : Nat
  min_iter : Nat
  iter_count : Nat
  len : Nat
  ds : List (Vec K)
  db : List (Vec K)
deriving DecidableEq

namespace DoubleExpSmoothSlopeCheck

variable {K : Type} [LinearOrderedField K]

/-- The constructor (affine.cpp lines 36-48): counters zero, `x0` and both deques empty. -/
def init (slope_threshold : Vec K) (alpha beta : K) (buffer_len min_iter : Nat) :
    DoubleExpSmoothSlopeCheck K :=
  { stop_cnt := 0
    alpha := alpha
    beta := beta
    thresh := slope_threshold
    x0 := []
    buffer_len := buffer_len
    min_iter := min_iter
    iter_count := 0
    len := 0
    ds := []
    db := [] }

/-- The `check_all` member (affine.cpp lines 108-110):
`(vec.array().abs() < thresh.array()).all()`. -/
def check_all (m : DoubleExpSmoothSlopeCheck K) (vec : Vec K) : Option Bool :=
  if vec.length = m.thresh.length then
    some ((List.zipWith (fun v t => decide (|v| < t)) vec m.thresh).all id)
  else none

/-- The statement `if (check_all(..)) ++stop_cnt; else stop_cnt = 0;`. -/
def bump (m : DoubleExpSmoothSlopeCheck K) (pass : Bool) : Nat :=
  if pass then (m.stop_cnt + 1) % SIZE_MOD else 0

/-- The `go_on` member (affine.cpp lines 50-85).  The result is the returned boolean
together with the monitor after the call. -/
def go_on (m : DoubleExpSmoothSlopeCheck K) (element : Vec K) :
    Option (Bool × DoubleExpSmoothSlopeCheck K) :=
  let iter := (m.iter_count + 1) % SIZE_MOD
  if m.len = 0 then
    if m.x0.length = 0 then
      some (true, { m with iter_count := iter, x0 := element })
    else
      (vsub element m.x0).bind fun d =>
      (m.check_all d).bind fun pass =>
      some (true, { m with
        iter_count := iter
        ds := m.ds ++ [element]
        db := m.db ++ [d]
        stop_cnt := m.bump pass
        len := (m.len + 1) % SIZE_MOD })
  else
    m.ds.getLast?.bind fun s_back =>
    m.db.getLast?.bind fun b_back =>
    (vadd s_back b_back).bind fun pred =>
    (vadd (smul m.alpha element) (smul (1 - m.alpha) pred)).bind fun s =>
    (m.ds ++ [s])[m.len]?.bind fun s_len =>
    (m.ds ++ [s])[m.len - 1]?.bind fun s_prev =>
    m.db[m.len - 1]?.bind fun b_prev =>
    (vsub s_len s_prev).bind fun diff =>
    (vadd (smul m.beta diff) (smul (1 - m.beta) b_prev)).bind fun b =>
    (m.check_all b).bind fun pass =>
    let cnt := m.bump pass
    if m.len = m.buffer_len then
      let cnt := if cnt > m.buffer_len then cnt - 1 else cnt
      some (cnt != m.buffer_len || decide (iter < m.min_iter),
        { m with
          iter_count := iter
          ds := (m.ds ++ [s]).tail
          db := (m.db ++ [b]).tail
          stop_cnt := cnt })
    else
      some (cnt != m.buffer_len || decide (iter < m.min_iter),
        { m with
          iter_count := iter
          ds := m.ds ++ [s]
          db := m.db ++ [b]
          stop_cnt := cnt
          len := (m.len + 1) % SIZE_MOD })

/-- Successive calls of `go_on` on one monitor, oldest observation first; the
returned booleans are collected in call order. -/
def feed (m : DoubleExpSmoothSlopeCheck K) :
    List (Vec K) → Option (List Bool × DoubleExpSmoothSlopeCheck K)
  | [] => some ([], m)
  | e :: es =>
    (m.go_on e).bind fun r =>
    (feed r.2 es).bind fun rs =>
    some (r.1 :: rs.1, rs.2)

/-- The monitor states that arise from a freshly constructed monitor by calls of
`go_on` on observations that all have the size `n` of the threshold vector. -/
inductive Reachable (n : Nat) : DoubleExpSmoothSlopeCheck K → Prop
  | fresh (slope_threshold : Vec K) (alpha beta : K) (buffer_len min_iter : Nat) :
      slope_threshold.length = n → buffer_len < SIZE_MOD → min_iter < SIZE_MOD →
      Reachable n (init slope_threshold alpha beta buffer_len min_iter)
  | call (m m' : DoubleExpSmoothSlopeCheck K) (element : Vec K) (r : Bool) :
      Reachable n m → element.length = n → m.go_on element = some (r, m') →
      Reachable n m'

/-- Size bookkeeping that makes every access of `go_on` defined. -/
structure SizesOK (n : Nat) (m : DoubleExpSmoothSlopeCheck K) : Prop where
  thresh_len : m.thresh.length = n
  x0_len : m.x0.length = 0 ∨ m.x0.length = n
  ds_len : ∀ v ∈ m.ds, v.length = n
  db_len : ∀ v ∈ m.db, v.length = n
  same : m.db.length = m.ds.length
  len_le : m.len ≤ m.ds.length

/-- The monitor as it stands after `k ≥ 1` calls of `go_on` that all observed the same
vector `c` (established by `go_on_flatState` below): the history holds
`min (k - 1) buffer_len` copies of `c` and of the zero slope. -/
def flatState (slope_threshold : Vec K) (alpha beta : K) (buffer_len min_iter : Nat)
    (c : Vec K) (k : Nat) : DoubleExpSmoothSlopeCheck K :=
  { stop_cnt := min (k - 1) buffer_len
    alpha := alpha
    beta := beta
    thresh := slope_threshold
    x0 := c
    buffer_len := buffer_len
    min_iter := min_iter
    iter_count := k
    len := min (k - 1) buffer_len
    ds := List.replicate (min (k - 1) buffer_len) c
    db := List.replicate (min (k - 1) buffer_len) (zeros c) }

/-- The value returned by the `k`-th call of `go_on` when every call observes the same
vector (established by `go_on_flatState` below). -/
def flatResult (buffer_len min_iter k : Nat) : Bool :=
  if k ≤ 2 then true else (min (k - 1) buffer_len != buffer_len || decide (k < min_iter))

/-- The `last_b` member (affine.cpp lines 87-91): the returned boolean together with the
argument `b` after the call.  `back()` of an empty deque is undefined. -/
def last_b (m : DoubleExpSmoothSlopeCheck K) (b : Vec K) : Option (Bool × Vec K) :=
  if m.len = 0 then some (false, b) else m.db.getLast?.map fun v => (true, v)

/-- The `last_s` member (affine.cpp lines 93-97): the returned boolean together with the
argument `s` after the call. -/
def last_s (m : DoubleExpSmoothSlopeCheck K) (s : Vec K) : Option (Bool × Vec K) :=
  if m.len = 0 then some (false, s) else m.ds.getLast?.map fun v => (true, v)

end DoubleExpSmoothSlopeCheck

/-! ## The convergence monitor in rounded arithmetic

The source computes in `default_type`, where every arithmetic operation rounds its result.
The definitions of this section make that rounding explicit: `fl` is the rounding applied
to the exact result of each operation (no fused multiply-add, no extended intermediate
precision), and `round_double` is the rounding of binary64. -/

section RoundedOps

variable {K : Type} [LinearOrderedField K]

/-- Coefficient-wise rounding of an Eigen vector. -/
def vround (fl : K → K) (a : Vec K) : Vec K := a.map fl

/-- Eigen `a + b` in rounded arithmetic. -/
def vadd_fl (fl : K → K) (a b : Vec K) : Option (Vec K) := (vadd a b).map (vround fl)

/-- Eigen `a - b` in rounded arithmetic. -/
def vsub_fl (fl : K → K) (a b : Vec K) : Option (Vec K) := (vsub a b).map (vround fl)

/-- Eigen `s * a` for a scalar `s` in rounded arithmetic. -/
def smul_fl (fl : K → K) (s : K) (a : Vec K) : Vec K := vround fl (smul s a)

end RoundedOps

namespace DoubleExpSmoothSlopeCheck

variable {K : Type} [LinearOrderedField K]

/-- The `go_on` member (affine.cpp lines 50-85) with the rounding of `default_type`
explicit.  Line 59 rounds the difference `element - x0`; line 69 rounds the sum
`ds.back() + db.back()`, the scalar `1.0-alpha`, both products and their sum; line 70
rounds the difference `ds.at(len) - ds.at(len - 1)`, the scalar `1.0-beta`, both products
and their sum.  Comparisons, `abs` and the counters are exact. -/
def go_on_rounded (fl : K → K) (m : DoubleExpSmoothSlopeCheck K) (element : Vec K) :
    Option (Bool × DoubleExpSmoothSlopeCheck K) :=
  let iter := (m.iter_count + 1) % SIZE_MOD
  if m.len = 0 then
    if m.x0.length = 0 then
      some (true, { m with iter_count := iter, x0 := element })
    else
      (vsub_fl fl element m.x0).bind fun d =>
      (m.check_all d).bind fun pass =>
      some (true, { m with
        iter_count := iter
        ds := m.ds ++ [element]
        db := m.db ++ [d]
        stop_cnt := m.bump pass
        len := (m.len + 1) % SIZE_MOD })
  else
    m.ds.getLast?.bind fun s_back =>
    m.db.getLast?.bind fun b_back =>
    (vadd_fl fl s_back b_back).bind fun pred =>
    (vadd_fl fl (smul_fl fl m.alpha element) (smul_fl fl (fl (1 - m.alpha)) pred)).bind fun s =>
    (m.ds ++ [s])[m.len]?.bind fun s_len =>
    (m.ds ++ [s])[m.len - 1]?.bind fun s_prev =>
    m.db[m.len - 1]?.bind fun b_prev =>
    (vsub_fl fl s_len s_prev).bind fun diff =>
    (vadd_fl fl (smul_fl fl m.beta diff) (smul_fl fl (fl (1 - m.beta)) b_prev)).bind fun b =>
    (m.check_all b).bind fun pass =>
    let cnt := m.bump pass
    if m.len = m.buffer_len then
      let cnt := if cnt > m.buffer_len then cnt - 1 else cnt
      some (cnt != m.buffer_len || decide (iter < m.min_iter),
        { m with
          iter_count := iter
          ds := (m.ds ++ [s]).tail
          db := (m.db ++ [b]).tail
          stop_cnt := cnt })
    else
      some (cnt != m.buffer_len || decide (iter < m.min_iter),
        { m with
          iter_count := iter
          ds := m.ds ++ [s]
          db := m.db ++ [b]
          stop_cnt := cnt
          len := (m.len + 1) % SIZE_MOD })

/-- Successive calls of `go_on` in rounded arithmetic on one monitor, oldest observation
first; the returned booleans are collected in call order. -/
def feed_rounded (fl : K → K) (m : DoubleExpSmoothSlopeCheck K) :
    List (Vec K) → Option (List Bool × DoubleExpSmoothSlopeCheck K)
  | [] => some ([], m)
  | e :: es =>
    (go_on_rounded fl m e).bind fun r =>
    (feed_rounded fl r.2 es).bind fun rs =>
    some (r.1 :: rs.1, rs.2)

end DoubleExpSmoothSlopeCheck

section Binary64

/-- Round to the nearest integer, a tie to the even neighbour. -/
def round_half_even (t : ℚ) : ℤ :=
  if t - ⌊t⌋ < 1 / 2 then ⌊t⌋
  else if 1 / 2 < t - ⌊t⌋ then ⌊t⌋ + 1
  else if ⌊t⌋ % 2 = 0 then ⌊t⌋ else ⌊t⌋ + 1

/-- The `double` nearest to a rational `q` (round to nearest, ties to even, 53 significant
bits): with `2 ^ e ≤ |q| < 2 ^ (e + 1)` the doubles around `q` are the multiples of
`2 ^ (e - 52)`.  The exponent is not limited, so overflow and subnormal numbers are not
represented. -/
def round_double (q : ℚ) : ℚ :=
  if q = 0 then 0
  else round_half_even (q / 2 ^ (Int.log 2 |q| - 52)) * 2 ^ (Int.log 2 |q| - 52)

/-- The default `alpha = 0.8` of the constructor (affine.cpp line 37) as a `double`. -/
def alpha_default : ℚ := 3602879701896397 / 4503599627370496

/-- The default `beta = 0.55` of the constructor (affine.cpp line 38) as a `double`. -/
def beta_default : ℚ := 2476979795053773 / 4503599627370496

/-- The `double` nearest to `1e-17`, a slope threshold below the rounding error of the
smoothing step at `2.9`. -/
def drift_thresh : ℚ := 6490371073168535 / 649037107316853453566312041152512

/-- The `double` nearest to `2.9`. -/
def drift_c : ℚ := 6530219459687219 / 2251799813685248

/-- The `double` below `drift_c`: the value of `alpha * c + (1.0-alpha) * c` in binary64
arithmetic at `alpha = 0.8`, `c = 2.9`. -/
def drift_s : ℚ := 3265109729843609 / 1125899906842624

/-- The smoothed slope that call `k` (3 to 10) of the default monitor stores on the
constant observation `drift_c` in binary64 arithmetic: about `-2.4e-16`, `-1.1e-16`,
`-4.9e-17`, `-2.2e-17`, `-1.0016e-17`, `-4.5e-18`, `-2.0e-18`, `-9.1e-19`. -/
def drift_b : Nat → ℚ
  | 3 => -2476979795053773 / 10141204801825835211973625643008
  | 4 => -4458563631096791 / 40564819207303340847894502572032
  | 5 => -8025414535974223 / 162259276829213363391578010288128
  | 6 => -225714783824275 / 10141204801825835211973625643008
  | 7 => -6500585774139119 / 649037107316853453566312041152512
  | 8 => -5850527196725207 / 1298074214633706907132624082305024
  | 9 => -2632737238526343 / 1298074214633706907132624082305024
  | 10 => -4738927029347417 / 5192296858534827628530496329220096
  | _ => 0

/-- The monitor of the default configuration (`alpha = 0.8`, `beta = 0.55`,
`buffer_len = 4`, `min_iter = 5`) with the slope threshold `drift_thresh` that was started
on the observation `drift_c`, given by its counters and its two histories. -/
def drift_monitor (stop_cnt iter_count len : Nat) (ds db : List ℚ) :
    DoubleExpSmoothSlopeCheck ℚ :=
  { stop_cnt := stop_cnt
    alpha := alpha_default
    beta := beta_default
    thresh := [drift_thresh]
    x0 := [drift_c]
    buffer_len := 4
    min_iter := 5
    iter_count := iter_count
    len := len
    ds := ds.map fun s => [s]
    db := db.map fun b => [b] }

end Binary64

/-! ## Fixed-size matrices and Eigen primitives -/

/-- A fixed-size `Eigen::Matrix<default_type, 4, 4>`. -/
abbrev Mat4 (K : Type) := Matrix (Fin 4) (Fin 4) K

/-- Ways in which a call has no result. -/
inductive Fault where
  /-- A parameter vector does not have exactly 12 elements. -/
  | invalidLength
  /-- An `assert` of the source fails, or an Eigen operation is used outside its
  domain (inverse of a singular matrix). -/
  | undefined
  /-- A `while (true)` loop was cut after the allotted number of iterations. -/
  | outOfFuel
deriving DecidableEq, Repr

section Primitives

variable {K : Type} [LinearOrderedField K]

/-- Eigen `NumTraits<double>::dummy_precision()`, the default tolerance of `isApprox`. -/
def dummy_precision : K := 1 / 10 ^ 12

/-- Eigen `squaredNorm()` of a vector. -/
def squaredNorm (v : Vec K) : K := (v.map fun a => a * a).sum

/-- Eigen `a.isApprox(b)` on vectors:
`(a - b).squaredNorm() <= prec * prec * min(a.squaredNorm(), b.squaredNorm())`. -/
def isApprox (a b : Vec K) : Option Bool :=
  (vsub a b).map fun d =>
    decide (squaredNorm d ≤ dummy_precision * dummy_precision * min (squaredNorm a) (squaredNorm b))

/-- Eigen `squaredNorm()` of a 4x4 matrix (squared Frobenius norm). -/
def squaredNorm4 (M : Mat4 K) : K := ∑ i, ∑ j, M i j * M i j

/-- Eigen `A.isApprox(B)` on 4x4 matrices. -/
def isApprox4 (A B : Mat4 K) : Bool :=
  decide (squaredNorm4 (A - B) ≤
    dummy_precision * dummy_precision * min (squaredNorm4 A) (squaredNorm4 B))

/-- The largest of three coefficients (`maxCoeff()` of a 3-vector). -/
def max3 (a b c : K) : K := max (max a b) c

/-- `M.block(0,0,3,3).array().abs().maxCoeff()`. -/
def maxAbsBlock33 (M : Mat4 K) : K :=
  max3 (max3 |M 0 0| |M 0 1| |M 0 2|) (max3 |M 1 0| |M 1 1| |M 1 2|)
    (max3 |M 2 0| |M 2 1| |M 2 2|)

/-- `M.block(0,3,3,1).array().abs().maxCoeff()`. -/
def maxAbsCol3 (M : Mat4 K) : K := max3 |M 0 3| |M 1 3| |M 2 3|

/-- `M.block<3,4>(0,0).maxCoeff()`. -/
def maxBlock34 (M : Mat4 K) : K :=
  max3 (max (max3 (M 0 0) (M 0 1) (M 0 2)) (M 0 3))
    (max (max3 (M 1 0) (M 1 1) (M 1 2)) (M 1 3))
    (max (max3 (M 2 0) (M 2 1) (M 2 2)) (M 2 3))

/-- Eigen `M.cwiseAbs()`. -/
def cwiseAbs (M : Mat4 K) : Mat4 K := fun i j => |M i j|

/-- Eigen `M.inverse()`; a singular matrix has no inverse. -/
def inverse (M : Mat4 K) : Option (Mat4 K) :=
  if M.det = 0 then none else some (M.det⁻¹ • M.adjugate)

/-- The assignment `M(3,3) = 1.0`. -/
def set33 (M : Mat4 K) : Mat4 K := fun i j => if i = 3 ∧ j = 3 then 1 else M i j

end Primitives

/-! ## The parameter codec -/

section Codec

variable {K : Type} [LinearOrderedField K]

/-- Modelled from the spec: `param_vec2mat` is declared outside `affine.cpp`.  Spec 4.1
`toMatrix`: the 12 values are the top three rows of a row-major 4x4 homogeneous matrix
whose last row is `[0,0,0,1]`; the call fails with `InvalidLength` unless the vector has
exactly 12 elements. -/
def param_vec2mat : Vec K → Except Fault (Mat4 K)
  | [p0, p1, p2, p3, p4, p5, p6, p7, p8, p9, p10, p11] =>
    .ok !![p0, p1, p2, p3; p4, p5, p6, p7; p8, p9, p10, p11; 0, 0, 0, 1]
  | _ => .error .invalidLength

/-- Modelled from the spec: `param_mat2vec` is declared outside `affine.cpp`.  Spec 4.1
`toParams`: the inverse mapping, total on 4x4 input, ignoring row 3. -/
def param_mat2vec (M : Mat4 K) : Vec K :=
  [M 0 0, M 0 1, M 0 2, M 0 3, M 1 0, M 1 1, M 1 2, M 1 3, M 2 0, M 2 1, M 2 2, M 2 3]

/-- Modelled from the spec: `param_mat2vec` at the 3x4 matrix type of `trafo.matrix()`,
as it is called by `Affine::get_parameter_vector`. -/
def param_mat2vec_compact (M : Matrix (Fin 3) (Fin 4) K) : Vec K :=
  [M 0 0, M 0 1, M 0 2, M 0 3, M 1 0, M 1 1, M 1 2, M 1 3, M 2 0, M 2 1, M 2 2, M 2 3]

/-- The members of `class Affine` used in `affine.cpp`: the compact 3x4 matrix of
`trafo` and the centre of rotation. -/
structure Affine (K : Type) where
  trafo : Matrix (Fin 3) (Fin 4) K
  centre : Fin 3 → K

/-- `Affine::set_parameter_vector` (affine.cpp lines 299-302): `trafo.matrix()` is
assigned a row-major 3x4 map of the 12 values starting at `&param_vector(0)`.  Reading
12 values from a shorter vector is undefined. -/
def Affine.set_parameter_vector (self : Affine K) (param_vector : Vec K) :
    Option (Affine K) :=
  if 12 ≤ param_vector.length then
    some { self with trafo := fun r c => param_vector.getD (4 * r.val + c.val) 0 }
  else none

/-- `Affine::get_parameter_vector` (affine.cpp lines 304-307). -/
def Affine.get_parameter_vector (self : Affine K) : Vec K :=
  param_mat2vec_compact self.trafo

/-- `Affine::get_jacobian_vector_wrt_params` (affine.cpp lines 282-287). -/
def Affine.get_jacobian_vector_wrt_params (self : Affine K) (p : Fin 3 → K) : Fin 4 → K :=
  ![p 0 - self.centre 0, p 1 - self.centre 1, p 2 - self.centre 2, 1]

/-- The assignment `jacobian.block<1, 4>(r, c0) = v`. -/
def setBlock14 (J : Matrix (Fin 3) (Fin 12) K) (r : Fin 3) (c0 : Nat) (v : Fin 4 → K) :
    Matrix (Fin 3) (Fin 12) K :=
  fun i j =>
    if h : i = r ∧ c0 ≤ j.val ∧ j.val < c0 + 4 then v ⟨j.val - c0, by omega⟩ else J i j

/-- `Affine::get_jacobian_wrt_params` (affine.cpp lines 289-297). -/
def Affine.get_jacobian_wrt_params (self : Affine K) (p : Fin 3 → K) :
    Matrix (Fin 3) (Fin 12) K :=
  let jacobian : Matrix (Fin 3) (Fin 12) K := 0
  let v := self.get_jacobian_vector_wrt_params p
  let jacobian := setBlock14 jacobian 0 0 v
  let jacobian := setBlock14 jacobian 1 4 v
  setBlock14 jacobian 2 8 v

end Codec

/-! ## The robust gradient estimate -/

section RobustEstimate

variable {K : Type}

/-- `Affine::robust_estimate` (affine.cpp lines 310-319): the body is the single statement
`throw Exception ("TODO robust estimate")`.  The result is the outcome of the call (the
message of the exception, or the returned boolean) together with the two arguments passed
by non-const reference, `gradient` and `grad_estimates`, as they stand after the call. -/
def Affine.robust_estimate (_self : Affine K) (gradient : Vec K)
    (grad_estimates : List (Vec K)) (_control_points : Mat4 K) (_parameter_vector : Vec K)
    (_weiszfeld_precision : K) (_weiszfeld_iterations : Nat) (_learning_rate : K) :
    Except String Bool × Vec K × List (Vec K) :=
  (.error "TODO robust estimate", gradient, grad_estimates)

end RobustEstimate

/-! ## The robust (unconstrained) update -/

section Robust

variable {K : Type} [LinearOrderedField K]

/-- `AffineRobustEstimator::operator()` (affine.cpp lines 258-266).  `newx` is an output
buffer that the assignment overwrites; the result is the new `newx` and the returned
boolean. -/
def AffineRobustEstimator.operator_call (x g : Vec K) (step_size : K) :
    Option (Vec K × Bool) :=
  (vsub x (smul step_size g)).bind fun newx =>
  (isApprox newx x).bind fun approx =>
  some (newx, !approx)

end Robust

/-! ## The constrained update -/

section Update

variable {K : Type} [LinearOrderedField K]

/-- The data members of `class AffineUpdate` that `affine.cpp` reads.  `control_points`
is a dynamically sized matrix, empty (`size() == 0`) until `set_control_points` stores a
4x4 matrix in it. -/
structure AffineUpdate (K : Type) where
  control_points : Option (Mat4 K)
  coherence_distance : Fin 3 → K
  stop_len : Fin 4 → K
  recip_spacing : Fin 4 → K

/-- `AffineUpdate::set_control_points` (affine.cpp lines 244-255); the two assertions on
the shape of `points` are carried by its type. -/
def AffineUpdate.set_control_points (_self : AffineUpdate K) (points : Mat4 K)
    (coherence_dist stop_length voxel_spacing : Fin 3 → K) : AffineUpdate K :=
  { control_points := some points
    coherence_distance := coherence_dist
    stop_len := ![stop_length 0, stop_length 1, stop_length 2, 0]
    recip_spacing := ![(voxel_spacing 0)⁻¹, (voxel_spacing 1)⁻¹, (voxel_spacing 2)⁻¹, 1] }

/-- The vector `g * step_size`. -/
def scaled (g : Vec K) (step_size : K) : Vec K := g.map fun a => a * step_size

/-- The test `(Diff.template block<3,1>(0,j) - coherence_distance).maxCoeff() > 0.0`. -/
def exceeds (Diff : Mat4 K) (d : Fin 3 → K) (j : Fin 4) : Bool :=
  decide (max3 (Diff 0 j - d 0) (Diff 1 j - d 1) (Diff 2 j - d 2) > 0)

/-- The four consecutive coherence tests on columns 0..3 (affine.cpp lines 142-145 and
163-166); any of them sends the loop to its next iteration. -/
def incoherent (Diff : Mat4 K) (d : Fin 3 → K) : Bool :=
  exceeds Diff d 0 || exceeds Diff d 1 || exceeds Diff d 2 || exceeds Diff d 3

/-- The expression `(Asqrt * Bsqrtinv) - ((Asqrt * Bsqrtinv - Bsqrtinv * Asqrt) * 0.5)`
(affine.cpp lines 161 and 211). -/
def symmetric_candidate (Asqrt Bsqrtinv : Mat4 K) : Mat4 K :=
  Asqrt * Bsqrtinv - (1 / 2 : K) • (Asqrt * Bsqrtinv - Bsqrtinv * Asqrt)

/-- The matrix `A = X - Delta; A(3,3) = 1.0`. -/
def matA (X Delta : Mat4 K) : Mat4 K := set33 (X - Delta)

/-- The matrix `B = X.inverse() + Delta; B(3,3) = 1.0`. -/
def matB (Xinv Delta : Mat4 K) : Mat4 K := set33 (Xinv + Delta)

/-- What the candidate loop hands to the rest of `operator()`: the step size finally
used, the accepted `Xnew`, and (with control points) the last value of `Diff`. -/
structure Accepted (K : Type) where
  step_size : K
  Xnew : Mat4 K
  Diff : Option (Mat4 K)

/-- The square-root stage shared by both branches (affine.cpp lines 155-161 and
203-211).  `msqrt` is Eigen's `MatrixBase::sqrt()`; with `checked` the two `assert`s on
the roots are evaluated. -/
def root_stage (checked : Bool) (msqrt : Mat4 K → Mat4 K) (A B : Mat4 K) :
    Except Fault (Mat4 K) :=
  let Asqrt := msqrt A
  if checked && !isApprox4 A (Asqrt * Asqrt) then .error .undefined
  else
    let Bsqrt := msqrt B
    if checked && !isApprox4 B (Bsqrt * Bsqrt) then .error .undefined
    else
      match inverse Bsqrt with
      | none => .error .undefined
      | some Bsqrtinv => .ok (symmetric_candidate Asqrt Bsqrtinv)

/-- The `while (true)` loop of the control-point branch (affine.cpp lines 137-169), cut
after `fuel` iterations. -/
def cp_loop (checked : Bool) (msqrt : Mat4 K → Mat4 K) (X P : Mat4 K) (d : Fin 3 → K)
    (g : Vec K) : Nat → K → Except Fault (Accepted K)
  | 0, _ => .error .outOfFuel
  | fuel + 1, step_size =>
    match param_vec2mat (scaled g step_size) with
    | .error e => .error e
    | .ok Delta =>
      if (X + Delta).det ≤ 0 then cp_loop checked msqrt X P d g fuel (step_size * (1 / 2))
      else if incoherent (cwiseAbs ((X + Delta) * P - X * P)) d then
        cp_loop checked msqrt X P d g fuel (step_size * (1 / 2))
      else if (matA X Delta).det ≤ 0 then
        cp_loop checked msqrt X P d g fuel (step_size * (1 / 2))
      else
        match inverse X with
        | none => .error .undefined
        | some Xinv =>
          if (matB Xinv Delta).det ≤ 0 then
            cp_loop checked msqrt X P d g fuel (step_size * (1 / 2))
          else
            match root_stage checked msqrt (matA X Delta) (matB Xinv Delta) with
            | .error e => .error e
            | .ok Xnew =>
              if incoherent (cwiseAbs (Xnew * P - X * P)) d then
                cp_loop checked msqrt X P d g fuel (step_size * (1 / 2))
              else
                .ok { step_size := step_size, Xnew := Xnew
                      Diff := some (cwiseAbs (Xnew * P - X * P)) }

/-- The `while (true)` loop of the branch without control points (affine.cpp lines
175-196), cut after `fuel` iterations; it yields the step size and the `Delta` of the
last iteration.  The counter `cnt` only feeds a log message and is left out. -/
def no_cp_loop (X G : Mat4 K) (g : Vec K) : Nat → K → Except Fault (K × Mat4 K)
  | 0, _ => .error .outOfFuel
  | fuel + 1, step_size =>
    match param_vec2mat (scaled g step_size) with
    | .error e => .error e
    | .ok Delta =>
      if maxAbsBlock33 Delta > 1 / 10 then
        no_cp_loop X G g fuel (9 / 100 / maxAbsBlock33 G)
      else if maxAbsCol3 Delta > 10 then
        no_cp_loop X G g fuel (9 / maxAbsCol3 G)
      else if (matA X Delta).det < 0 then
        no_cp_loop X G g fuel (step_size * (9 / 10))
      else .ok (step_size, Delta)

/-- The angle clamp (affine.cpp lines 129-131). -/
def clamp_step (G : Mat4 K) (step_size : K) : K :=
  if step_size * maxAbsBlock33 G > 1 / 5 then 1 / 5 / maxAbsBlock33 G else step_size

/-- `AffineUpdate::operator()` up to the computation of `Xnew` (affine.cpp lines
119-212). -/
def AffineUpdate.candidate (self : AffineUpdate K) (checked : Bool)
    (msqrt : Mat4 K → Mat4 K) (fuel : Nat) (x g : Vec K) (step_size : K) :
    Except Fault (Accepted K) :=
  match param_vec2mat g with
  | .error e => .error e
  | .ok G =>
    match param_vec2mat x with
    | .error e => .error e
    | .ok X =>
      match self.control_points with
      | some P =>
        cp_loop checked msqrt X P self.coherence_distance g fuel (clamp_step G step_size)
      | none =>
        match no_cp_loop X G g fuel (clamp_step G step_size) with
        | .error e => .error e
        | .ok (step, Delta) =>
          match inverse X with
          | none => .error .undefined
          | some Xinv =>
            if checked && !decide ((matB Xinv Delta).det > 0) then .error .undefined
            else
              match root_stage checked msqrt (matA X Delta) (matB Xinv Delta) with
              | .error e => .error e
              | .ok Xnew => .ok { step_size := step, Xnew := Xnew, Diff := none }

/-- The stop criterion on the control-point shifts (affine.cpp lines 218-223):
rows 0..2 of `Diff` are scaled by `recip_spacing`, `stop_len` is subtracted from every
column, and the test is `Diff.block<3,4>(0,0).maxCoeff() <= 0.0`. -/
def AffineUpdate.below_stop_len (self : AffineUpdate K) (Diff : Mat4 K) : Bool :=
  let scaledDiff : Mat4 K := fun i j =>
    (if i = 3 then Diff i j else Diff i j * self.recip_spacing i) - self.stop_len i
  decide (maxBlock34 scaledDiff ≤ 0)

/-- `AffineUpdate::operator()` (affine.cpp lines 115-242): the new `newx` and the
returned boolean. -/
def AffineUpdate.operator_call (self : AffineUpdate K) (checked : Bool)
    (msqrt : Mat4 K → Mat4 K) (fuel : Nat) (x g : Vec K) (step_size : K) :
    Except Fault (Vec K × Bool) :=
  match self.candidate checked msqrt fuel x g step_size with
  | .error e => .error e
  | .ok acc =>
    let newx := param_mat2vec acc.Xnew
    match acc.Diff with
    | some Diff =>
      if self.below_stop_len Diff then .ok (newx, false)
      else
        match isApprox newx x with
        | none => .error .undefined
        | some approx => .ok (newx, !approx)
    | none =>
      match isApprox newx x with
      | none => .error .undefined
      | some approx => .ok (newx, !approx)

end Update

section LoopBody

variable {K : Type} [LinearOrderedField K]

/-- The part of `AffineUpdate::operator()` that follows the angle clamp (affine.cpp lines
132-212), as a function of the step size with which the candidate loop is entered. -/
def AffineUpdate.run_loop (self : AffineUpdate K) (checked : Bool)
    (msqrt : Mat4 K → Mat4 K) (fuel : Nat) (X G : Mat4 K) (g : Vec K) (step_size : K) :
    Except Fault (Accepted K) :=
  match self.control_points with
  | some P => cp_loop checked msqrt X P self.coherence_distance g fuel step_size
  | none =>
    match no_cp_loop X G g fuel step_size with
    | .error e => .error e
    | .ok (step, Delta) =>
      match inverse X with
      | none => .error .undefined
      | some Xinv =>
        if checked && !decide ((matB Xinv Delta).det > 0) then .error .undefined
        else
          match root_stage checked msqrt (matA X Delta) (matB Xinv Delta) with
          | .error e => .error e
          | .ok Xnew => .ok { step_size := step, Xnew := Xnew, Diff := none }

end LoopBody

section ScaledGradient

variable {K : Type} [LinearOrderedField K]

/-- The matrix that `param_vec2mat (g * t, Delta)` yields when `G` is the decoding of `g`:
rows 0..2 of `G` multiplied by `t`, above the bottom row of `G` (established by
`decode_scaled` below). -/
def scaledDelta (G : Mat4 K) (t : K) : Mat4 K :=
  fun i j => if i = 3 then G i j else G i j * t

end ScaledGradient

/-! ## A strongly anisotropic transform -/

section Skew

/-- A current transform with a strongly anisotropic linear part. -/
def skew_x : Vec ℚ := [1849, 858 / 5, 0, 0, 1 / 10, 1, 0, 0, 0, 0, 1, 0]

/-- The gradient used with `skew_x`; with step size 1 its decoding is `skew_Delta`. -/
def skew_g : Vec ℚ := [0, 2145 / 22898, 0, 0, 1 / 10, 0, 0, 0, 0, 0, 0, 0]

/-- The decoding of `skew_x`. -/
def skew_X : Mat4 ℚ := !![1849, 858 / 5, 0, 0; 1 / 10, 1, 0, 0; 0, 0, 1, 0; 0, 0, 0, 1]

/-- The decoding of `skew_g * 1`. -/
def skew_Delta : Mat4 ℚ := !![0, 2145 / 22898, 0, 0; 1 / 10, 0, 0, 0; 0, 0, 0, 0; 0, 0, 0, 1]

/-- The inverse of `skew_X`. -/
def skew_Xinv : Mat4 ℚ :=
  !![25 / 45796, -2145 / 22898, 0, 0; -5 / 91592, 46225 / 45796, 0, 0; 0, 0, 1, 0; 0, 0, 0, 1]

/-- The matrix `A = X - Delta` with `A(3,3) = 1` for `skew_X`, `skew_Delta`. -/
def skew_A : Mat4 ℚ := !![1849, 19635759 / 114490, 0, 0; 0, 1, 0, 0; 0, 0, 1, 0; 0, 0, 0, 1]

/-- The matrix `B = X.inverse() + Delta` with `B(3,3) = 1` for `skew_X`, `skew_Delta`. -/
def skew_B : Mat4 ℚ :=
  !![25 / 45796, 0, 0, 0; 45771 / 457960, 46225 / 45796, 0, 0; 0, 0, 1, 0; 0, 0, 0, 1]

/-- The principal square root of `skew_A`: upper triangular with diagonal `43, 1, 1, 1`. -/
def skew_Asqrt : Mat4 ℚ := !![43, 1785069 / 457960, 0, 0; 0, 1, 0, 0; 0, 0, 1, 0; 0, 0, 0, 1]

/-- The principal square root of `skew_B`: lower triangular with diagonal
`5/214, 215/214, 1, 1`. -/
def skew_Bsqrt : Mat4 ℚ :=
  !![5 / 214, 0, 0, 0; 4161 / 42800, 215 / 214, 0, 0; 0, 0, 1, 0; 0, 0, 0, 1]

/-- The inverse of `skew_Bsqrt`. -/
def skew_Bsqrtinv : Mat4 ℚ :=
  !![214 / 5, 0, 0, 0; -445227 / 107500, 214 / 215, 0, 0; 0, 0, 1, 0; 0, 0, 0, 1]

/-- The symmetrised product of `skew_Asqrt` and `skew_Bsqrtinv`. -/
def skew_Xnew : Mat4 ℚ :=
  !![1686108407891 / 920200000, 19635759 / 230050, 0, 0;
     -4897497 / 53750, -6511752109 / 920200000, 0, 0; 0, 0, 1, 0; 0, 0, 0, 1]

/-- A matrix square root function that returns the principal square roots of `skew_A`
and `skew_B`. -/
def skew_sqrt (M : Mat4 ℚ) : Mat4 ℚ :=
  if M = skew_A then skew_Asqrt else if M = skew_B then skew_Bsqrt else M

/-- An updater on which `set_control_points` has not been called. -/
def unconfigured : AffineUpdate ℚ :=
  { control_points := none, coherence_distance := 0, stop_len := 0, recip_spacing := 0 }

/-- Four homogeneous control points (columns): the origin and the three unit points. -/
def skew_points : Mat4 ℚ := !![0, 1, 0, 0; 0, 0, 1, 0; 0, 0, 0, 1; 1, 1, 1, 1]

/-- An updater with the control points `skew_points`, coherence distance 100 per axis,
stop length 0 and unit voxel spacing. -/
def skew_configured : AffineUpdate ℚ :=
  unconfigured.set_control_points skew_points ![100, 100, 100] ![0, 0, 0] ![1, 1, 1]

/-- The control-point shifts `|Xnew * P - X * P|` for `skew_Xnew`, `skew_X`, `skew_points`. -/
def skew_Diff : Mat4 ℚ :=
  !![0, 15341392109 / 920200000, 19840821 / 230050, 0;
     0, 2451436 / 26875, 7431952109 / 920200000, 0; 0, 0, 0, 0; 0, 0, 0, 0]

/-- The identity transform as a parameter vector. -/
def identity_params : Vec ℚ := [1, 0, 0, 0, 0, 1, 0, 0, 0, 0, 1, 0]

/-- The zero gradient. -/
def zero_gradient : Vec ℚ := [0, 0, 0, 0, 0, 0, 0, 0, 0, 0, 0, 0]

end Skew

/-! ## A reflection, and two strongly scaled transforms -/

section Mirror

/-- A reflection: the parameter vector of `diag(-1, 1, 1)` with zero translation. -/
def mirror_params : Vec ℚ := [-1, 0, 0, 0, 0, 1, 0, 0, 0, 0, 1, 0]

/-- The decoding of `mirror_params`. -/
def mirror_X : Mat4 ℚ := !![-1, 0, 0, 0; 0, 1, 0, 0; 0, 0, 1, 0; 0, 0, 0, 1]

/-- The decoding of the zero gradient (times any step size). -/
def zero_G : Mat4 ℚ := !![0, 0, 0, 0; 0, 0, 0, 0; 0, 0, 0, 0; 0, 0, 0, 1]

end Mirror

section Extreme

/-- A current transform that stretches the first axis by the factor 32. -/
def stretch_x : Vec ℚ := [32, 0, 0, 0, 0, 1, 0, 0, 0, 0, 1, 0]

/-- The gradient used with `stretch_x`. -/
def stretch_g : Vec ℚ := [-1 / 16, 0, 0, 0, 0, 0, 0, 0, 0, 0, 0, 0]

/-- The decoding of `stretch_x`. -/
def stretch_X : Mat4 ℚ := !![32, 0, 0, 0; 0, 1, 0, 0; 0, 0, 1, 0; 0, 0, 0, 1]

/-- The decoding of `stretch_g * 1`. -/
def stretch_Delta : Mat4 ℚ := !![-1 / 16, 0, 0, 0; 0, 0, 0, 0; 0, 0, 0, 0; 0, 0, 0, 1]

/-- The inverse of `stretch_X`. -/
def stretch_Xinv : Mat4 ℚ := !![1 / 32, 0, 0, 0; 0, 1, 0, 0; 0, 0, 1, 0; 0, 0, 0, 1]

/-- The matrix `A = X - Delta` with `A(3,3) = 1` for `stretch_X`, `stretch_Delta`. -/
def stretch_A : Mat4 ℚ := !![513 / 16, 0, 0, 0; 0, 1, 0, 0; 0, 0, 1, 0; 0, 0, 0, 1]

/-- The matrix `B = X.inverse() + Delta` with `B(3,3) = 1` for `stretch_X`,
`stretch_Delta`. -/
def stretch_B : Mat4 ℚ := !![-1 / 32, 0, 0, 0; 0, 1, 0, 0; 0, 0, 1, 0; 0, 0, 0, 1]

/-- A current transform that squeezes the first axis by the factor 16. -/
def squeeze_x : Vec ℚ := [1 / 16, 0, 0, 0, 0, 1, 0, 0, 0, 0, 1, 0]

/-- The gradient used with `squeeze_x`. -/
def squeeze_g : Vec ℚ := [1 / 16, 0, 0, 0, 0, 0, 0, 0, 0, 0, 0, 0]

/-- The decoding of `squeeze_x`. -/
def squeeze_X : Mat4 ℚ := !![1 / 16, 0, 0, 0; 0, 1, 0, 0; 0, 0, 1, 0; 0, 0, 0, 1]

/-- The decoding of `squeeze_g * 1`. -/
def squeeze_Delta : Mat4 ℚ := !![1 / 16, 0, 0, 0; 0, 0, 0, 0; 0, 0, 0, 0; 0, 0, 0, 1]

/-- The inverse of `squeeze_X`. -/
def squeeze_Xinv : Mat4 ℚ := !![16, 0, 0, 0; 0, 1, 0, 0; 0, 0, 1, 0; 0, 0, 0, 1]

/-- The matrix `A = X - Delta` with `A(3,3) = 1` for `squeeze_X`, `squeeze_Delta`. -/
def squeeze_A : Mat4 ℚ := !![0, 0, 0, 0; 0, 1, 0, 0; 0, 0, 1, 0; 0, 0, 0, 1]

/-- The matrix `B = X.inverse() + Delta` with `B(3,3) = 1` for `squeeze_X`,
`squeeze_Delta`. -/
def squeeze_B : Mat4 ℚ := !![257 / 16, 0, 0, 0; 0, 1, 0, 0; 0, 0, 1, 0; 0, 0, 0, 1]

/-- A rational approximation of the square root of `squeeze_B`:
`(4214804 / 1051649)^2 = 257/16 - 1 / (16 * 1051649^2)`. -/
def squeeze_Bsqrt : Mat4 ℚ :=
  !![4214804 / 1051649, 0, 0, 0; 0, 1, 0, 0; 0, 0, 1, 0; 0, 0, 0, 1]

/-- The inverse of `squeeze_Bsqrt`. -/
def squeeze_Bsqrtinv : Mat4 ℚ :=
  !![1051649 / 4214804, 0, 0, 0; 0, 1, 0, 0; 0, 0, 1, 0; 0, 0, 0, 1]

/-- A matrix square root function that is exact on `squeeze_A` (a projection) and
accurate to the tolerance of `isApprox` on `squeeze_B`. -/
def squeeze_sqrt (M : Mat4 ℚ) : Mat4 ℚ :=
  if M = squeeze_B then squeeze_Bsqrt else M

end Extreme

section NegativeCoherence

end NegativeCoherence

end MR.Registration.Transform

namespace MR.GUI.MRView.Tool

/-! ## The connectome tool: per-node display properties -/

section ConnectomeModel

variable {K : Type} [LinearOrderedField K]

/-- The display properties of a node that `connectome.cpp` writes through the setters of
`class Node` (`set_visible`, `set_alpha`, `set_size`, `set_colour`) and reads back through
its getters.  The class is declared outside `connectome.cpp`; each setter is taken to
assign the field of its name. -/
structure Node (K : Type) where
  visible : Bool
  alpha : K
  size : K
  colour : Fin 3 → K

/-- The values of the member `node_alpha` that `calculate_node_alphas` tests. -/
inductive node_alpha_t where
  | NODE_ALPHA_FIXED
  | NODE_ALPHA_LUT
  | NODE_ALPHA_FILE
deriving DecidableEq, Repr

/-- The members of `class Connectome` that `calculate_node_alphas` uses.  `nodes` holds a
placeholder at index 0 followed by the nodes `1 .. num_nodes()` (connectome.cpp lines
879-883).  An entry of `lut_mapping` is `none` for `lut.end()` and otherwise the value of
`get_alpha()` of the lookup-table entry it points to. -/
structure Connectome (K : Type) where
  nodes : List (Node K)
  node_alpha : node_alpha_t
  node_fixed_alpha : K
  lut_size : Nat
  lut_mapping : List (Option K)
  node_values_from_file_alpha : List K

/-- The member `num_nodes()`, declared outside `connectome.cpp`: the number of entries of
`nodes` after the placeholder. -/
def Connectome.num_nodes (self : Connectome K) : Nat := self.nodes.length - 1

/-- The statement `nodes[i].set_alpha (a)`; an index outside `nodes` is undefined. -/
def set_alpha_at (nodes : List (Node K)) (i : Nat) (a : K) : Option (List (Node K)) :=
  match nodes[i]? with
  | none => none
  | some nd => some (nodes.set i { nd with alpha := a })

/-- The statement `nodes[i].set_visible (v)` for a `float` argument `v`, which converts to
`true` exactly when it is non-zero; an index outside `nodes` is undefined. -/
def set_visible_at (nodes : List (Node K)) (i : Nat) (v : K) : Option (List (Node K)) :=
  match nodes[i]? with
  | none => none
  | some nd => some (nodes.set i { nd with visible := decide (v ≠ 0) })

/-- The loop `for (size_t i = 1; i != num_nodes()+1; ++i) body`, for a body that leaves
the number of nodes unchanged. -/
def for_each_node (n : Nat) (body : List (Node K) → Nat → Option (List (Node K)))
    (nodes : List (Node K)) : Option (List (Node K)) :=
  (List.range' 1 n).foldlM body nodes

/-- `Connectome::calculate_node_alphas` (connectome.cpp lines 1049-1074).  With `checked`
the two `assert`s are evaluated.  The result is the object after the call. -/
def Connectome.calculate_node_alphas (self : Connectome K) (checked : Bool) :
    Option (Connectome K) :=
  match self.node_alpha with
  | .NODE_ALPHA_FIXED =>
    some { self with nodes := self.nodes.map fun nd => { nd with alpha := 1 } }
  | .NODE_ALPHA_LUT =>
    if checked && self.lut_size == 0 then none
    else
      (for_each_node self.num_nodes (fun nodes node_index =>
        match self.lut_mapping[node_index]? with
        | none => none
        | some none => set_alpha_at nodes node_index self.node_fixed_alpha
        | some (some a) => set_alpha_at nodes node_index (a / 255)) self.nodes).map
        fun nodes => { self with nodes := nodes }
  | .NODE_ALPHA_FILE =>
    if checked && self.node_values_from_file_alpha.length == 0 then none
    else
      (for_each_node self.num_nodes (fun nodes i =>
        match self.node_values_from_file_alpha[i - 1]? with
        | none => none
        | some v => set_visible_at nodes i v) self.nodes).map
        fun nodes => { self with nodes := nodes }

end ConnectomeModel

section ConnectomeData

/-- A placeholder node followed by two visible, opaque nodes of size 1. -/
def sample_nodes : List (Node ℚ) :=
  [{ visible := false, alpha := 0, size := 0, colour := ![0, 0, 0] },
   { visible := true, alpha := 1, size := 1, colour := ![1, 0, 0] },
   { visible := true, alpha := 1, size := 1, colour := ![0, 1, 0] }]

/-- A connectome in file mode: the imported vector holds the alphas `1/2` and `0` for the
nodes 1 and 2. -/
def file_connectome : Connectome ℚ :=
  { nodes := sample_nodes
    node_alpha := .NODE_ALPHA_FILE
    node_fixed_alpha := 1
    lut_size := 0
    lut_mapping := []
    node_values_from_file_alpha := [1 / 2, 0] }

/-- A connectome in lookup-table mode: node 1 is mapped to an entry with alpha 51,
node 2 is not mapped. -/
def lut_connectome : Connectome ℚ :=
  { nodes := sample_nodes
    node_alpha := .NODE_ALPHA_LUT
    node_fixed_alpha := 1 / 4
    lut_size := 1
    lut_mapping := [none, some 51, none]
    node_values_from_file_alpha := [] }

end ConnectomeData

end MR.GUI.MRView.Tool

namespace MR.Registration.Transform

/-! # Properties -/

section VectorLemmas

variable {K : Type} [LinearOrderedField K]

theorem cwise_eq_some (f : K → K → K) (a b : Vec K) (h : a.length = b.length) :
    cwise f a b = some (List.zipWith f a b) := by
  simp [cwise, h]

theorem cwise_length {f : K → K → K} {a b c : Vec K} (h : cwise f a b = some c) :
    c.length = a.length ∧ c.length = b.length := by
  unfold cwise at h
  split at h
  · next hl =>
    simp only [Option.some.injEq] at h
    subst h
    simp [hl]
  · simp at h

theorem length_smul (s : K) (a : Vec K) : (smul s a).length = a.length := by
  simp [smul]

theorem zipWith_map_same (f : K → K → K) (g h : K → K) (c : Vec K) :
    List.zipWith f (c.map g) (c.map h) = c.map fun x => f (g x) (h x) := by
  induction c with
  | nil => rfl
  | cons a c ih => simp [ih]

theorem cwise_map_same (f : K → K → K) (g h : K → K) (c : Vec K) :
    cwise f (c.map g) (c.map h) = some (c.map fun x => f (g x) (h x)) := by
  rw [cwise_eq_some _ _ _ (by simp), zipWith_map_same]

theorem vsub_self_flat (c : Vec K) : vsub c c = some (zeros c) := by
  have h := cwise_map_same (fun x y => x - y) id id c
  simpa [vsub, zeros] using h

theorem vadd_zeros_flat (c : Vec K) : vadd c (zeros c) = some c := by
  have h := cwise_map_same (fun x y => x + y) id (fun _ => (0 : K)) c
  simpa [vadd, zeros] using h

theorem vadd_smul_flat (a : K) (c : Vec K) :
    vadd (smul a c) (smul (1 - a) c) = some c := by
  have h := cwise_map_same (fun x y => x + y) (fun x => a * x) (fun x => (1 - a) * x) c
  have e : (fun x : K => a * x + (1 - a) * x) = id := by
    funext x
    simp only [id]
    ring
  simpa [vadd, smul, e] using h

theorem vadd_smul_zeros_flat (b : K) (c : Vec K) :
    vadd (smul b (zeros c)) (smul (1 - b) (zeros c)) = some (zeros c) := by
  have h := cwise_map_same (fun x y => x + y) (fun _ => b * (0 : K))
    (fun _ => (1 - b) * (0 : K)) c
  simpa [vadd, smul, zeros] using h

end VectorLemmas

section RoundedLemmas

variable {K : Type} [LinearOrderedField K]

theorem vadd_fl_id (a b : Vec K) : vadd_fl id a b = vadd a b := by
  cases h : vadd a b <;> simp [vadd_fl, h, vround]

theorem vsub_fl_id (a b : Vec K) : vsub_fl id a b = vsub a b := by
  cases h : vsub a b <;> simp [vsub_fl, h, vround]

theorem smul_fl_id (s : K) (a : Vec K) : smul_fl id s a = smul s a := by
  simp [smul_fl, vround]

theorem vsub_fl_self_flat (fl : K → K) (c : Vec K) (h0 : fl 0 = 0) :
    vsub_fl fl c c = some (zeros c) := by
  simp [vsub_fl, vsub_self_flat, vround, zeros, h0]

theorem vadd_fl_zeros_flat (fl : K → K) (c : Vec K) (hrep : ∀ x ∈ c, fl x = x) :
    vadd_fl fl c (zeros c) = some c := by
  simp only [vadd_fl, vadd_zeros_flat, Option.map_some', vround]
  congr 1
  exact (List.map_congr_left hrep).trans (List.map_id c)

theorem smul_fl_zeros (fl : K → K) (b : K) (c : Vec K) (h0 : fl 0 = 0) :
    smul_fl fl b (zeros c) = zeros c := by
  simp [smul_fl, smul, vround, zeros, h0]

theorem vadd_fl_smul_zeros_flat (fl : K → K) (b b' : K) (c : Vec K) (h0 : fl 0 = 0) :
    vadd_fl fl (smul_fl fl b (zeros c)) (smul_fl fl b' (zeros c)) = some (zeros c) := by
  rw [smul_fl_zeros fl b c h0, smul_fl_zeros fl b' c h0]
  have h := cwise_map_same (fun x y => x + y) (fun _ => (0 : K)) (fun _ => (0 : K)) c
  simp only [vadd_fl, vadd, zeros, h, Option.map_some', vround, List.map_map]
  congr 1
  apply List.map_congr_left
  intro x _
  simp [h0]

theorem vadd_fl_smul_flat (fl : K → K) (a : K) (c : Vec K)
    (hfix : ∀ x ∈ c, fl (fl (a * x) + fl (fl (1 - a) * x)) = x) :
    vadd_fl fl (smul_fl fl a c) (smul_fl fl (fl (1 - a)) c) = some c := by
  have h := cwise_map_same (fun x y => x + y) (fun x => fl (a * x))
    (fun x => fl (fl (1 - a) * x)) c
  simp only [vadd_fl, vadd, smul_fl, smul, vround, List.map_map, Function.comp_def, h,
    Option.map_some']
  congr 1
  exact (List.map_congr_left hfix).trans (List.map_id c)

end RoundedLemmas

section Binary64Lemmas

theorem round_half_even_eq (t : ℚ) (n : ℤ) (h1 : (n : ℚ) - 1 / 2 < t) (h2 : t < n + 1 / 2) :
    round_half_even t = n := by
  unfold round_half_even
  rcases le_or_lt (n : ℚ) t with h | h
  · have hf : ⌊t⌋ = n := Int.floor_eq_iff.mpr ⟨h, by linarith⟩
    rw [hf, if_pos (by linarith)]
  · have hf : ⌊t⌋ = n - 1 := Int.floor_eq_iff.mpr ⟨by push_cast; linarith, by push_cast; linarith⟩
    rw [hf, if_neg (by push_cast; linarith), if_pos (by push_cast; linarith)]
    ring

theorem round_half_even_tie_even (t : ℚ) (n : ℤ) (h : t = n + 1 / 2) (he : n % 2 = 0) :
    round_half_even t = n := by
  have hf : ⌊t⌋ = n := Int.floor_eq_iff.mpr ⟨by linarith, by linarith⟩
  unfold round_half_even
  rw [hf, if_neg (by linarith), if_neg (by linarith), if_pos he]

theorem round_half_even_tie_odd (t : ℚ) (n : ℤ) (h : t = n + 1 / 2) (ho : n % 2 = 1) :
    round_half_even t = n + 1 := by
  have hf : ⌊t⌋ = n := Int.floor_eq_iff.mpr ⟨by linarith, by linarith⟩
  unfold round_half_even
  rw [hf, if_neg (by linarith), if_neg (by linarith), if_neg (by omega)]

theorem int_log_eq (a : ℚ) (e : ℤ) (h1 : (2 : ℚ) ^ e ≤ a) (h2 : a < 2 ^ (e + 1)) :
    Int.log 2 a = e := by
  have ha : 0 < a := lt_of_lt_of_le (zpow_pos (by norm_num) e) h1
  apply le_antisymm
  · have := (Int.lt_zpow_iff_log_lt (b := 2) (by norm_num) ha).mp (by exact_mod_cast h2)
    omega
  · exact (Int.zpow_le_iff_le_log (b := 2) (by norm_num) ha).mp (by exact_mod_cast h1)

theorem round_double_zero : round_double 0 = 0 := by
  simp [round_double]

theorem round_double_of_zero (q : ℚ) (h : q = 0) : round_double q = 0 := by
  rw [h, round_double_zero]

theorem round_double_val (q r : ℚ) (e n : ℤ)
    (h1 : (2 : ℚ) ^ e ≤ q ∨ (2 : ℚ) ^ e ≤ -q)
    (h2 : -(2 : ℚ) ^ (e + 1) < q ∧ q < 2 ^ (e + 1))
    (h3 : (n : ℚ) - 1 / 2 < q / 2 ^ (e - 52)) (h4 : q / 2 ^ (e - 52) < n + 1 / 2)
    (hr : (n : ℚ) * 2 ^ (e - 52) = r) :
    round_double q = r := by
  replace h1 : (2 : ℚ) ^ e ≤ |q| := le_abs.mpr h1
  replace h2 : |q| < 2 ^ (e + 1) := abs_lt.mpr h2
  have hq : q ≠ 0 := by
    intro h
    rw [h, abs_zero] at h1
    exact absurd h1 (not_le.mpr (zpow_pos (by norm_num) e))
  unfold round_double
  rw [if_neg hq, int_log_eq _ e h1 h2, round_half_even_eq _ n h3 h4, hr]

theorem round_double_tie_even (q r : ℚ) (e n : ℤ)
    (h1 : (2 : ℚ) ^ e ≤ q ∨ (2 : ℚ) ^ e ≤ -q)
    (h2 : -(2 : ℚ) ^ (e + 1) < q ∧ q < 2 ^ (e + 1))
    (h3 : q / 2 ^ (e - 52) = n + 1 / 2) (he : n % 2 = 0)
    (hr : (n : ℚ) * 2 ^ (e - 52) = r) :
    round_double q = r := by
  replace h1 : (2 : ℚ) ^ e ≤ |q| := le_abs.mpr h1
  replace h2 : |q| < 2 ^ (e + 1) := abs_lt.mpr h2
  have hq : q ≠ 0 := by
    intro h
    rw [h, abs_zero] at h1
    exact absurd h1 (not_le.mpr (zpow_pos (by norm_num) e))
  unfold round_double
  rw [if_neg hq, int_log_eq _ e h1 h2, round_half_even_tie_even _ n h3 he, hr]

theorem round_double_tie_odd (q r : ℚ) (e n : ℤ)
    (h1 : (2 : ℚ) ^ e ≤ q ∨ (2 : ℚ) ^ e ≤ -q)
    (h2 : -(2 : ℚ) ^ (e + 1) < q ∧ q < 2 ^ (e + 1))
    (h3 : q / 2 ^ (e - 52) = n + 1 / 2) (ho : n % 2 = 1)
    (hr : ((n + 1 : ℤ) : ℚ) * 2 ^ (e - 52) = r) :
    round_double q = r := by
  replace h1 : (2 : ℚ) ^ e ≤ |q| := le_abs.mpr h1
  replace h2 : |q| < 2 ^ (e + 1) := abs_lt.mpr h2
  have hq : q ≠ 0 := by
    intro h
    rw [h, abs_zero] at h1
    exact absurd h1 (not_le.mpr (zpow_pos (by norm_num) e))
  unfold round_double
  rw [if_neg hq, int_log_eq _ e h1 h2, round_half_even_tie_odd _ n h3 ho, hr]

end Binary64Lemmas

namespace DoubleExpSmoothSlopeCheck

variable {K : Type} [LinearOrderedField K]

theorem go_on_result {m m' : DoubleExpSmoothSlopeCheck K} {e : Vec K} {r : Bool}
    (h : m.go_on e = some (r, m')) :
    m'.buffer_len = m.buffer_len ∧ m'.min_iter = m.min_iter ∧ m'.thresh = m.thresh ∧
    m'.iter_count = (m.iter_count + 1) % SIZE_MOD ∧
    (m.len = 0 → r = true) ∧
    (m.len ≠ 0 →
      r = (m'.stop_cnt != m'.buffer_len || decide (m'.iter_count < m'.min_iter))) := by
  unfold go_on at h
  by_cases hlen : m.len = 0
  · by_cases hx : m.x0.length = 0
    · simp only [hlen, hx, if_true, Option.some.injEq, Prod.mk.injEq] at h
      obtain ⟨h1, h2⟩ := h
      subst h2
      simp [hlen, h1.symm]
    · simp only [hlen, hx, if_true, if_false, Option.bind_eq_some, Option.some.injEq,
        Prod.mk.injEq] at h
      obtain ⟨d, -, pass, -, h1, h2⟩ := h
      subst h2
      simp [hlen, h1.symm]
  · simp only [hlen, if_false, Option.bind_eq_some] at h
    obtain ⟨sb, -, bb, -, pred, -, s, -, sl, -, sp, -, bp, -, diff, -, b, -, pass, -, h⟩ := h
    split at h
    · simp only [Option.some.injEq, Prod.mk.injEq] at h
      obtain ⟨h1, h2⟩ := h
      subst h2
      simp [hlen, h1.symm]
    · simp only [Option.some.injEq, Prod.mk.injEq] at h
      obtain ⟨h1, h2⟩ := h
      subst h2
      simp [hlen, h1.symm]

theorem check_all_eq_some (m : DoubleExpSmoothSlopeCheck K) (v : Vec K)
    (h : v.length = m.thresh.length) :
    m.check_all v = some ((List.zipWith (fun v t => decide (|v| < t)) v m.thresh).all id) := by
  simp [check_all, h]

theorem go_on_defined {n : Nat} {m : DoubleExpSmoothSlopeCheck K} {e : Vec K}
    (hs : SizesOK n m) (he : e.length = n) :
    ∃ r m', m.go_on e = some (r, m') ∧ SizesOK n m' := by
  obtain ⟨h1, h2, h3, h4, h5, h6⟩ := hs
  by_cases hlen : m.len = 0
  · by_cases hx : m.x0.length = 0
    · simp only [go_on, hlen, hx, if_true]
      exact ⟨_, _, rfl, h1, Or.inr he, h3, h4, h5, by simp [hlen]⟩
    · have hx0 : m.x0.length = n := h2.resolve_left hx
      have hd : vsub e m.x0 = some (List.zipWith (fun x y => x - y) e m.x0) :=
        cwise_eq_some _ _ _ (by omega)
      have hdl : (List.zipWith (fun x y => x - y) e m.x0).length = n := by simp [he, hx0]
      have hc := check_all_eq_some m _ (hdl.trans h1.symm)
      simp only [go_on, hlen, hx, if_true, if_false, hd, hc, Option.some_bind]
      refine ⟨_, _, rfl, ?_⟩
      · refine ⟨h1, h2, ?_, ?_, ?_, ?_⟩
        · intro v hv
          rcases List.mem_append.mp hv with hv | hv
          · exact h3 v hv
          · rw [List.mem_singleton.mp hv]; exact he
        · intro v hv
          rcases List.mem_append.mp hv with hv | hv
          · exact h4 v hv
          · rw [List.mem_singleton.mp hv]; exact hdl
        · simp [h5]
        · have : (0 + 1) % SIZE_MOD ≤ 1 := Nat.mod_le _ _
          simp only [List.length_append, List.length_singleton]
          omega
  · have hds : m.ds ≠ [] := by
      intro h
      rw [h] at h6
      exact hlen (Nat.le_zero.mp h6)
    have hdb : m.db ≠ [] := by
      intro h
      rw [h] at h5
      exact hds (List.length_eq_zero.mp h5.symm)
    have e1 := List.getLast?_eq_getLast _ hds
    have e2 := List.getLast?_eq_getLast _ hdb
    have lsb : (m.ds.getLast hds).length = n := h3 _ (List.getLast_mem hds)
    have lbb : (m.db.getLast hdb).length = n := h4 _ (List.getLast_mem hdb)
    obtain ⟨pred, e3⟩ : ∃ pred, vadd (m.ds.getLast hds) (m.db.getLast hdb) = some pred :=
      ⟨_, cwise_eq_some _ _ _ (by omega)⟩
    have lpred : pred.length = n := (cwise_length e3).1.trans lsb
    obtain ⟨s, e4⟩ : ∃ s, vadd (smul m.alpha e) (smul (1 - m.alpha) pred) = some s :=
      ⟨_, cwise_eq_some _ _ _ (by rw [length_smul, length_smul]; omega)⟩
    have ls : s.length = n := by
      rw [(cwise_length e4).1, length_smul]; exact he
    have hds1 : ∀ v ∈ m.ds ++ [s], v.length = n := by
      intro v hv
      rcases List.mem_append.mp hv with hv | hv
      · exact h3 v hv
      · rw [List.mem_singleton.mp hv]; exact ls
    obtain ⟨sl, e5⟩ : ∃ sl, (m.ds ++ [s])[m.len]? = some sl :=
      ⟨_, List.getElem?_eq_getElem (by simp only [List.length_append, List.length_singleton]; omega)⟩
    obtain ⟨sp, e6⟩ : ∃ sp, (m.ds ++ [s])[m.len - 1]? = some sp :=
      ⟨_, List.getElem?_eq_getElem (by simp only [List.length_append, List.length_singleton]; omega)⟩
    obtain ⟨bp, e7⟩ : ∃ bp, m.db[m.len - 1]? = some bp :=
      ⟨_, List.getElem?_eq_getElem (by omega)⟩
    have lsl : sl.length = n := hds1 _ (List.getElem?_mem e5)
    have lsp : sp.length = n := hds1 _ (List.getElem?_mem e6)
    have lbp : bp.length = n := h4 _ (List.getElem?_mem e7)
    obtain ⟨diff, e8⟩ : ∃ diff, vsub sl sp = some diff :=
      ⟨_, cwise_eq_some _ _ _ (by omega)⟩
    have ldiff : diff.length = n := (cwise_length e8).1.trans lsl
    obtain ⟨b, e9⟩ : ∃ b, vadd (smul m.beta diff) (smul (1 - m.beta) bp) = some b :=
      ⟨_, cwise_eq_some _ _ _ (by rw [length_smul, length_smul]; omega)⟩
    have lb : b.length = n := by
      rw [(cwise_length e9).1, length_smul]; exact ldiff
    have e10 := check_all_eq_some m b (lb.trans h1.symm)
    have hdb1 : ∀ v ∈ m.db ++ [b], v.length = n := by
      intro v hv
      rcases List.mem_append.mp hv with hv | hv
      · exact h4 v hv
      · rw [List.mem_singleton.mp hv]; exact lb
    by_cases hfull : m.len = m.buffer_len
    · simp only [go_on, hlen, if_false, e1, e2, e3, e4, e5, e6, e7, e8, e9, e10,
        Option.some_bind]
      rw [if_pos hfull]
      refine ⟨_, _, rfl, ?_⟩
      · refine ⟨h1, h2, ?_, ?_, ?_, ?_⟩
        · intro v hv
          exact hds1 v (List.mem_of_mem_tail hv)
        · intro v hv
          exact hdb1 v (List.mem_of_mem_tail hv)
        · simp [h5]
        · simp only [List.length_tail, List.length_append, List.length_singleton]
          omega
    · simp only [go_on, hlen, if_false, e1, e2, e3, e4, e5, e6, e7, e8, e9, e10,
        Option.some_bind, hfull]
      refine ⟨_, _, rfl, ?_⟩
      · refine ⟨h1, h2, hds1, hdb1, ?_, ?_⟩
        · simp [h5]
        · have : (m.len + 1) % SIZE_MOD ≤ m.len + 1 := Nat.mod_le _ _
          simp only [List.length_append, List.length_singleton]
          omega

theorem sizesOK_init (thresh : Vec K) (alpha beta : K) (buffer_len min_iter : Nat) :
    SizesOK thresh.length (init thresh alpha beta buffer_len min_iter) :=
  ⟨rfl, Or.inl rfl, by simp [init], by simp [init], rfl, Nat.le_refl _⟩

theorem Reachable.sizesOK {n : Nat} {m : DoubleExpSmoothSlopeCheck K}
    (h : Reachable n m) : SizesOK n m := by
  induction h with
  | fresh thresh alpha beta buffer_len min_iter hn _ _ =>
    subst hn
    exact sizesOK_init _ _ _ _ _
  | call m m' e r _ he hgo ih =>
    obtain ⟨r', m'', h1, h2⟩ := go_on_defined ih he
    rw [hgo] at h1
    simp only [Option.some.injEq, Prod.mk.injEq] at h1
    rw [h1.2]
    exact h2

theorem all_zero_below (c thresh : Vec K) (hpos : ∀ t ∈ thresh, 0 < t) :
    (List.zipWith (fun v t => decide (|v| < t)) (zeros c) thresh).all id = true := by
  induction c generalizing thresh with
  | nil => simp [zeros]
  | cons a c ih =>
    cases thresh with
    | nil => simp [zeros]
    | cons t ts =>
      have ht : 0 < t := hpos t (List.mem_cons_self _ _)
      have hts : ∀ u ∈ ts, 0 < u := fun u hu => hpos u (List.mem_cons_of_mem _ hu)
      have := ih ts hts
      simp [zeros, ht] at this ⊢
      exact this

theorem check_all_zeros (m : DoubleExpSmoothSlopeCheck K) (c : Vec K)
    (hlen : c.length = m.thresh.length) (hpos : ∀ t ∈ m.thresh, 0 < t) :
    m.check_all (zeros c) = some true := by
  rw [check_all_eq_some m _ (by simpa [zeros] using hlen), all_zero_below c _ hpos]

theorem go_on_flatState (thresh : Vec K) (alpha beta : K) (buffer_len min_iter : Nat)
    (c : Vec K) (k : Nat) (hk : 1 ≤ k) (hkM : k + 1 < SIZE_MOD) (hb : 1 ≤ buffer_len)
    (hbM : buffer_len + 1 < SIZE_MOD) (hc : c ≠ []) (hlen : c.length = thresh.length)
    (hpos : ∀ t ∈ thresh, 0 < t) :
    (flatState thresh alpha beta buffer_len min_iter c k).go_on c =
      some (flatResult buffer_len min_iter (k + 1),
        flatState thresh alpha beta buffer_len min_iter c (k + 1)) := by
  have hx : ¬ c.length = 0 := fun h => hc (List.length_eq_zero.mp h)
  have hca := check_all_zeros (flatState thresh alpha beta buffer_len min_iter c k) c hlen hpos
  have hit : (k + 1) % SIZE_MOD = k + 1 := Nat.mod_eq_of_lt hkM
  rcases Nat.lt_or_ge k 2 with h | h
  · have hk1 : k = 1 := by omega
    subst hk1
    have h1 : (0 + 1) % SIZE_MOD = 1 := Nat.mod_eq_of_lt (by omega)
    have hmin : min 1 buffer_len = 1 := Nat.min_eq_left hb
    unfold go_on
    rw [if_pos (by simp [flatState]), if_neg (by simpa [flatState] using hx)]
    have e1 : vsub c (flatState thresh alpha beta buffer_len min_iter c 1).x0 = some (zeros c) :=
      vsub_self_flat c
    rw [e1, Option.some_bind, hca, Option.some_bind]
    simp [flatState, flatResult, bump, h1, hmin, hit]
  · obtain ⟨L, hL⟩ : ∃ L, min (k - 1) buffer_len = L := ⟨_, rfl⟩
    have hL1 : 1 ≤ L := by omega
    have hLb : L ≤ buffer_len := by omega
    have hLM : (L + 1) % SIZE_MOD = L + 1 := Nat.mod_eq_of_lt (by omega)
    have hne : L ≠ 0 := by omega
    have happ : ∀ (n : Nat) (v : Vec K), List.replicate n v ++ [v] = List.replicate (n + 1) v :=
      fun n v => (List.replicate_succ' n v).symm
    have e1 : (flatState thresh alpha beta buffer_len min_iter c k).ds.getLast? = some c := by
      simp [flatState, hL, List.getLast?_replicate, hne]
    have e2 : (flatState thresh alpha beta buffer_len min_iter c k).db.getLast?
        = some (zeros c) := by
      simp [flatState, hL, List.getLast?_replicate, hne]
    have e5 : ((flatState thresh alpha beta buffer_len min_iter c k).ds ++ [c])[
        (flatState thresh alpha beta buffer_len min_iter c k).len]? = some c := by
      simp only [flatState, hL, happ]
      exact List.getElem?_replicate_of_lt (by omega)
    have e6 : ((flatState thresh alpha beta buffer_len min_iter c k).ds ++ [c])[
        (flatState thresh alpha beta buffer_len min_iter c k).len - 1]? = some c := by
      simp only [flatState, hL, happ]
      exact List.getElem?_replicate_of_lt (by omega)
    have e7 : (flatState thresh alpha beta buffer_len min_iter c k).db[
        (flatState thresh alpha beta buffer_len min_iter c k).len - 1]? = some (zeros c) := by
      simp only [flatState, hL]
      exact List.getElem?_replicate_of_lt (by omega)
    unfold go_on
    rw [if_neg (by simp only [flatState, hL]; exact hne)]
    rw [e1, Option.some_bind, e2, Option.some_bind, vadd_zeros_flat, Option.some_bind,
      vadd_smul_flat, Option.some_bind, e5, Option.some_bind, e6, Option.some_bind, e7,
      Option.some_bind, vsub_self_flat, Option.some_bind, vadd_smul_zeros_flat,
      Option.some_bind, hca, Option.some_bind]
    have hbump : (flatState thresh alpha beta buffer_len min_iter c k).bump true = L + 1 := by
      simp [bump, flatState, hL, hLM]
    have hres : flatResult buffer_len min_iter (k + 1)
        = (min k buffer_len != buffer_len || decide (k + 1 < min_iter)) := by
      simp [flatResult]
      intro h2
      omega
    simp only [hbump, hres]
    by_cases hfull : L = buffer_len
    · have hmin : min k buffer_len = buffer_len := by omega
      rw [if_pos (by simp only [flatState, hL]; exact hfull)]
      simp [flatState, hL, hmin, hit, hfull, happ]
    · have hmin : min k buffer_len = L + 1 := by omega
      rw [if_neg (by simp only [flatState, hL]; exact hfull)]
      simp [flatState, hL, hmin, hit, hLM, happ]

theorem go_on_init_flat (thresh : Vec K) (alpha beta : K) (buffer_len min_iter : Nat)
    (c : Vec K) :
    (init thresh alpha beta buffer_len min_iter).go_on c =
      some (true, flatState thresh alpha beta buffer_len min_iter c 1) := by
  have h1 : (0 + 1) % SIZE_MOD = 1 := Nat.mod_eq_of_lt (by unfold SIZE_MOD; omega)
  simp [go_on, init, flatState, h1]

theorem reachable_flatState (thresh : Vec K) (alpha beta : K) (buffer_len min_iter : Nat)
    (c : Vec K) (hb : 1 ≤ buffer_len) (hbM : buffer_len + 1 < SIZE_MOD)
    (hm : min_iter < SIZE_MOD) (hc : c ≠ [])
    (hlen : c.length = thresh.length) (hpos : ∀ t ∈ thresh, 0 < t) (k : Nat) :
    1 ≤ k → k < SIZE_MOD →
      Reachable c.length (flatState thresh alpha beta buffer_len min_iter c k) := by
  induction k with
  | zero => intro h; omega
  | succ k ih =>
    intro _ hk
    have hfresh : Reachable c.length (init thresh alpha beta buffer_len min_iter) :=
      Reachable.fresh thresh alpha beta buffer_len min_iter hlen.symm (by omega) hm
    rcases Nat.eq_zero_or_pos k with h0 | h0
    · subst h0
      exact Reachable.call _ _ c true hfresh rfl
        (go_on_init_flat thresh alpha beta buffer_len min_iter c)
    · exact Reachable.call _ _ c _ (ih h0 (by omega)) rfl
        (go_on_flatState thresh alpha beta buffer_len min_iter c k h0 hk hb hbM hc hlen hpos)

/-- C1 (minimum-iteration floor): on every reachable monitor and every observation of
the monitored size, `go_on` returns a result, and that result is `true` whenever the
iteration counter, after its increment in this call, is strictly below `min_iter`,
whatever the smoothed slopes are. -/
theorem go_on_min_iter_floor (n : Nat) (m : DoubleExpSmoothSlopeCheck K) (e : Vec K)
    (hm : Reachable n m) (he : e.length = n) :
    ∃ r m', m.go_on e = some (r, m') ∧
      m'.iter_count = (m.iter_count + 1) % SIZE_MOD ∧
      (m'.iter_count < m'.min_iter → r = true) := by
  obtain ⟨r, m', hgo, -⟩ := go_on_defined hm.sizesOK he
  obtain ⟨-, -, -, hit, h0, h1⟩ := go_on_result hgo
  refine ⟨r, m', hgo, hit, fun hlt => ?_⟩
  by_cases hlen : m.len = 0
  · exact h0 hlen
  · rw [h1 hlen]
    simp [hlt]

/-- Witness for C1: a monitor with `buffer_len = 1`, `min_iter = 5` that has seen the
constant observation `[0]` twice has its pass counter at `buffer_len`; the third call is
covered by the floor. -/
theorem go_on_min_iter_floor_witness :
    Reachable 1 (flatState ([1] : Vec ℚ) (4/5) (11/20) 1 5 [0] 2) ∧
    ([0] : Vec ℚ).length = 1 ∧
    ∃ r m', (flatState ([1] : Vec ℚ) (4/5) (11/20) 1 5 [0] 2).go_on [0] = some (r, m') ∧
      m'.iter_count = ((flatState ([1] : Vec ℚ) (4/5) (11/20) 1 5 [0] 2).iter_count + 1)
        % SIZE_MOD ∧
      (m'.iter_count < m'.min_iter → r = true) :=
  have hr : Reachable 1 (flatState ([1] : Vec ℚ) (4/5) (11/20) 1 5 [0] 2) :=
    reachable_flatState ([1] : Vec ℚ) (4/5) (11/20) 1 5 [0] (by decide) (by decide)
      (by decide) (by simp) rfl (by simp) 2 (by decide) (by decide)
  ⟨hr, rfl, go_on_min_iter_floor 1 _ [0] hr rfl⟩

theorem go_on_rounded_id (m : DoubleExpSmoothSlopeCheck K) (e : Vec K) :
    go_on_rounded id m e = m.go_on e := by
  simp only [go_on_rounded, go_on, vadd_fl_id, vsub_fl_id, smul_fl_id, id]

theorem feed_rounded_id (es : List (Vec K)) :
    ∀ m : DoubleExpSmoothSlopeCheck K, feed_rounded id m es = feed m es := by
  induction es with
  | nil => intro m; rfl
  | cons e es ih =>
    intro m
    simp only [feed_rounded, feed, go_on_rounded_id, ih]

theorem go_on_rounded_flatState (fl : K → K) (thresh : Vec K) (alpha beta : K)
    (buffer_len min_iter : Nat)
    (c : Vec K) (k : Nat) (hk : 1 ≤ k) (hkM : k + 1 < SIZE_MOD) (hb : 1 ≤ buffer_len)
    (hbM : buffer_len + 1 < SIZE_MOD) (hc : c ≠ []) (hlen : c.length = thresh.length)
    (hpos : ∀ t ∈ thresh, 0 < t) (h0 : fl 0 = 0) (hrep : ∀ x ∈ c, fl x = x)
    (hfix : ∀ x ∈ c, fl (fl (alpha * x) + fl (fl (1 - alpha) * x)) = x) :
    go_on_rounded fl (flatState thresh alpha beta buffer_len min_iter c k) c =
      some (flatResult buffer_len min_iter (k + 1),
        flatState thresh alpha beta buffer_len min_iter c (k + 1)) := by
  have hx : ¬ c.length = 0 := fun h => hc (List.length_eq_zero.mp h)
  have hca := check_all_zeros (flatState thresh alpha beta buffer_len min_iter c k) c hlen hpos
  have hit : (k + 1) % SIZE_MOD = k + 1 := Nat.mod_eq_of_lt hkM
  have hfix' : vadd_fl fl
      (smul_fl fl (flatState thresh alpha beta buffer_len min_iter c k).alpha c)
      (smul_fl fl (fl (1 - (flatState thresh alpha beta buffer_len min_iter c k).alpha)) c)
      = some c := vadd_fl_smul_flat fl alpha c hfix
  rcases Nat.lt_or_ge k 2 with h | h
  · have hk1 : k = 1 := by omega
    subst hk1
    have h1 : (0 + 1) % SIZE_MOD = 1 := Nat.mod_eq_of_lt (by omega)
    have hmin : min 1 buffer_len = 1 := Nat.min_eq_left hb
    unfold go_on_rounded
    rw [if_pos (by simp [flatState]), if_neg (by simpa [flatState] using hx)]
    have e1 : vsub_fl fl c (flatState thresh alpha beta buffer_len min_iter c 1).x0
        = some (zeros c) := vsub_fl_self_flat fl c h0
    rw [e1, Option.some_bind, hca, Option.some_bind]
    simp [flatState, flatResult, bump, h1, hmin, hit]
  · obtain ⟨L, hL⟩ : ∃ L, min (k - 1) buffer_len = L := ⟨_, rfl⟩
    have hL1 : 1 ≤ L := by omega
    have hLb : L ≤ buffer_len := by omega
    have hLM : (L + 1) % SIZE_MOD = L + 1 := Nat.mod_eq_of_lt (by omega)
    have hne : L ≠ 0 := by omega
    have happ : ∀ (n : Nat) (v : Vec K), List.replicate n v ++ [v] = List.replicate (n + 1) v :=
      fun n v => (List.replicate_succ' n v).symm
    have e1 : (flatState thresh alpha beta buffer_len min_iter c k).ds.getLast? = some c := by
      simp [flatState, hL, List.getLast?_replicate, hne]
    have e2 : (flatState thresh alpha beta buffer_len min_iter c k).db.getLast?
        = some (zeros c) := by
      simp [flatState, hL, List.getLast?_replicate, hne]
    have e5 : ((flatState thresh alpha beta buffer_len min_iter c k).ds ++ [c])[
        (flatState thresh alpha beta buffer_len min_iter c k).len]? = some c := by
      simp only [flatState, hL, happ]
      exact List.getElem?_replicate_of_lt (by omega)
    have e6 : ((flatState thresh alpha beta buffer_len min_iter c k).ds ++ [c])[
        (flatState thresh alpha beta buffer_len min_iter c k).len - 1]? = some c := by
      simp only [flatState, hL, happ]
      exact List.getElem?_replicate_of_lt (by omega)
    have e7 : (flatState thresh alpha beta buffer_len min_iter c k).db[
        (flatState thresh alpha beta buffer_len min_iter c k).len - 1]? = some (zeros c) := by
      simp only [flatState, hL]
      exact List.getElem?_replicate_of_lt (by omega)
    unfold go_on_rounded
    rw [if_neg (by simp only [flatState, hL]; exact hne)]
    rw [e1, Option.some_bind, e2, Option.some_bind, vadd_fl_zeros_flat fl c hrep,
      Option.some_bind, hfix', Option.some_bind, e5, Option.some_bind, e6, Option.some_bind,
      e7, Option.some_bind, vsub_fl_self_flat fl c h0, Option.some_bind,
      vadd_fl_smul_zeros_flat fl _ _ c h0, Option.some_bind, hca, Option.some_bind]
    have hbump : (flatState thresh alpha beta buffer_len min_iter c k).bump true = L + 1 := by
      simp [bump, flatState, hL, hLM]
    have hres : flatResult buffer_len min_iter (k + 1)
        = (min k buffer_len != buffer_len || decide (k + 1 < min_iter)) := by
      simp [flatResult]
      intro h2
      omega
    simp only [hbump, hres]
    by_cases hfull : L = buffer_len
    · have hmin : min k buffer_len = buffer_len := by omega
      rw [if_pos (by simp only [flatState, hL]; exact hfull)]
      simp [flatState, hL, hmin, hit, hfull, happ]
    · have hmin : min k buffer_len = L + 1 := by omega
      rw [if_neg (by simp only [flatState, hL]; exact hfull)]
      simp [flatState, hL, hmin, hit, hLM, happ]

theorem go_on_rounded_init_flat (fl : K → K) (thresh : Vec K) (alpha beta : K)
    (buffer_len min_iter : Nat) (c : Vec K) :
    go_on_rounded fl (init thresh alpha beta buffer_len min_iter) c =
      some (true, flatState thresh alpha beta buffer_len min_iter c 1) := by
  have h1 : (0 + 1) % SIZE_MOD = 1 := Nat.mod_eq_of_lt (by unfold SIZE_MOD; omega)
  simp [go_on_rounded, init, flatState, h1]

theorem feed_rounded_flatState (fl : K → K) (thresh : Vec K) (alpha beta : K)
    (buffer_len min_iter : Nat)
    (c : Vec K) (hb : 1 ≤ buffer_len) (hbM : buffer_len + 1 < SIZE_MOD) (hc : c ≠ [])
    (hlen : c.length = thresh.length) (hpos : ∀ t ∈ thresh, 0 < t)
    (h0 : fl 0 = 0) (hrep : ∀ x ∈ c, fl x = x)
    (hfix : ∀ x ∈ c, fl (fl (alpha * x) + fl (fl (1 - alpha) * x)) = x) (j : Nat) :
    ∀ k, 1 ≤ k → k + j < SIZE_MOD →
      feed_rounded fl (flatState thresh alpha beta buffer_len min_iter c k)
          (List.replicate j c) =
        some ((List.range j).map (fun i => flatResult buffer_len min_iter (k + 1 + i)),
          flatState thresh alpha beta buffer_len min_iter c (k + j)) := by
  induction j with
  | zero => intro k _ _; simp [feed_rounded]
  | succ j ih =>
    intro k hk hkj
    have hstep := go_on_rounded_flatState fl thresh alpha beta buffer_len min_iter c k hk
      (by omega) hb hbM hc hlen hpos h0 hrep hfix
    have hrest := ih (k + 1) (by omega) (by omega)
    rw [List.replicate_succ, feed_rounded, hstep, Option.some_bind]
    simp only [hrest, Option.some_bind, List.range_succ_eq_map, List.map_cons, List.map_map]
    have e1 : k + 1 + j = k + (j + 1) := by omega
    have e2 : (fun i => flatResult buffer_len min_iter (k + 1 + 1 + i))
        = (fun i => flatResult buffer_len min_iter (k + 1 + i)) ∘ Nat.succ := by
      funext i
      have : k + 1 + 1 + i = k + 1 + i.succ := by omega
      simp [this]
    simp [e1, e2]

/-- C2 as amended (flat-sequence detection), in the rounded arithmetic of the code: `fl`
rounds the result of every operation, keeps zero and keeps the components of `c` (the
finite values of `default_type`).  For `buffer_len ≥ 1` with `buffer_len + min_iter ≥ 2`,
call counts that fit a `size_t`, strictly positive thresholds, any `alpha` and `beta`, and
a non-empty vector `c` of the size of the threshold vector whose components the smoothing
step reproduces (`fl (fl (alpha * x) + fl (fl (1 - alpha) * x)) = x`, which exact
arithmetic always satisfies), feeding `c` on every call makes at least one of the
`buffer_len + min_iter` calls after the first return `false`. -/
theorem flat_sequence_detected (fl : K → K) (thresh : Vec K) (alpha beta : K)
    (buffer_len min_iter : Nat)
    (c : Vec K) (hb : 1 ≤ buffer_len) (h2 : 2 ≤ buffer_len + min_iter)
    (hM : buffer_len + min_iter + 1 < SIZE_MOD) (hpos : ∀ t ∈ thresh, 0 < t)
    (hc : c ≠ []) (hlen : c.length = thresh.length)
    (h0 : fl 0 = 0) (hrep : ∀ x ∈ c, fl x = x)
    (hfix : ∀ x ∈ c, fl (fl (alpha * x) + fl (fl (1 - alpha) * x)) = x) :
    ∃ rs m', feed_rounded fl (init thresh alpha beta buffer_len min_iter)
        (List.replicate (buffer_len + min_iter + 1) c) = some (rs, m') ∧
      rs.length = buffer_len + min_iter + 1 ∧ false ∈ rs.tail := by
  have hfeed := feed_rounded_flatState fl thresh alpha beta buffer_len min_iter c hb
    (by omega) hc hlen hpos h0 hrep hfix (buffer_len + min_iter) 1 (Nat.le_refl 1) (by omega)
  have hall : feed_rounded fl (init thresh alpha beta buffer_len min_iter)
      (List.replicate (buffer_len + min_iter + 1) c) =
      some (true :: (List.range (buffer_len + min_iter)).map
          (fun i => flatResult buffer_len min_iter (1 + 1 + i)),
        flatState thresh alpha beta buffer_len min_iter c (1 + (buffer_len + min_iter))) := by
    rw [List.replicate_succ, feed_rounded, go_on_rounded_init_flat, Option.some_bind, hfeed,
      Option.some_bind]
  refine ⟨_, _, hall, ?_, ?_⟩
  · simp
  · simp only [List.tail_cons, List.mem_map, List.mem_range]
    refine ⟨max 3 (max (buffer_len + 1) min_iter) - 2, by omega, ?_⟩
    have e : 1 + 1 + (max 3 (max (buffer_len + 1) min_iter) - 2)
        = max 3 (max (buffer_len + 1) min_iter) := by omega
    rw [e]
    have h3 : ¬ max 3 (max (buffer_len + 1) min_iter) ≤ 2 := by omega
    have hmin : min (max 3 (max (buffer_len + 1) min_iter) - 1) buffer_len = buffer_len := by
      omega
    have hlt : ¬ max 3 (max (buffer_len + 1) min_iter) < min_iter := by omega
    simp [flatResult, h3, hmin, hlt]

theorem keep_round_01 :
    round_double (1 - alpha_default) = (900719925474099 / 4503599627370496) :=
  round_double_val _ _ (-3) 7205759403792792 (by norm_num [alpha_default])
    (by norm_num [alpha_default]) (by norm_num [alpha_default])
    (by norm_num [alpha_default]) (by norm_num [alpha_default])

theorem keep_round_02 :
    round_double ((900719925474099 / 4503599627370496) *
      3) =
      (2702159776422297 / 4503599627370496) :=
  round_double_val _ _ (-1) 5404319552844594 (by norm_num)
    (by norm_num) (by norm_num)
    (by norm_num) (by norm_num)

theorem keep_round_03 :
    round_double (alpha_default * 3) = (1351079888211149 / 562949953421312) :=
  round_double_tie_odd _ _ 1 5404319552844595 (by norm_num [alpha_default])
    (by norm_num [alpha_default]) (by norm_num [alpha_default])
    (by decide) (by norm_num [alpha_default])

theorem keep_round_04 :
    round_double ((1351079888211149 / 562949953421312) +
      (2702159776422297 / 4503599627370496)) =
      3 :=
  round_double_tie_even _ _ 1 6755399441055744 (by norm_num)
    (by norm_num) (by norm_num)
    (by decide) (by norm_num)

theorem keep_round_05 : round_double 3 = 3 :=
  round_double_val _ _ 1 6755399441055744 (by norm_num) (by norm_num) (by norm_num)
    (by norm_num) (by norm_num)

/-- The constants of the binary64 evaluations are the doubles of the decimal literals
`0.8`, `0.55`, `1e-17` and `2.9`. -/
theorem default_doubles :
    round_double (4 / 5) = alpha_default ∧ round_double (11 / 20) = beta_default ∧
    round_double (1 / 10 ^ 17) = drift_thresh ∧ round_double (29 / 10) = drift_c :=
  ⟨round_double_val _ _ (-1) 7205759403792794 (by norm_num) (by norm_num) (by norm_num)
      (by norm_num) (by norm_num [alpha_default]),
    round_double_val _ _ (-1) 4953959590107546 (by norm_num) (by norm_num) (by norm_num)
      (by norm_num) (by norm_num [beta_default]),
    round_double_val _ _ (-57) 6490371073168535 (by norm_num) (by norm_num) (by norm_num)
      (by norm_num) (by norm_num [drift_thresh]),
    round_double_val _ _ 1 6530219459687219 (by norm_num) (by norm_num) (by norm_num)
      (by norm_num) (by norm_num [drift_c])⟩

/-- Witness for C2 as amended, in binary64 arithmetic: the default configuration
(`alpha = 0.8`, `beta = 0.55`, `buffer_len = 4`, `min_iter = 5`) on the constant observation
`[3]` with threshold `1/8`.  The smoothing step reproduces `3`: the product `alpha * 3`
and the final sum are both ties, and they round to `3`. -/
theorem flat_sequence_detected_witness :
    1 ≤ 4 ∧ 2 ≤ 4 + 5 ∧ 4 + 5 + 1 < SIZE_MOD ∧ (∀ t ∈ ([1 / 8] : Vec ℚ), 0 < t) ∧
    ([3] : Vec ℚ) ≠ [] ∧ ([3] : Vec ℚ).length = ([1 / 8] : Vec ℚ).length ∧
    round_double 0 = 0 ∧ (∀ x ∈ ([3] : Vec ℚ), round_double x = x) ∧
    (∀ x ∈ ([3] : Vec ℚ), round_double (round_double (alpha_default * x) +
      round_double (round_double (1 - alpha_default) * x)) = x) ∧
    ∃ rs m', feed_rounded round_double (init ([1 / 8] : Vec ℚ) alpha_default beta_default 4 5)
        (List.replicate (4 + 5 + 1) [3]) = some (rs, m') ∧
      rs.length = 4 + 5 + 1 ∧ false ∈ rs.tail :=
  have hrep : ∀ x ∈ ([3] : Vec ℚ), round_double x = x := by
    intro x hx
    rw [List.mem_singleton.mp hx]
    exact keep_round_05
  have hfix : ∀ x ∈ ([3] : Vec ℚ), round_double (round_double (alpha_default * x) +
      round_double (round_double (1 - alpha_default) * x)) = x := by
    intro x hx
    rw [List.mem_singleton.mp hx, keep_round_01, keep_round_02, keep_round_03, keep_round_04]
  ⟨by decide, by decide, by decide, by norm_num, by simp, rfl, round_double_zero, hrep, hfix,
    flat_sequence_detected round_double ([1 / 8] : Vec ℚ) alpha_default beta_default 4 5 [3]
      (by decide) (by decide) (by decide) (by norm_num) (by simp) rfl round_double_zero
      hrep hfix⟩

theorem go_on_rounded_seed_scalar (fl : K → K) (m : DoubleExpSmoothSlopeCheck K)
    (x x0 t d : K) (pass : Bool)
    (hlen : m.len = 0) (hx : m.x0 = [x0]) (hth : m.thresh = [t])
    (hd : fl (x - x0) = d) (hp : decide (|d| < t) = pass) :
    go_on_rounded fl m [x] =
      some (true, { m with
        iter_count := (m.iter_count + 1) % SIZE_MOD
        ds := m.ds ++ [[x]]
        db := m.db ++ [[d]]
        stop_cnt := m.bump pass
        len := (m.len + 1) % SIZE_MOD }) := by
  unfold go_on_rounded
  rw [if_pos hlen, if_neg (by simp [hx])]
  have e1 : vsub_fl fl [x] m.x0 = some [d] := by
    simp [hx, vsub_fl, vsub, cwise, vround, hd]
  have e2 : m.check_all [d] = some pass := by
    simp [check_all, hth, hp]
  rw [e1, Option.some_bind, e2, Option.some_bind]

theorem go_on_rounded_smooth_scalar (fl : K → K) (m : DoubleExpSmoothSlopeCheck K)
    (ds0 db0 : List (Vec K)) (x sb bb t s b : K) (pass : Bool)
    (hl : m.len = ds0.length + 1) (hds : m.ds = ds0 ++ [[sb]]) (hdb : m.db = db0 ++ [[bb]])
    (hsame : db0.length = ds0.length) (hth : m.thresh = [t])
    (hs : fl (fl (m.alpha * x) + fl (fl (1 - m.alpha) * fl (sb + bb))) = s)
    (hb : fl (fl (m.beta * fl (s - sb)) + fl (fl (1 - m.beta) * bb)) = b)
    (hp : decide (|b| < t) = pass) :
    go_on_rounded fl m [x] =
      if m.len = m.buffer_len then
        some ((if m.bump pass > m.buffer_len then m.bump pass - 1 else m.bump pass)
            != m.buffer_len || decide ((m.iter_count + 1) % SIZE_MOD < m.min_iter),
          { m with
            iter_count := (m.iter_count + 1) % SIZE_MOD
            ds := (m.ds ++ [[s]]).tail
            db := (m.db ++ [[b]]).tail
            stop_cnt := if m.bump pass > m.buffer_len then m.bump pass - 1 else m.bump pass })
      else
        some (m.bump pass != m.buffer_len || decide ((m.iter_count + 1) % SIZE_MOD < m.min_iter),
          { m with
            iter_count := (m.iter_count + 1) % SIZE_MOD
            ds := m.ds ++ [[s]]
            db := m.db ++ [[b]]
            stop_cnt := m.bump pass
            len := (m.len + 1) % SIZE_MOD }) := by
  have hlen : m.len ≠ 0 := by omega
  have e1 : m.ds.getLast? = some [sb] := by simp [hds]
  have e2 : m.db.getLast? = some [bb] := by simp [hdb]
  have e3 : vadd_fl fl [sb] [bb] = some [fl (sb + bb)] := by
    simp [vadd_fl, vadd, cwise, vround]
  have e4 : vadd_fl fl (smul_fl fl m.alpha [x]) (smul_fl fl (fl (1 - m.alpha)) [fl (sb + bb)])
      = some [s] := by
    simp [vadd_fl, vadd, cwise, vround, smul_fl, smul, hs]
  have e5 : (m.ds ++ [[s]])[m.len]? = some [s] := by
    rw [hds, hl, List.getElem?_append_right (by simp)]
    simp
  have e6 : (m.ds ++ [[s]])[m.len - 1]? = some [sb] := by
    rw [hds, hl, List.append_assoc, List.getElem?_append_right (by simp)]
    simp
  have e7 : m.db[m.len - 1]? = some [bb] := by
    rw [hdb, hl, List.getElem?_append_right (by simp [hsame])]
    simp [hsame]
  have e8 : vsub_fl fl [s] [sb] = some [fl (s - sb)] := by
    simp [vsub_fl, vsub, cwise, vround]
  have e9 : vadd_fl fl (smul_fl fl m.beta [fl (s - sb)]) (smul_fl fl (fl (1 - m.beta)) [bb])
      = some [b] := by
    simp [vadd_fl, vadd, cwise, vround, smul_fl, smul, hb]
  have e10 : m.check_all [b] = some pass := by
    simp [check_all, hth, hp]
  unfold go_on_rounded
  rw [if_neg hlen, e1, Option.some_bind, e2, Option.some_bind, e3, Option.some_bind, e4,
    Option.some_bind, e5, Option.some_bind, e6, Option.some_bind, e7, Option.some_bind, e8,
    Option.some_bind, e9, Option.some_bind, e10, Option.some_bind]

theorem feed_rounded_empty (fl : K → K) (j : Nat) :
    ∀ m : DoubleExpSmoothSlopeCheck K, m.len = 0 → m.x0 = [] →
      m.iter_count + j < SIZE_MOD →
      feed_rounded fl m (List.replicate j []) =
        some (List.replicate j true, { m with iter_count := m.iter_count + j }) := by
  induction j with
  | zero => intro m _ _ _; simp [feed_rounded]
  | succ j ih =>
    intro m h1 h2 h3
    have hgo : go_on_rounded fl m [] = some (true, { m with iter_count := m.iter_count + 1 }) := by
      have hmod : (m.iter_count + 1) % SIZE_MOD = m.iter_count + 1 :=
        Nat.mod_eq_of_lt (by omega)
      simp [go_on_rounded, h1, h2, hmod]
    have hrest := ih { m with iter_count := m.iter_count + 1 } h1 h2
      (by simp only; omega)
    rw [List.replicate_succ, feed_rounded, hgo, Option.some_bind]
    simp only [hrest, Option.some_bind, List.replicate_succ]
    have e : m.iter_count + 1 + j = m.iter_count + (j + 1) := by omega
    simp [e]

theorem drift_round_01 :
    round_double (drift_c - drift_c) = 0 :=
  round_double_of_zero _ (by norm_num [drift_c])

theorem drift_round_02 :
    round_double (drift_c + 0) = drift_c :=
  round_double_val _ _ 1 6530219459687219 (by norm_num [drift_c])
    (by norm_num [drift_c]) (by norm_num [drift_c])
    (by norm_num [drift_c]) (by norm_num [drift_c])

theorem drift_round_03 :
    round_double (1 - alpha_default) = (900719925474099 / 4503599627370496) :=
  round_double_val _ _ (-3) 7205759403792792 (by norm_num [alpha_default])
    (by norm_num [alpha_default]) (by norm_num [alpha_default])
    (by norm_num [alpha_default]) (by norm_num [alpha_default])

theorem drift_round_04 :
    round_double ((900719925474099 / 4503599627370496) *
      drift_c) =
      (2612087783874887 / 4503599627370496) :=
  round_double_val _ _ (-1) 5224175567749774 (by norm_num [drift_c])
    (by norm_num [drift_c]) (by norm_num [drift_c])
    (by norm_num [drift_c]) (by norm_num [drift_c])

theorem drift_round_05 :
    round_double (alpha_default * drift_c) = (5224175567749775 / 2251799813685248) :=
  round_double_val _ _ 1 5224175567749775 (by norm_num [alpha_default, drift_c])
    (by norm_num [alpha_default, drift_c]) (by norm_num [alpha_default, drift_c])
    (by norm_num [alpha_default, drift_c]) (by norm_num [alpha_default, drift_c])

theorem drift_round_06 :
    round_double ((5224175567749775 / 2251799813685248) +
      (2612087783874887 / 4503599627370496)) =
      drift_s :=
  round_double_tie_even _ _ 1 6530219459687218 (by norm_num)
    (by norm_num) (by norm_num)
    (by decide) (by norm_num [drift_s])

theorem drift_round_07 :
    round_double (drift_s - drift_c) = (-1 / 2251799813685248) :=
  round_double_val _ _ (-51) (-4503599627370496) (by norm_num [drift_s, drift_c])
    (by norm_num [drift_s, drift_c]) (by norm_num [drift_s, drift_c])
    (by norm_num [drift_s, drift_c]) (by norm_num [drift_s, drift_c])

theorem drift_round_08 :
    round_double (beta_default * (-1 / 2251799813685248)) = drift_b 3 :=
  round_double_val _ _ (-52) (-4953959590107546) (by norm_num [beta_default])
    (by norm_num [beta_default]) (by norm_num [beta_default])
    (by norm_num [beta_default]) (by norm_num [beta_default, drift_b])

theorem drift_round_09 :
    round_double (1 - beta_default) = (2026619832316723 / 4503599627370496) :=
  round_double_val _ _ (-2) 8106479329266892 (by norm_num [beta_default])
    (by norm_num [beta_default]) (by norm_num [beta_default])
    (by norm_num [beta_default]) (by norm_num [beta_default])

theorem drift_round_10 :
    round_double ((2026619832316723 / 4503599627370496) * 0) = 0 :=
  round_double_of_zero _ (by norm_num)

theorem drift_round_11 :
    round_double (drift_b 3 + 0) = drift_b 3 :=
  round_double_val _ _ (-52) (-4953959590107546) (by norm_num [drift_b])
    (by norm_num [drift_b]) (by norm_num [drift_b])
    (by norm_num [drift_b]) (by norm_num [drift_b])

theorem drift_round_12 :
    round_double (drift_s + drift_b 3) = (6530219459687217 / 2251799813685248) :=
  round_double_val _ _ 1 6530219459687217 (by norm_num [drift_s, drift_b])
    (by norm_num [drift_s, drift_b]) (by norm_num [drift_s, drift_b])
    (by norm_num [drift_s, drift_b]) (by norm_num [drift_s, drift_b])

theorem drift_round_13 :
    round_double ((900719925474099 / 4503599627370496) *
      (6530219459687217 / 2251799813685248)) =
      (1306043891937443 / 2251799813685248) :=
  round_double_val _ _ (-1) 5224175567749772 (by norm_num)
    (by norm_num) (by norm_num)
    (by norm_num) (by norm_num)

theorem drift_round_14 :
    round_double ((5224175567749775 / 2251799813685248) +
      (1306043891937443 / 2251799813685248)) =
      drift_s :=
  round_double_val _ _ 1 6530219459687218 (by norm_num)
    (by norm_num) (by norm_num)
    (by norm_num) (by norm_num [drift_s])

theorem drift_round_15 :
    round_double (drift_s - drift_s) = 0 :=
  round_double_of_zero _ (by norm_num [drift_s])

theorem drift_round_16 :
    round_double (beta_default * 0) = 0 :=
  round_double_of_zero _ (by norm_num [beta_default])

theorem drift_round_17 :
    round_double ((2026619832316723 / 4503599627370496) * drift_b 3) = drift_b 4 :=
  round_double_val _ _ (-54) (-8917127262193582) (by norm_num [drift_b])
    (by norm_num [drift_b]) (by norm_num [drift_b])
    (by norm_num [drift_b]) (by norm_num [drift_b])

theorem drift_round_18 :
    round_double (0 + drift_b 4) = drift_b 4 :=
  round_double_val _ _ (-54) (-8917127262193582) (by norm_num [drift_b])
    (by norm_num [drift_b]) (by norm_num [drift_b])
    (by norm_num [drift_b]) (by norm_num [drift_b])

theorem drift_round_19 :
    round_double (drift_s + drift_b 4) = drift_s :=
  round_double_val _ _ 1 6530219459687218 (by norm_num [drift_s, drift_b])
    (by norm_num [drift_s, drift_b]) (by norm_num [drift_s, drift_b])
    (by norm_num [drift_s, drift_b]) (by norm_num [drift_s, drift_b])

theorem drift_round_20 :
    round_double ((900719925474099 / 4503599627370496) *
      drift_s) =
      (5224175567749773 / 9007199254740992) :=
  round_double_val _ _ (-1) 5224175567749773 (by norm_num [drift_s])
    (by norm_num [drift_s]) (by norm_num [drift_s])
    (by norm_num [drift_s]) (by norm_num [drift_s])

theorem drift_round_21 :
    round_double ((5224175567749775 / 2251799813685248) +
      (5224175567749773 / 9007199254740992)) =
      drift_s :=
  round_double_val _ _ 1 6530219459687218 (by norm_num)
    (by norm_num) (by norm_num)
    (by norm_num) (by norm_num [drift_s])

theorem drift_round_22 :
    round_double ((2026619832316723 / 4503599627370496) * drift_b 4) = drift_b 5 :=
  round_double_val _ _ (-55) (-8025414535974223) (by norm_num [drift_b])
    (by norm_num [drift_b]) (by norm_num [drift_b])
    (by norm_num [drift_b]) (by norm_num [drift_b])

theorem drift_round_23 :
    round_double (0 + drift_b 5) = drift_b 5 :=
  round_double_val _ _ (-55) (-8025414535974223) (by norm_num [drift_b])
    (by norm_num [drift_b]) (by norm_num [drift_b])
    (by norm_num [drift_b]) (by norm_num [drift_b])

theorem drift_round_24 :
    round_double (drift_s + drift_b 5) = drift_s :=
  round_double_val _ _ 1 6530219459687218 (by norm_num [drift_s, drift_b])
    (by norm_num [drift_s, drift_b]) (by norm_num [drift_s, drift_b])
    (by norm_num [drift_s, drift_b]) (by norm_num [drift_s, drift_b])

theorem drift_round_25 :
    round_double ((2026619832316723 / 4503599627370496) * drift_b 5) = drift_b 6 :=
  round_double_val _ _ (-56) (-7222873082376800) (by norm_num [drift_b])
    (by norm_num [drift_b]) (by norm_num [drift_b])
    (by norm_num [drift_b]) (by norm_num [drift_b])

theorem drift_round_26 :
    round_double (0 + drift_b 6) = drift_b 6 :=
  round_double_val _ _ (-56) (-7222873082376800) (by norm_num [drift_b])
    (by norm_num [drift_b]) (by norm_num [drift_b])
    (by norm_num [drift_b]) (by norm_num [drift_b])

theorem drift_round_27 :
    round_double (drift_s + drift_b 6) = drift_s :=
  round_double_val _ _ 1 6530219459687218 (by norm_num [drift_s, drift_b])
    (by norm_num [drift_s, drift_b]) (by norm_num [drift_s, drift_b])
    (by norm_num [drift_s, drift_b]) (by norm_num [drift_s, drift_b])

theorem drift_round_28 :
    round_double ((2026619832316723 / 4503599627370496) * drift_b 6) = drift_b 7 :=
  round_double_val _ _ (-57) (-6500585774139119) (by norm_num [drift_b])
    (by norm_num [drift_b]) (by norm_num [drift_b])
    (by norm_num [drift_b]) (by norm_num [drift_b])

theorem drift_round_29 :
    round_double (0 + drift_b 7) = drift_b 7 :=
  round_double_val _ _ (-57) (-6500585774139119) (by norm_num [drift_b])
    (by norm_num [drift_b]) (by norm_num [drift_b])
    (by norm_num [drift_b]) (by norm_num [drift_b])

theorem drift_round_30 :
    round_double (drift_s + drift_b 7) = drift_s :=
  round_double_val _ _ 1 6530219459687218 (by norm_num [drift_s, drift_b])
    (by norm_num [drift_s, drift_b]) (by norm_num [drift_s, drift_b])
    (by norm_num [drift_s, drift_b]) (by norm_num [drift_s, drift_b])

theorem drift_round_31 :
    round_double ((2026619832316723 / 4503599627370496) * drift_b 7) = drift_b 8 :=
  round_double_val _ _ (-58) (-5850527196725207) (by norm_num [drift_b])
    (by norm_num [drift_b]) (by norm_num [drift_b])
    (by norm_num [drift_b]) (by norm_num [drift_b])

theorem drift_round_32 :
    round_double (0 + drift_b 8) = drift_b 8 :=
  round_double_val _ _ (-58) (-5850527196725207) (by norm_num [drift_b])
    (by norm_num [drift_b]) (by norm_num [drift_b])
    (by norm_num [drift_b]) (by norm_num [drift_b])

theorem drift_round_33 :
    round_double (drift_s + drift_b 8) = drift_s :=
  round_double_val _ _ 1 6530219459687218 (by norm_num [drift_s, drift_b])
    (by norm_num [drift_s, drift_b]) (by norm_num [drift_s, drift_b])
    (by norm_num [drift_s, drift_b]) (by norm_num [drift_s, drift_b])

theorem drift_round_34 :
    round_double ((2026619832316723 / 4503599627370496) * drift_b 8) = drift_b 9 :=
  round_double_val _ _ (-59) (-5265474477052686) (by norm_num [drift_b])
    (by norm_num [drift_b]) (by norm_num [drift_b])
    (by norm_num [drift_b]) (by norm_num [drift_b])

theorem drift_round_35 :
    round_double (0 + drift_b 9) = drift_b 9 :=
  round_double_val _ _ (-59) (-5265474477052686) (by norm_num [drift_b])
    (by norm_num [drift_b]) (by norm_num [drift_b])
    (by norm_num [drift_b]) (by norm_num [drift_b])

theorem drift_round_36 :
    round_double (drift_s + drift_b 9) = drift_s :=
  round_double_val _ _ 1 6530219459687218 (by norm_num [drift_s, drift_b])
    (by norm_num [drift_s, drift_b]) (by norm_num [drift_s, drift_b])
    (by norm_num [drift_s, drift_b]) (by norm_num [drift_s, drift_b])

theorem drift_round_37 :
    round_double ((2026619832316723 / 4503599627370496) * drift_b 9) = drift_b 10 :=
  round_double_val _ _ (-60) (-4738927029347417) (by norm_num [drift_b])
    (by norm_num [drift_b]) (by norm_num [drift_b])
    (by norm_num [drift_b]) (by norm_num [drift_b])

theorem drift_round_38 :
    round_double (0 + drift_b 10) = drift_b 10 :=
  round_double_val _ _ (-60) (-4738927029347417) (by norm_num [drift_b])
    (by norm_num [drift_b]) (by norm_num [drift_b])
    (by norm_num [drift_b]) (by norm_num [drift_b])

theorem drift_call_1 :
    go_on_rounded round_double (init [drift_thresh] alpha_default beta_default 4 5) [drift_c] =
      some (true, drift_monitor 0 1 0 [] []) := by
  rw [go_on_rounded_init_flat]
  rfl

theorem drift_call_2 :
    go_on_rounded round_double (drift_monitor 0 1 0 []
        []) [drift_c] =
      some (true, (drift_monitor 1 2 1 [drift_c]
        [0])) := by
  have hp : decide (|(0 : ℚ)| < drift_thresh) = true := by
    norm_num [drift_thresh]
  rw [go_on_rounded_seed_scalar round_double _ drift_c drift_c drift_thresh 0
    true rfl rfl rfl drift_round_01 hp]
  rfl

theorem drift_call_3 :
    go_on_rounded round_double (drift_monitor 1 2 1 [drift_c]
        [0]) [drift_c] =
      some (true, (drift_monitor 0 3 2 [drift_c, drift_s]
        [0, drift_b 3])) := by
  have hs : round_double (round_double (alpha_default * drift_c) +
      round_double (round_double (1 - alpha_default) * round_double (drift_c + 0)))
      = drift_s := by
    rw [drift_round_02, drift_round_03, drift_round_04, drift_round_05, drift_round_06]
  have hb : round_double (round_double (beta_default * round_double (drift_s - drift_c)) +
      round_double (round_double (1 - beta_default) * 0))
      = drift_b 3 := by
    rw [drift_round_07, drift_round_08, drift_round_09, drift_round_10, drift_round_11]
  have hp : decide (|drift_b 3| < drift_thresh) = false := by
    norm_num [abs_lt, drift_thresh, drift_b]
  rw [go_on_rounded_smooth_scalar round_double _ []
    [] drift_c drift_c 0
    drift_thresh drift_s (drift_b 3) false
    rfl rfl rfl rfl rfl hs hb hp]
  rfl

theorem drift_call_4 :
    go_on_rounded round_double (drift_monitor 0 3 2 [drift_c, drift_s]
        [0, drift_b 3]) [drift_c] =
      some (true, (drift_monitor 0 4 3 [drift_c, drift_s, drift_s]
        [0, drift_b 3, drift_b 4])) := by
  have hs : round_double (round_double (alpha_default * drift_c) +
      round_double (round_double (1 - alpha_default) * round_double (drift_s + drift_b 3)))
      = drift_s := by
    rw [drift_round_12, drift_round_03, drift_round_13, drift_round_05, drift_round_14]
  have hb : round_double (round_double (beta_default * round_double (drift_s - drift_s)) +
      round_double (round_double (1 - beta_default) * (drift_b 3)))
      = drift_b 4 := by
    rw [drift_round_15, drift_round_16, drift_round_09, drift_round_17, drift_round_18]
  have hp : decide (|drift_b 4| < drift_thresh) = false := by
    norm_num [abs_lt, drift_thresh, drift_b]
  rw [go_on_rounded_smooth_scalar round_double _ [[drift_c]]
    [[0]] drift_c drift_s (drift_b 3)
    drift_thresh drift_s (drift_b 4) false
    rfl rfl rfl rfl rfl hs hb hp]
  rfl

theorem drift_call_5 :
    go_on_rounded round_double (drift_monitor 0 4 3 [drift_c, drift_s, drift_s]
        [0, drift_b 3, drift_b 4]) [drift_c] =
      some (true, (drift_monitor 0 5 4 [drift_c, drift_s, drift_s, drift_s]
        [0, drift_b 3, drift_b 4, drift_b 5])) := by
  have hs : round_double (round_double (alpha_default * drift_c) +
      round_double (round_double (1 - alpha_default) * round_double (drift_s + drift_b 4)))
      = drift_s := by
    rw [drift_round_19, drift_round_03, drift_round_20, drift_round_05, drift_round_21]
  have hb : round_double (round_double (beta_default * round_double (drift_s - drift_s)) +
      round_double (round_double (1 - beta_default) * (drift_b 4)))
      = drift_b 5 := by
    rw [drift_round_15, drift_round_16, drift_round_09, drift_round_22, drift_round_23]
  have hp : decide (|drift_b 5| < drift_thresh) = false := by
    norm_num [abs_lt, drift_thresh, drift_b]
  rw [go_on_rounded_smooth_scalar round_double _ [[drift_c], [drift_s]]
    [[0], [drift_b 3]] drift_c drift_s (drift_b 4)
    drift_thresh drift_s (drift_b 5) false
    rfl rfl rfl rfl rfl hs hb hp]
  rfl

theorem drift_call_6 :
    go_on_rounded round_double (drift_monitor 0 5 4 [drift_c, drift_s, drift_s, drift_s]
        [0, drift_b 3, drift_b 4, drift_b 5]) [drift_c] =
      some (true, (drift_monitor 0 6 4 [drift_s, drift_s, drift_s, drift_s]
        [drift_b 3, drift_b 4, drift_b 5, drift_b 6])) := by
  have hs : round_double (round_double (alpha_default * drift_c) +
      round_double (round_double (1 - alpha_default) * round_double (drift_s + drift_b 5)))
      = drift_s := by
    rw [drift_round_24, drift_round_03, drift_round_20, drift_round_05, drift_round_21]
  have hb : round_double (round_double (beta_default * round_double (drift_s - drift_s)) +
      round_double (round_double (1 - beta_default) * (drift_b 5)))
      = drift_b 6 := by
    rw [drift_round_15, drift_round_16, drift_round_09, drift_round_25, drift_round_26]
  have hp : decide (|drift_b 6| < drift_thresh) = false := by
    norm_num [abs_lt, drift_thresh, drift_b]
  rw [go_on_rounded_smooth_scalar round_double _ [[drift_c], [drift_s], [drift_s]]
    [[0], [drift_b 3], [drift_b 4]] drift_c drift_s (drift_b 5)
    drift_thresh drift_s (drift_b 6) false
    rfl rfl rfl rfl rfl hs hb hp]
  rfl

theorem drift_call_7 :
    go_on_rounded round_double (drift_monitor 0 6 4 [drift_s, drift_s, drift_s, drift_s]
        [drift_b 3, drift_b 4, drift_b 5, drift_b 6]) [drift_c] =
      some (true, (drift_monitor 0 7 4 [drift_s, drift_s, drift_s, drift_s]
        [drift_b 4, drift_b 5, drift_b 6, drift_b 7])) := by
  have hs : round_double (round_double (alpha_default * drift_c) +
      round_double (round_double (1 - alpha_default) * round_double (drift_s + drift_b 6)))
      = drift_s := by
    rw [drift_round_27, drift_round_03, drift_round_20, drift_round_05, drift_round_21]
  have hb : round_double (round_double (beta_default * round_double (drift_s - drift_s)) +
      round_double (round_double (1 - beta_default) * (drift_b 6)))
      = drift_b 7 := by
    rw [drift_round_15, drift_round_16, drift_round_09, drift_round_28, drift_round_29]
  have hp : decide (|drift_b 7| < drift_thresh) = false := by
    norm_num [abs_lt, drift_thresh, drift_b]
  rw [go_on_rounded_smooth_scalar round_double _ [[drift_s], [drift_s], [drift_s]]
    [[drift_b 3], [drift_b 4], [drift_b 5]] drift_c drift_s (drift_b 6)
    drift_thresh drift_s (drift_b 7) false
    rfl rfl rfl rfl rfl hs hb hp]
  rfl

theorem drift_call_8 :
    go_on_rounded round_double (drift_monitor 0 7 4 [drift_s, drift_s, drift_s, drift_s]
        [drift_b 4, drift_b 5, drift_b 6, drift_b 7]) [drift_c] =
      some (true, (drift_monitor 1 8 4 [drift_s, drift_s, drift_s, drift_s]
        [drift_b 5, drift_b 6, drift_b 7, drift_b 8])) := by
  have hs : round_double (round_double (alpha_default * drift_c) +
      round_double (round_double (1 - alpha_default) * round_double (drift_s + drift_b 7)))
      = drift_s := by
    rw [drift_round_30, drift_round_03, drift_round_20, drift_round_05, drift_round_21]
  have hb : round_double (round_double (beta_default * round_double (drift_s - drift_s)) +
      round_double (round_double (1 - beta_default) * (drift_b 7)))
      = drift_b 8 := by
    rw [drift_round_15, drift_round_16, drift_round_09, drift_round_31, drift_round_32]
  have hp : decide (|drift_b 8| < drift_thresh) = true := by
    norm_num [abs_lt, drift_thresh, drift_b]
  rw [go_on_rounded_smooth_scalar round_double _ [[drift_s], [drift_s], [drift_s]]
    [[drift_b 4], [drift_b 5], [drift_b 6]] drift_c drift_s (drift_b 7)
    drift_thresh drift_s (drift_b 8) true
    rfl rfl rfl rfl rfl hs hb hp]
  rfl

theorem drift_call_9 :
    go_on_rounded round_double (drift_monitor 1 8 4 [drift_s, drift_s, drift_s, drift_s]
        [drift_b 5, drift_b 6, drift_b 7, drift_b 8]) [drift_c] =
      some (true, (drift_monitor 2 9 4 [drift_s, drift_s, drift_s, drift_s]
        [drift_b 6, drift_b 7, drift_b 8, drift_b 9])) := by
  have hs : round_double (round_double (alpha_default * drift_c) +
      round_double (round_double (1 - alpha_default) * round_double (drift_s + drift_b 8)))
      = drift_s := by
    rw [drift_round_33, drift_round_03, drift_round_20, drift_round_05, drift_round_21]
  have hb : round_double (round_double (beta_default * round_double (drift_s - drift_s)) +
      round_double (round_double (1 - beta_default) * (drift_b 8)))
      = drift_b 9 := by
    rw [drift_round_15, drift_round_16, drift_round_09, drift_round_34, drift_round_35]
  have hp : decide (|drift_b 9| < drift_thresh) = true := by
    norm_num [abs_lt, drift_thresh, drift_b]
  rw [go_on_rounded_smooth_scalar round_double _ [[drift_s], [drift_s], [drift_s]]
    [[drift_b 5], [drift_b 6], [drift_b 7]] drift_c drift_s (drift_b 8)
    drift_thresh drift_s (drift_b 9) true
    rfl rfl rfl rfl rfl hs hb hp]
  rfl

theorem drift_call_10 :
    go_on_rounded round_double (drift_monitor 2 9 4 [drift_s, drift_s, drift_s, drift_s]
        [drift_b 6, drift_b 7, drift_b 8, drift_b 9]) [drift_c] =
      some (true, (drift_monitor 3 10 4 [drift_s, drift_s, drift_s, drift_s]
        [drift_b 7, drift_b 8, drift_b 9, drift_b 10])) := by
  have hs : round_double (round_double (alpha_default * drift_c) +
      round_double (round_double (1 - alpha_default) * round_double (drift_s + drift_b 9)))
      = drift_s := by
    rw [drift_round_36, drift_round_03, drift_round_20, drift_round_05, drift_round_21]
  have hb : round_double (round_double (beta_default * round_double (drift_s - drift_s)) +
      round_double (round_double (1 - beta_default) * (drift_b 9)))
      = drift_b 10 := by
    rw [drift_round_15, drift_round_16, drift_round_09, drift_round_37, drift_round_38]
  have hp : decide (|drift_b 10| < drift_thresh) = true := by
    norm_num [abs_lt, drift_thresh, drift_b]
  rw [go_on_rounded_smooth_scalar round_double _ [[drift_s], [drift_s], [drift_s]]
    [[drift_b 6], [drift_b 7], [drift_b 8]] drift_c drift_s (drift_b 9)
    drift_thresh drift_s (drift_b 10) true
    rfl rfl rfl rfl rfl hs hb hp]
  rfl

theorem drift_feed :
    feed_rounded round_double (init [drift_thresh] alpha_default beta_default 4 5)
        (List.replicate (4 + 5 + 1) [drift_c]) =
      some (List.replicate (4 + 5 + 1) true,
        (drift_monitor 3 10 4 [drift_s, drift_s, drift_s, drift_s]
          [drift_b 7, drift_b 8, drift_b 9, drift_b 10])) := by
  simp only [List.replicate, Nat.reduceAdd, feed_rounded, drift_call_1, drift_call_2, drift_call_3,
    drift_call_4, drift_call_5, drift_call_6, drift_call_7, drift_call_8, drift_call_9,
    drift_call_10, Option.some_bind]

/-- Counterexample to C2 as stated, in binary64 arithmetic.  With `buffer_len = 1`,
`min_iter = 0`, threshold `1` and the constant observation `[0]`, the single call that
follows the first one is the history-seeding call and returns `true`.  With the empty
vector (and the empty, hence vacuously positive, threshold vector) `x0` never becomes
non-empty and each of the `1 + 1` calls that follow the first returns `true`.  With the
default configuration, the positive threshold `1e-17` and the constant observation `[2.9]`
the smoothing step does not reproduce `2.9` (the sum `alpha * c + (1.0-alpha) * c` is a tie
and rounds to the double below `2.9`), the slopes decay from about `-2.4e-16` by the factor
`1.0-beta` per call, the slope of the seventh call still fails the threshold, and all
`4 + 5 + 1` calls return `true`. -/
theorem flat_sequence_counterexample :
    (∃ m', feed_rounded round_double (init ([1] : Vec ℚ) alpha_default beta_default 1 0)
      (List.replicate (1 + 0 + 1) [0]) = some ([true, true], m')) ∧
    (∃ m', feed_rounded round_double (init ([] : Vec ℚ) alpha_default beta_default 1 1)
      (List.replicate (1 + 1 + 1) []) = some ([true, true, true], m')) ∧
    (0 < drift_thresh ∧
      ∃ m', feed_rounded round_double (init [drift_thresh] alpha_default beta_default 4 5)
        (List.replicate (4 + 5 + 1) [drift_c]) = some (List.replicate (4 + 5 + 1) true, m')) := by
  refine ⟨?_, ?_, ?_, ?_⟩
  · refine ⟨flatState ([1] : Vec ℚ) alpha_default beta_default 1 0 [0] 2, ?_⟩
    have h1 := go_on_rounded_init_flat round_double ([1] : Vec ℚ) alpha_default beta_default
      1 0 [0]
    have h2 := go_on_rounded_flatState round_double ([1] : Vec ℚ) alpha_default beta_default
      1 0 [0] 1 (by decide) (by decide) (by decide) (by decide) (by simp) rfl (by simp)
      round_double_zero (by simp [round_double_zero]) (by simp [round_double_zero])
    rw [show List.replicate (1 + 0 + 1) ([0] : Vec ℚ) = [[0], [0]] from rfl]
    simp only [feed_rounded, h1, h2, Option.some_bind]
    rfl
  · exact ⟨_, feed_rounded_empty round_double 3
      (init ([] : Vec ℚ) alpha_default beta_default 1 1) rfl rfl (by decide)⟩
  · norm_num [drift_thresh]
  · exact ⟨_, drift_feed⟩

/-- C3 as amended (return rule): on every reachable monitor and every observation of the
monitored size `go_on` returns a result; a call entered with an empty history (the first
observation and the history-seeding observation) returns `true` whatever the counters
are, and a smoothing call returns `false` exactly when, after its state update, the
consecutive-pass counter equals `buffer_len` and the iteration counter is at least
`min_iter`. -/
theorem go_on_return_rule (n : Nat) (m : DoubleExpSmoothSlopeCheck K) (e : Vec K)
    (hm : Reachable n m) (he : e.length = n) :
    ∃ r m', m.go_on e = some (r, m') ∧
      (m.len = 0 → r = true) ∧
      (m.len ≠ 0 →
        (r = false ↔ m'.stop_cnt = m'.buffer_len ∧ m'.min_iter ≤ m'.iter_count)) := by
  obtain ⟨r, m', hgo, -⟩ := go_on_defined hm.sizesOK he
  obtain ⟨-, -, -, -, h0, h1⟩ := go_on_result hgo
  refine ⟨r, m', hgo, h0, fun hlen => ?_⟩
  rw [h1 hlen]
  simp [Nat.not_lt]

/-- Witness for C3 as amended: a smoothing call on a reachable monitor with a
non-empty history. -/
theorem go_on_return_rule_witness :
    Reachable 1 (flatState ([1] : Vec ℚ) (4/5) (11/20) 1 0 [0] 2) ∧
    ([1/2] : Vec ℚ).length = 1 ∧
    ∃ r m', (flatState ([1] : Vec ℚ) (4/5) (11/20) 1 0 [0] 2).go_on [1/2] = some (r, m') ∧
      ((flatState ([1] : Vec ℚ) (4/5) (11/20) 1 0 [0] 2).len = 0 → r = true) ∧
      ((flatState ([1] : Vec ℚ) (4/5) (11/20) 1 0 [0] 2).len ≠ 0 →
        (r = false ↔ m'.stop_cnt = m'.buffer_len ∧ m'.min_iter ≤ m'.iter_count)) :=
  have hr : Reachable 1 (flatState ([1] : Vec ℚ) (4/5) (11/20) 1 0 [0] 2) :=
    reachable_flatState ([1] : Vec ℚ) (4/5) (11/20) 1 0 [0] (by decide) (by decide)
      (by decide) (by simp) rfl (by simp) 2 (by decide) (by decide)
  ⟨hr, rfl, go_on_return_rule 1 _ [1/2] hr rfl⟩

/-- Counterexample to C3 as stated.  On a fresh monitor with threshold `1`,
`buffer_len = 1` and `min_iter = 0`, the second observation of `[0]` (the
history-seeding call) returns `true` although after the call the consecutive-pass counter
equals `buffer_len` and the iteration counter is at least `min_iter`. -/
theorem go_on_return_rule_counterexample :
    ∃ m1 m2 : DoubleExpSmoothSlopeCheck ℚ,
      (init ([1] : Vec ℚ) (4/5) (11/20) 1 0).go_on [0] = some (true, m1) ∧
      m1.go_on [0] = some (true, m2) ∧
      m2.stop_cnt = 1 ∧ m2.buffer_len = 1 ∧ m2.min_iter = 0 ∧ m2.iter_count = 2 ∧
      ¬ ((true = false) ↔ (m2.stop_cnt = m2.buffer_len ∧ m2.min_iter ≤ m2.iter_count)) := by
  refine ⟨flatState ([1] : Vec ℚ) (4/5) (11/20) 1 0 [0] 1,
    flatState ([1] : Vec ℚ) (4/5) (11/20) 1 0 [0] 2, go_on_init_flat _ _ _ _ _ _, ?_,
    rfl, rfl, rfl, rfl, ?_⟩
  · exact go_on_flatState ([1] : Vec ℚ) (4/5) (11/20) 1 0 [0] 1 (by decide) (by decide)
      (by decide) (by decide) (by simp) rfl (by simp)
  · simp [flatState]

end DoubleExpSmoothSlopeCheck

section CodecProps
variable {K : Type} [LinearOrderedField K]

theorem length_twelve (p : Vec K) (h : p.length = 12) :
    ∃ p0 p1 p2 p3 p4 p5 p6 p7 p8 p9 p10 p11, p = [p0, p1, p2, p3, p4, p5, p6, p7, p8, p9, p10, p11] := by
  match p, h with
  | [p0, p1, p2, p3, p4, p5, p6, p7, p8, p9, p10, p11], _ =>
    exact ⟨p0, p1, p2, p3, p4, p5, p6, p7, p8, p9, p10, p11, rfl⟩

/-- C4 (codec round trip, matrix side): decoding the encoding of a 4x4 matrix whose
bottom row is `[0,0,0,1]` gives the matrix back exactly. -/
theorem param_vec2mat_param_mat2vec (M : Mat4 K) (h : M 3 = ![0, 0, 0, 1]) :
    param_vec2mat (param_mat2vec M) = .ok M := by
  simp only [param_mat2vec, param_vec2mat]
  congr 1
  ext i j
  fin_cases i <;> fin_cases j <;> simp [h]

/-- Witness for C4: an invertible homogeneous matrix with positive determinant. -/
theorem param_vec2mat_param_mat2vec_witness :
    (!![2, 0, 0, 1; 0, 3, 0, 2; 0, 0, 4, 3; 0, 0, 0, 1] : Mat4 ℚ) 3 = ![0, 0, 0, 1] ∧
    param_vec2mat (param_mat2vec (!![2, 0, 0, 1; 0, 3, 0, 2; 0, 0, 4, 3; 0, 0, 0, 1] : Mat4 ℚ))
      = .ok !![2, 0, 0, 1; 0, 3, 0, 2; 0, 0, 4, 3; 0, 0, 0, 1] :=
  ⟨rfl, param_vec2mat_param_mat2vec _ rfl⟩

/-- C5 (codec round trip, parameter side): for every 12-element vector `p`,
`Affine::set_parameter_vector` succeeds and `Affine::get_parameter_vector` called
afterwards returns a vector of length 12 equal to `p`; the centre is untouched. -/
theorem set_get_parameter_vector (a : Affine K) (p : Vec K) (h : p.length = 12) :
    ∃ a', a.set_parameter_vector p = some a' ∧ a'.get_parameter_vector = p ∧
      a'.get_parameter_vector.length = 12 ∧ a'.centre = a.centre := by
  obtain ⟨p0, p1, p2, p3, p4, p5, p6, p7, p8, p9, p10, p11, rfl⟩ := length_twelve p h
  refine ⟨{ a with trafo := fun r c =>
    [p0, p1, p2, p3, p4, p5, p6, p7, p8, p9, p10, p11].getD (4 * r.val + c.val) 0 },
    by simp [Affine.set_parameter_vector], rfl, rfl, rfl⟩


/-- Witness for C5: the parameter vector `[1, ..., 12]`. -/
theorem set_get_parameter_vector_witness :
    ([1, 2, 3, 4, 5, 6, 7, 8, 9, 10, 11, 12] : Vec ℚ).length = 12 ∧
    ∃ a', ({ trafo := 0, centre := ![0, 0, 0] } : Affine ℚ).set_parameter_vector
        [1, 2, 3, 4, 5, 6, 7, 8, 9, 10, 11, 12] = some a' ∧
      a'.get_parameter_vector = [1, 2, 3, 4, 5, 6, 7, 8, 9, 10, 11, 12] ∧
      a'.get_parameter_vector.length = 12 ∧
      a'.centre = ({ trafo := 0, centre := ![0, 0, 0] } : Affine ℚ).centre :=
  ⟨rfl, set_get_parameter_vector _ _ rfl⟩

/-- C6 (parameter layout): a 12-vector `p` decodes to the matrix with entry `(r, c)`
equal to `p[4 * r + c]` for `r < 3` and bottom row `[0,0,0,1]`, and
`Affine::set_parameter_vector` stores the same layout in `trafo`; encoding a matrix `M`
yields 12 values with `p[4 * r + c] = M(r, c)` and so agrees on matrices that differ only
in row 3; the identity encodes to `[1,0,0,0, 0,1,0,0, 0,0,1,0]`, which decodes to the
identity. -/
theorem param_layout (p : Vec K) (hp : p.length = 12) (M M' : Mat4 K)
    (hM : ∀ r : Fin 3, M r.castSucc = M' r.castSucc) (a : Affine K) :
    (∃ D, param_vec2mat p = .ok D ∧
      (∀ (r : Fin 3) (c : Fin 4), p[4 * r.val + c.val]? = some (D r.castSucc c)) ∧
      D 3 = ![0, 0, 0, 1]) ∧
    (∃ a', a.set_parameter_vector p = some a' ∧
      ∀ (r : Fin 3) (c : Fin 4), p[4 * r.val + c.val]? = some (a'.trafo r c)) ∧
    (param_mat2vec M).length = 12 ∧
    (∀ (r : Fin 3) (c : Fin 4), (param_mat2vec M)[4 * r.val + c.val]? = some (M r.castSucc c)) ∧
    param_mat2vec M = param_mat2vec M' ∧
    param_mat2vec (1 : Mat4 K) = [1, 0, 0, 0, 0, 1, 0, 0, 0, 0, 1, 0] ∧
    param_vec2mat ([1, 0, 0, 0, 0, 1, 0, 0, 0, 0, 1, 0] : Vec K) = .ok 1 := by
  obtain ⟨p0, p1, p2, p3, p4, p5, p6, p7, p8, p9, p10, p11, rfl⟩ := length_twelve p hp
  refine ⟨⟨_, rfl, ?_, rfl⟩, ⟨{ a with trafo := fun r c =>
    [p0, p1, p2, p3, p4, p5, p6, p7, p8, p9, p10, p11].getD (4 * r.val + c.val) 0 },
    by simp [Affine.set_parameter_vector], ?_⟩, rfl, ?_, ?_, ?_, ?_⟩
  · intro r c
    fin_cases r <;> fin_cases c <;> rfl
  · intro r c
    fin_cases r <;> fin_cases c <;> rfl
  · intro r c
    fin_cases r <;> fin_cases c <;> rfl
  · have h0 := hM 0
    have h1 := hM 1
    have h2 := hM 2
    simp only [param_mat2vec]
    have e0 : M 0 = M' 0 := h0
    have e1 : M 1 = M' 1 := h1
    have e2 : M 2 = M' 2 := h2
    rw [e0, e1, e2]
  · simp [param_mat2vec]
  · simp only [param_vec2mat]
    congr 1
    ext i j
    fin_cases i <;> fin_cases j <;> rfl

/-- Witness for C6: the vector `[1, ..., 12]` and two matrices that differ in row 3. -/
theorem param_layout_witness :
    ([1, 2, 3, 4, 5, 6, 7, 8, 9, 10, 11, 12] : Vec ℚ).length = 12 ∧
    (∀ r : Fin 3, (1 : Mat4 ℚ) r.castSucc
      = (!![1, 0, 0, 0; 0, 1, 0, 0; 0, 0, 1, 0; 5, 6, 7, 8] : Mat4 ℚ) r.castSucc) ∧
    param_mat2vec (1 : Mat4 ℚ)
      = param_mat2vec (!![1, 0, 0, 0; 0, 1, 0, 0; 0, 0, 1, 0; 5, 6, 7, 8] : Mat4 ℚ) :=
  have h : ∀ r : Fin 3, (1 : Mat4 ℚ) r.castSucc
      = (!![1, 0, 0, 0; 0, 1, 0, 0; 0, 0, 1, 0; 5, 6, 7, 8] : Mat4 ℚ) r.castSucc := by
    intro r
    ext j
    fin_cases r <;> fin_cases j <;> rfl
  ⟨rfl, h, (param_layout ([1, 2, 3, 4, 5, 6, 7, 8, 9, 10, 11, 12] : Vec ℚ) rfl 1 _ h
    { trafo := 0, centre := ![0, 0, 0] }).2.2.2.2.1⟩

end CodecProps

section RobustProps
variable {K : Type} [LinearOrderedField K]

theorem squaredNorm_nonneg (v : Vec K) : 0 ≤ squaredNorm v := by
  unfold squaredNorm
  induction v with
  | nil => simp
  | cons a v ih =>
    simp only [List.map_cons, List.sum_cons]
    exact add_nonneg (mul_self_nonneg a) ih

theorem dummy_precision_sq_nonneg : (0 : K) ≤ dummy_precision * dummy_precision :=
  mul_self_nonneg _

theorem isApprox_self (x : Vec K) : isApprox x x = some true := by
  have h0 : squaredNorm (zeros x) = 0 := by
    unfold squaredNorm zeros
    induction x with
    | nil => simp
    | cons a v ih => simp [ih]
  have hr : (0 : K) ≤ dummy_precision * dummy_precision * min (squaredNorm x) (squaredNorm x) :=
    mul_nonneg dummy_precision_sq_nonneg (le_min (squaredNorm_nonneg x) (squaredNorm_nonneg x))
  simp only [isApprox, vsub_self_flat, Option.map_some', h0]
  simpa using hr

theorem vsub_smul_of_zero (s : K) :
    ∀ (x g : Vec K), g.length = x.length → (∀ b ∈ g, s * b = 0) →
      vsub x (smul s g) = some x := by
  intro x g hlen hz
  rw [vsub, cwise_eq_some _ _ _ (by rw [length_smul]; exact hlen.symm)]
  congr 1
  induction x generalizing g with
  | nil => simp
  | cons a x ih =>
    cases g with
    | nil => simp at hlen
    | cons b g =>
      have hb : s * b = 0 := hz b (List.mem_cons_self _ _)
      have := ih g (by simpa using hlen) (fun c hc => hz c (List.mem_cons_of_mem _ hc))
      simp only [smul] at this
      simp [smul, hb, this]

theorem robust_defined (x g : Vec K) (s : K) (h : g.length = x.length) :
    AffineRobustEstimator.operator_call x g s =
      (isApprox (List.zipWith (fun a b => a - b) x (smul s g)) x).bind fun approx =>
        some (List.zipWith (fun a b => a - b) x (smul s g), !approx) := by
  unfold AffineRobustEstimator.operator_call
  rw [vsub, cwise_eq_some _ _ _ (by rw [length_smul]; exact h.symm), Option.some_bind]

theorem isApprox_defined (a b : Vec K) (h : a.length = b.length) :
    ∃ r, isApprox a b = some r := by
  unfold isApprox
  rw [vsub, cwise_eq_some _ _ _ h]
  exact ⟨_, rfl⟩

/-- C7 (robust update value): for `x` and `g` of equal length and every step size `s`
the call succeeds (no further validation) and `newx[i] = x[i] - s * g[i]` at every index;
on the identity parameters with the all-ones gradient and `s = 1/10` every component is
`x[i] - 1/10`. -/
theorem robust_update_value (x g : Vec K) (s : K) (h : g.length = x.length) :
    (∃ (newx : Vec K) (changed : Bool),
      AffineRobustEstimator.operator_call x g s = some (newx, changed) ∧
      newx.length = x.length ∧
      ∀ (i : Nat) (a b : K), x[i]? = some a → g[i]? = some b → newx[i]? = some (a - s * b)) ∧
    ∃ changed, AffineRobustEstimator.operator_call
        ([1, 0, 0, 0, 0, 1, 0, 0, 0, 0, 1, 0] : Vec ℚ) [1, 1, 1, 1, 1, 1, 1, 1, 1, 1, 1, 1] (1 / 10)
      = some ([1 - 1 / 10, 0 - 1 / 10, 0 - 1 / 10, 0 - 1 / 10, 0 - 1 / 10, 1 - 1 / 10,
          0 - 1 / 10, 0 - 1 / 10, 0 - 1 / 10, 0 - 1 / 10, 1 - 1 / 10, 0 - 1 / 10], changed) := by
  constructor
  · have hl : (List.zipWith (fun a b => a - b) x (smul s g)).length = x.length := by
      simp [length_smul, h]
    obtain ⟨r, hr⟩ := isApprox_defined _ x hl
    refine ⟨_, !r, by rw [robust_defined x g s h, hr, Option.some_bind], hl, ?_⟩
    intro i a b ha hb
    simp [smul, List.getElem?_zipWith, ha, hb]
  · obtain ⟨r, hr⟩ := isApprox_defined
      (List.zipWith (fun a b => a - b) ([1, 0, 0, 0, 0, 1, 0, 0, 0, 0, 1, 0] : Vec ℚ)
        (smul (1 / 10) [1, 1, 1, 1, 1, 1, 1, 1, 1, 1, 1, 1]))
      [1, 0, 0, 0, 0, 1, 0, 0, 0, 0, 1, 0] rfl
    refine ⟨!r, ?_⟩
    rw [robust_defined ([1, 0, 0, 0, 0, 1, 0, 0, 0, 0, 1, 0] : Vec ℚ)
      [1, 1, 1, 1, 1, 1, 1, 1, 1, 1, 1, 1] (1 / 10) rfl, hr, Option.some_bind]
    simp [smul]


/-- Witness for C7: identity parameters, all-ones gradient, step `1/10`. -/
theorem robust_update_value_witness :
    ([1, 1, 1, 1, 1, 1, 1, 1, 1, 1, 1, 1] : Vec ℚ).length
      = ([1, 0, 0, 0, 0, 1, 0, 0, 0, 0, 1, 0] : Vec ℚ).length ∧
    ∃ (newx : Vec ℚ) (changed : Bool),
      AffineRobustEstimator.operator_call ([1, 0, 0, 0, 0, 1, 0, 0, 0, 0, 1, 0] : Vec ℚ)
        [1, 1, 1, 1, 1, 1, 1, 1, 1, 1, 1, 1] (1 / 10) = some (newx, changed) ∧
      newx.length = ([1, 0, 0, 0, 0, 1, 0, 0, 0, 0, 1, 0] : Vec ℚ).length ∧
      ∀ (i : Nat) (a b : ℚ), ([1, 0, 0, 0, 0, 1, 0, 0, 0, 0, 1, 0] : Vec ℚ)[i]? = some a →
        ([1, 1, 1, 1, 1, 1, 1, 1, 1, 1, 1, 1] : Vec ℚ)[i]? = some b →
        newx[i]? = some (a - 1 / 10 * b) :=
  ⟨rfl, (robust_update_value ([1, 0, 0, 0, 0, 1, 0, 0, 0, 0, 1, 0] : Vec ℚ)
    [1, 1, 1, 1, 1, 1, 1, 1, 1, 1, 1, 1] (1 / 10) rfl).1⟩

/-- C8 (robust update changed flag): the returned boolean is `true` exactly when `newx`
is not approximately equal to `x` in Eigen's relative-tolerance sense; it is `false`
(with `newx = x`) whenever `s = 0` or `g` is the zero vector; whenever it is `true`,
`newx` differs from `x` in some component; and it is `true` on the identity parameters
with the all-ones gradient and `s = 1/10`. -/
theorem robust_update_changed (x g : Vec K) (s : K) (h : g.length = x.length) :
    (∃ (newx : Vec K) (changed : Bool),
      AffineRobustEstimator.operator_call x g s = some (newx, changed) ∧
      (changed = true ↔ isApprox newx x = some false) ∧
      ((s = 0 ∨ ∀ b ∈ g, b = 0) → newx = x ∧ changed = false) ∧
      (changed = true → ∃ i : Nat, i < x.length ∧ newx[i]? ≠ x[i]?)) ∧
    AffineRobustEstimator.operator_call
        ([1, 0, 0, 0, 0, 1, 0, 0, 0, 0, 1, 0] : Vec ℚ) [1, 1, 1, 1, 1, 1, 1, 1, 1, 1, 1, 1] (1 / 10)
      = some ([9 / 10, -1 / 10, -1 / 10, -1 / 10, -1 / 10, 9 / 10,
          -1 / 10, -1 / 10, -1 / 10, -1 / 10, 9 / 10, -1 / 10], true) := by
  constructor
  · have hl : (List.zipWith (fun a b => a - b) x (smul s g)).length = x.length := by
      simp [length_smul, h]
    obtain ⟨r, hr⟩ := isApprox_defined _ x hl
    have hcall : AffineRobustEstimator.operator_call x g s
        = some (List.zipWith (fun a b => a - b) x (smul s g), !r) := by
      rw [robust_defined x g s h, hr, Option.some_bind]
    have hsame : List.zipWith (fun a b => a - b) x (smul s g) = x → r = true := by
      intro he
      rw [he, isApprox_self] at hr
      exact (Option.some.inj hr).symm
    refine ⟨_, !r, hcall, ?_, ?_, ?_⟩
    · rw [hr]
      cases r <;> simp
    · intro hz
      have hzero : ∀ b ∈ g, s * b = 0 := by
        intro b hb
        rcases hz with hs | hg
        · rw [hs, zero_mul]
        · rw [hg b hb, mul_zero]
      have hv := vsub_smul_of_zero s x g h hzero
      rw [vsub, cwise_eq_some _ _ _ (by rw [length_smul]; exact h.symm)] at hv
      have he := Option.some.inj hv
      exact ⟨he, by rw [hsame he]; rfl⟩
    · intro hc
      by_contra hne
      have hall : ∀ i : Nat, (List.zipWith (fun a b => a - b) x (smul s g))[i]? = x[i]? := by
        intro i
        by_cases hi : i < x.length
        · by_contra hcon
          exact hne ⟨i, hi, hcon⟩
        · have h1 : (List.zipWith (fun a b => a - b) x (smul s g))[i]? = none :=
            List.getElem?_eq_none (by rw [hl]; omega)
          have h2 : x[i]? = none := List.getElem?_eq_none (by omega)
          rw [h1, h2]
      have he := List.ext_getElem? hall
      rw [hsame he] at hc
      simp at hc
  · simp [AffineRobustEstimator.operator_call, vsub, cwise, smul, isApprox, squaredNorm,
      dummy_precision]
    norm_num

/-- Witness for C8: identity parameters, zero gradient, step `1/10`. -/
theorem robust_update_changed_witness :
    ([0, 0, 0, 0, 0, 0, 0, 0, 0, 0, 0, 0] : Vec ℚ).length
      = ([1, 0, 0, 0, 0, 1, 0, 0, 0, 0, 1, 0] : Vec ℚ).length ∧
    ∃ (newx : Vec ℚ) (changed : Bool),
      AffineRobustEstimator.operator_call ([1, 0, 0, 0, 0, 1, 0, 0, 0, 0, 1, 0] : Vec ℚ)
        [0, 0, 0, 0, 0, 0, 0, 0, 0, 0, 0, 0] (1 / 10) = some (newx, changed) ∧
      (changed = true ↔ isApprox newx [1, 0, 0, 0, 0, 1, 0, 0, 0, 0, 1, 0] = some false) ∧
      (((1 / 10 : ℚ) = 0 ∨ ∀ b ∈ ([0, 0, 0, 0, 0, 0, 0, 0, 0, 0, 0, 0] : Vec ℚ), b = 0) →
        newx = [1, 0, 0, 0, 0, 1, 0, 0, 0, 0, 1, 0] ∧ changed = false) ∧
      (changed = true → ∃ i : Nat,
        i < ([1, 0, 0, 0, 0, 1, 0, 0, 0, 0, 1, 0] : Vec ℚ).length ∧
        newx[i]? ≠ ([1, 0, 0, 0, 0, 1, 0, 0, 0, 0, 1, 0] : Vec ℚ)[i]?) :=
  ⟨rfl, (robust_update_changed ([1, 0, 0, 0, 0, 1, 0, 0, 0, 0, 1, 0] : Vec ℚ)
    [0, 0, 0, 0, 0, 0, 0, 0, 0, 0, 0, 0] (1 / 10) rfl).1⟩

end RobustProps

section JacobianProps
variable {K : Type} [LinearOrderedField K]

theorem jacobian_eq (a : Affine K) (p : Fin 3 → K) :
    a.get_jacobian_wrt_params p =
      !![p 0 - a.centre 0, p 1 - a.centre 1, p 2 - a.centre 2, 1, 0, 0, 0, 0, 0, 0, 0, 0;
         0, 0, 0, 0, p 0 - a.centre 0, p 1 - a.centre 1, p 2 - a.centre 2, 1, 0, 0, 0, 0;
         0, 0, 0, 0, 0, 0, 0, 0, p 0 - a.centre 0, p 1 - a.centre 1, p 2 - a.centre 2, 1] := by
  ext r j
  fin_cases r <;> fin_cases j <;> rfl

/-- C9 (Jacobian shape): `get_jacobian_vector_wrt_params p` is `[p - centre, 1]`, and the
3x12 matrix `get_jacobian_wrt_params p` holds that vector in columns `4r .. 4r+3` of row
`r` and zero elsewhere; for `p = (1,2,3)` and centre `(0,0,0)` its rows are
`[1,2,3,1,0,0,0,0,0,0,0,0]`, `[0,0,0,0,1,2,3,1,0,0,0,0]`, `[0,0,0,0,0,0,0,0,1,2,3,1]`. -/
theorem jacobian_shape (a : Affine K) (p : Fin 3 → K) :
    a.get_jacobian_vector_wrt_params p
      = ![p 0 - a.centre 0, p 1 - a.centre 1, p 2 - a.centre 2, 1] ∧
    (∀ (r : Fin 3) (j : Fin 12),
      a.get_jacobian_wrt_params p r j =
        if h : 4 * r.val ≤ j.val ∧ j.val < 4 * r.val + 4 then
          a.get_jacobian_vector_wrt_params p ⟨j.val - 4 * r.val, by omega⟩
        else 0) ∧
    (({ trafo := 0, centre := ![0, 0, 0] } : Affine ℚ).get_jacobian_wrt_params ![1, 2, 3]
      = !![1, 2, 3, 1, 0, 0, 0, 0, 0, 0, 0, 0;
           0, 0, 0, 0, 1, 2, 3, 1, 0, 0, 0, 0;
           0, 0, 0, 0, 0, 0, 0, 0, 1, 2, 3, 1]) := by
  refine ⟨rfl, ?_, ?_⟩
  · intro r j
    fin_cases r <;> fin_cases j <;> rfl
  · rw [jacobian_eq]
    simp

end JacobianProps

section UpdateProps

variable {K : Type} [LinearOrderedField K]
theorem det4_of (a0 a1 a2 a3 b0 b1 b2 b3 c0 c1 c2 c3 d0 d1 d2 d3 : K) :
    (!![a0, a1, a2, a3; b0, b1, b2, b3; c0, c1, c2, c3; d0, d1, d2, d3] :
      Mat4 K).det =
      a0 * (b1 * (c2 * d3 - c3 * d2) - b2 * (c1 * d3 - c3 * d1) + b3 * (c1 * d2 - c2 * d1))
      - a1 * (b0 * (c2 * d3 - c3 * d2) - b2 * (c0 * d3 - c3 * d0) + b3 * (c0 * d2 - c2 * d0))
      + a2 * (b0 * (c1 * d3 - c3 * d1) - b1 * (c0 * d3 - c3 * d0) + b3 * (c0 * d1 - c1 * d0))
      - a3 * (b0 * (c1 * d2 - c2 * d1) - b1 * (c0 * d2 - c2 * d0) + b2 * (c0 * d1 - c1 * d0)) := by
  have m0 : (!![a0, a1, a2, a3; b0, b1, b2, b3; c0, c1, c2, c3; d0, d1, d2, d3] :
      Mat4 K).submatrix Fin.succ (Fin.succAbove 0)
      = !![b1, b2, b3; c1, c2, c3; d1, d2, d3] := by
    ext i k
    fin_cases i <;> fin_cases k <;> rfl
  have m1 : (!![a0, a1, a2, a3; b0, b1, b2, b3; c0, c1, c2, c3; d0, d1, d2, d3] :
      Mat4 K).submatrix Fin.succ (Fin.succAbove 1)
      = !![b0, b2, b3; c0, c2, c3; d0, d2, d3] := by
    ext i k
    fin_cases i <;> fin_cases k <;> rfl
  have m2 : (!![a0, a1, a2, a3; b0, b1, b2, b3; c0, c1, c2, c3; d0, d1, d2, d3] :
      Mat4 K).submatrix Fin.succ (Fin.succAbove 2)
      = !![b0, b1, b3; c0, c1, c3; d0, d1, d3] := by
    ext i k
    fin_cases i <;> fin_cases k <;> rfl
  have m3 : (!![a0, a1, a2, a3; b0, b1, b2, b3; c0, c1, c2, c3; d0, d1, d2, d3] :
      Mat4 K).submatrix Fin.succ (Fin.succAbove 3)
      = !![b0, b1, b2; c0, c1, c2; d0, d1, d2] := by
    ext i k
    fin_cases i <;> fin_cases k <;> rfl
  have e3 : ((3 : Fin 4) : ℕ) = 3 := rfl
  rw [Matrix.det_succ_row_zero, Fin.sum_univ_four, m0, m1, m2, m3]
  simp [Matrix.det_fin_three, e3]
  ring

theorem det4_general (M : Mat4 K) :
    M.det =
      M 0 0 * (M 1 1 * (M 2 2 * M 3 3 - M 2 3 * M 3 2) - M 1 2 * (M 2 1 * M 3 3 - M 2 3 * M 3 1)
        + M 1 3 * (M 2 1 * M 3 2 - M 2 2 * M 3 1))
      - M 0 1 * (M 1 0 * (M 2 2 * M 3 3 - M 2 3 * M 3 2) - M 1 2 * (M 2 0 * M 3 3 - M 2 3 * M 3 0)
        + M 1 3 * (M 2 0 * M 3 2 - M 2 2 * M 3 0))
      + M 0 2 * (M 1 0 * (M 2 1 * M 3 3 - M 2 3 * M 3 1) - M 1 1 * (M 2 0 * M 3 3 - M 2 3 * M 3 0)
        + M 1 3 * (M 2 0 * M 3 1 - M 2 1 * M 3 0))
      - M 0 3 * (M 1 0 * (M 2 1 * M 3 2 - M 2 2 * M 3 1) - M 1 1 * (M 2 0 * M 3 2 - M 2 2 * M 3 0)
        + M 1 2 * (M 2 0 * M 3 1 - M 2 1 * M 3 0)) := by
  have h : M = !![M 0 0, M 0 1, M 0 2, M 0 3; M 1 0, M 1 1, M 1 2, M 1 3;
      M 2 0, M 2 1, M 2 2, M 2 3; M 3 0, M 3 1, M 3 2, M 3 3] := by
    ext i j
    fin_cases i <;> fin_cases j <;> rfl
  rw [h, det4_of]
  simp


theorem inverse_eq_some {M N : Mat4 K} (h : inverse M = some N) :
    M.det ≠ 0 ∧ N = M⁻¹ := by
  unfold inverse at h
  split at h
  · simp at h
  · next hd =>
    refine ⟨hd, ?_⟩
    simp only [Option.some.injEq] at h
    rw [← h, Matrix.inv_def, Ring.inverse_eq_inv']

theorem inverse_of_mul_eq_one {M N : Mat4 K} (h : M * N = 1) : inverse M = some N := by
  have hd : M.det ≠ 0 := by
    intro h0
    have := congrArg Matrix.det h
    rw [Matrix.det_mul, h0, zero_mul, Matrix.det_one] at this
    exact zero_ne_one this
  have hN : M⁻¹ = N := Matrix.inv_eq_right_inv h
  unfold inverse
  rw [if_neg hd, ← hN, Matrix.inv_def, Ring.inverse_eq_inv']

theorem det_inverse {M N : Mat4 K} (h : inverse M = some N) : N.det = (M.det)⁻¹ := by
  obtain ⟨_, rfl⟩ := inverse_eq_some h
  rw [Matrix.det_nonsing_inv, Ring.inverse_eq_inv']

theorem squaredNorm4_nonneg (M : Mat4 K) : 0 ≤ squaredNorm4 M := by
  unfold squaredNorm4
  exact Finset.sum_nonneg fun i _ => Finset.sum_nonneg fun j _ => mul_self_nonneg _

theorem isApprox4_self (M : Mat4 K) : isApprox4 M M = true := by
  unfold isApprox4
  have h0 : squaredNorm4 (M - M) = 0 := by simp [squaredNorm4]
  have hr : (0 : K) ≤ dummy_precision * dummy_precision * min (squaredNorm4 M) (squaredNorm4 M) :=
    mul_nonneg (mul_self_nonneg _) (le_min (squaredNorm4_nonneg M) (squaredNorm4_nonneg M))
  rw [h0]
  simpa using hr

theorem root_stage_ok {checked : Bool} {msqrt : Mat4 K → Mat4 K} {A B Xnew : Mat4 K}
    (h : root_stage checked msqrt A B = .ok Xnew) :
    ∃ Bsqrtinv, inverse (msqrt B) = some Bsqrtinv ∧
      Xnew = symmetric_candidate (msqrt A) Bsqrtinv := by
  unfold root_stage at h
  simp only at h
  split at h
  · simp at h
  · split at h
    · simp at h
    · split at h
      · simp at h
      · next Q hQ =>
        simp only [Except.ok.injEq] at h
        exact ⟨Q, hQ, h.symm⟩

theorem root_stage_eq (checked : Bool) (msqrt : Mat4 K → Mat4 K) (A B Q : Mat4 K)
    (hA : msqrt A * msqrt A = A) (hB : msqrt B * msqrt B = B)
    (hQ : inverse (msqrt B) = some Q) :
    root_stage checked msqrt A B = .ok (symmetric_candidate (msqrt A) Q) := by
  unfold root_stage
  simp [hA, hB, hQ, isApprox4_self]

theorem symmetric_candidate_of_commute (P Q : Mat4 K) (h : P * Q = Q * P) :
    symmetric_candidate P Q = P * Q := by
  simp [symmetric_candidate, h]

theorem symmetric_candidate_det_pos {msqrt : Mat4 K → Mat4 K} {A B Q : Mat4 K}
    (hQ : inverse (msqrt B) = some Q) (hc : msqrt A * Q = Q * msqrt A)
    (hA : 0 < (msqrt A).det) (hB : 0 < (msqrt B).det) :
    0 < (symmetric_candidate (msqrt A) Q).det := by
  rw [symmetric_candidate_of_commute _ _ hc, Matrix.det_mul, det_inverse hQ]
  exact mul_pos hA (inv_pos.mpr hB)


theorem cp_loop_ok {checked : Bool} {msqrt : Mat4 K → Mat4 K} {X P : Mat4 K}
    {d : Fin 3 → K} {g : Vec K} :
    ∀ (fuel : Nat) (s : K) (acc : Accepted K),
      cp_loop checked msqrt X P d g fuel s = .ok acc →
      ∃ Delta Xinv, param_vec2mat (scaled g acc.step_size) = .ok Delta ∧
        0 < (X + Delta).det ∧
        incoherent (cwiseAbs ((X + Delta) * P - X * P)) d = false ∧
        0 < (matA X Delta).det ∧
        inverse X = some Xinv ∧
        0 < (matB Xinv Delta).det ∧
        root_stage checked msqrt (matA X Delta) (matB Xinv Delta) = .ok acc.Xnew ∧
        acc.Diff = some (cwiseAbs (acc.Xnew * P - X * P)) ∧
        incoherent (cwiseAbs (acc.Xnew * P - X * P)) d = false := by
  intro fuel
  induction fuel with
  | zero =>
    intro s acc h
    simp [cp_loop] at h
  | succ fuel ih =>
    intro s acc h
    unfold cp_loop at h
    split at h
    · simp at h
    · next Delta hDelta =>
      split at h
      · exact ih _ _ h
      · next h1 =>
        split at h
        · exact ih _ _ h
        · next h2 =>
          split at h
          · exact ih _ _ h
          · next h3 =>
            split at h
            · simp at h
            · next Xinv hXinv =>
              split at h
              · exact ih _ _ h
              · next h4 =>
                split at h
                · simp at h
                · next Xnew hroot =>
                  split at h
                  · exact ih _ _ h
                  · next h5 =>
                    simp only [Except.ok.injEq] at h
                    subst h
                    exact ⟨Delta, Xinv, hDelta, not_le.mp h1, by simpa using h2,
                      not_le.mp h3, hXinv, not_le.mp h4, hroot, rfl, by simpa using h5⟩

theorem no_cp_loop_ok {X G : Mat4 K} {g : Vec K} :
    ∀ (fuel : Nat) (s : K) (r : K × Mat4 K),
      no_cp_loop X G g fuel s = .ok r →
      param_vec2mat (scaled g r.1) = .ok r.2 ∧
        maxAbsBlock33 r.2 ≤ 1 / 10 ∧ maxAbsCol3 r.2 ≤ 10 ∧ 0 ≤ (matA X r.2).det := by
  intro fuel
  induction fuel with
  | zero =>
    intro s r h
    simp [no_cp_loop] at h
  | succ fuel ih =>
    intro s r h
    unfold no_cp_loop at h
    split at h
    · simp at h
    · next Delta hDelta =>
      split at h
      · exact ih _ _ h
      · next h1 =>
        split at h
        · exact ih _ _ h
        · next h2 =>
          split at h
          · exact ih _ _ h
          · next h3 =>
            simp only [Except.ok.injEq] at h
            subst h
            exact ⟨hDelta, not_lt.mp h1, not_lt.mp h2, not_lt.mp h3⟩

theorem candidate_ok {self : AffineUpdate K} {checked : Bool} {msqrt : Mat4 K → Mat4 K}
    {fuel : Nat} {x g : Vec K} {step_size : K} {acc : Accepted K}
    (h : self.candidate checked msqrt fuel x g step_size = .ok acc) :
    ∃ X Xinv Delta, param_vec2mat x = .ok X ∧ inverse X = some Xinv ∧
      param_vec2mat (scaled g acc.step_size) = .ok Delta ∧
      0 ≤ (matA X Delta).det ∧
      root_stage checked msqrt (matA X Delta) (matB Xinv Delta) = .ok acc.Xnew := by
  unfold AffineUpdate.candidate at h
  split at h
  · simp at h
  · next G hG =>
    split at h
    · simp at h
    · next X hX =>
      split at h
      · next P hP =>
        obtain ⟨Delta, Xinv, h1, -, -, h4, h5, -, h7, -, -⟩ := cp_loop_ok _ _ _ h
        exact ⟨X, Xinv, Delta, hX, h5, h1, le_of_lt h4, h7⟩
      · split at h
        · simp at h
        · next step Delta hloop =>
          obtain ⟨h1, -, -, h4⟩ := no_cp_loop_ok _ _ _ hloop
          split at h
          · simp at h
          · next Xinv hXinv =>
            split at h
            · simp at h
            · split at h
              · simp at h
              · next Xnew hroot =>
                simp only [Except.ok.injEq] at h
                subst h
                exact ⟨X, Xinv, Delta, hX, hXinv, h1, h4, hroot⟩

theorem operator_call_ok {self : AffineUpdate K} {checked : Bool} {msqrt : Mat4 K → Mat4 K}
    {fuel : Nat} {x g : Vec K} {step_size : K} {newx : Vec K} {changed : Bool}
    (h : self.operator_call checked msqrt fuel x g step_size = .ok (newx, changed)) :
    ∃ acc, self.candidate checked msqrt fuel x g step_size = .ok acc ∧
      newx = param_mat2vec acc.Xnew := by
  unfold AffineUpdate.operator_call at h
  split at h
  · simp at h
  · next acc hacc =>
    refine ⟨acc, hacc, ?_⟩
    simp only at h
    split at h
    · split at h
      · simp only [Except.ok.injEq, Prod.mk.injEq] at h
        exact h.1.symm
      · split at h
        · simp at h
        · simp only [Except.ok.injEq, Prod.mk.injEq] at h
          exact h.1.symm
    · split at h
      · simp at h
      · simp only [Except.ok.injEq, Prod.mk.injEq] at h
        exact h.1.symm

/-- C10 as amended (determinant of the accepted transform): whenever
`AffineUpdate::operator()` returns, with or without control points, `newx` encodes
`Xnew = sqrtA * sqrtB^-1 - (sqrtA * sqrtB^-1 - sqrtB^-1 * sqrtA) / 2` for the accepted
`A = X - Delta` and `B = X^-1 + Delta`, and `det Xnew > 0` holds whenever the two factors
`sqrtA` and `sqrtB^-1` commute and both square roots have positive determinant. -/
theorem operator_call_det_pos (self : AffineUpdate K) (checked : Bool)
    (msqrt : Mat4 K → Mat4 K) (fuel : Nat) (x g : Vec K) (step_size : K)
    (newx : Vec K) (changed : Bool)
    (h : self.operator_call checked msqrt fuel x g step_size = .ok (newx, changed)) :
    ∃ (acc : Accepted K) (X Xinv Delta Bsqrtinv : Mat4 K),
      self.candidate checked msqrt fuel x g step_size = .ok acc ∧
      newx = param_mat2vec acc.Xnew ∧
      param_vec2mat x = .ok X ∧ inverse X = some Xinv ∧
      param_vec2mat (scaled g acc.step_size) = .ok Delta ∧
      inverse (msqrt (matB Xinv Delta)) = some Bsqrtinv ∧
      acc.Xnew = symmetric_candidate (msqrt (matA X Delta)) Bsqrtinv ∧
      (msqrt (matA X Delta) * Bsqrtinv = Bsqrtinv * msqrt (matA X Delta) →
        0 < (msqrt (matA X Delta)).det → 0 < (msqrt (matB Xinv Delta)).det →
        0 < acc.Xnew.det) := by
  obtain ⟨acc, hacc, hnew⟩ := operator_call_ok h
  obtain ⟨X, Xinv, Delta, hX, hXinv, hDelta, -, hroot⟩ := candidate_ok hacc
  obtain ⟨Q, hQ, hXnew⟩ := root_stage_ok hroot
  refine ⟨acc, X, Xinv, Delta, Q, hacc, hnew, hX, hXinv, hDelta, hQ, hXnew, ?_⟩
  intro hc hA hB
  rw [hXnew]
  exact symmetric_candidate_det_pos hQ hc hA hB


theorem candidate_accept_no_cp (self : AffineUpdate K) (checked : Bool)
    (msqrt : Mat4 K → Mat4 K) (fuel : Nat) (x g : Vec K) (s : K)
    (G X Delta Xinv Xnew : Mat4 K) (hcp : self.control_points = none)
    (hG : param_vec2mat g = .ok G) (hX : param_vec2mat x = .ok X)
    (hDelta : param_vec2mat (scaled g (clamp_step G s)) = .ok Delta)
    (h1 : maxAbsBlock33 Delta ≤ 1 / 10) (h2 : maxAbsCol3 Delta ≤ 10)
    (h3 : 0 ≤ (matA X Delta).det) (hXinv : inverse X = some Xinv)
    (hB : 0 < (matB Xinv Delta).det)
    (hroot : root_stage checked msqrt (matA X Delta) (matB Xinv Delta) = .ok Xnew) :
    self.candidate checked msqrt (fuel + 1) x g s
      = .ok { step_size := clamp_step G s, Xnew := Xnew, Diff := none } := by
  have hloop : no_cp_loop X G g (fuel + 1) (clamp_step G s) = .ok (clamp_step G s, Delta) := by
    unfold no_cp_loop
    rw [hDelta]
    simp only
    rw [if_neg (not_lt.mpr h1), if_neg (not_lt.mpr h2), if_neg (not_lt.mpr h3)]
  unfold AffineUpdate.candidate
  rw [hG, hX]
  simp only [hcp, hloop, hXinv, hroot]
  simp [hB]


theorem max3_le_iff (a b c m : K) : max3 a b c ≤ m ↔ a ≤ m ∧ b ≤ m ∧ c ≤ m := by
  simp [max3, max_le_iff, and_assoc]

theorem incoherent_eq_false_iff (Diff : Mat4 K) (d : Fin 3 → K) :
    incoherent Diff d = false ↔ ∀ (i : Fin 3) (j : Fin 4), Diff i.castSucc j ≤ d i := by
  have hcol : ∀ j : Fin 4, exceeds Diff d j = false ↔ ∀ i : Fin 3, Diff i.castSucc j ≤ d i := by
    intro j
    simp only [exceeds, decide_eq_false_iff_not, gt_iff_lt, not_lt, max3_le_iff, sub_nonpos]
    constructor
    · rintro ⟨h0, h1, h2⟩ i
      fin_cases i
      · exact h0
      · exact h1
      · exact h2
    · intro h
      exact ⟨h 0, h 1, h 2⟩
  simp only [incoherent, Bool.or_eq_false_iff, hcol]
  constructor
  · rintro ⟨⟨⟨h0, h1⟩, h2⟩, h3⟩ i j
    fin_cases j
    · exact h0 i
    · exact h1 i
    · exact h2 i
    · exact h3 i
  · intro h
    exact ⟨⟨⟨fun i => h i 0, fun i => h i 1⟩, fun i => h i 2⟩, fun i => h i 3⟩

theorem maxBlock34_le_iff (M : Mat4 K) (m : K) :
    maxBlock34 M ≤ m ↔ ∀ (i : Fin 3) (j : Fin 4), M i.castSucc j ≤ m := by
  simp only [maxBlock34, max3_le_iff, max_le_iff]
  constructor
  · rintro ⟨⟨⟨a0, a1, a2⟩, a3⟩, ⟨⟨b0, b1, b2⟩, b3⟩, ⟨⟨c0, c1, c2⟩, c3⟩⟩ i j
    fin_cases i <;> fin_cases j <;> assumption
  · intro h
    exact ⟨⟨⟨h 0 0, h 0 1, h 0 2⟩, h 0 3⟩, ⟨⟨h 1 0, h 1 1, h 1 2⟩, h 1 3⟩,
      ⟨⟨h 2 0, h 2 1, h 2 2⟩, h 2 3⟩⟩

theorem candidate_accept_cp (self : AffineUpdate K) (checked : Bool)
    (msqrt : Mat4 K → Mat4 K) (fuel : Nat) (x g : Vec K) (s : K)
    (G X P Delta Xinv Xnew : Mat4 K) (hcp : self.control_points = some P)
    (hG : param_vec2mat g = .ok G) (hX : param_vec2mat x = .ok X)
    (hDelta : param_vec2mat (scaled g (clamp_step G s)) = .ok Delta)
    (h1 : 0 < (X + Delta).det)
    (h2 : incoherent (cwiseAbs ((X + Delta) * P - X * P)) self.coherence_distance = false)
    (h3 : 0 < (matA X Delta).det) (hXinv : inverse X = some Xinv)
    (hB : 0 < (matB Xinv Delta).det)
    (hroot : root_stage checked msqrt (matA X Delta) (matB Xinv Delta) = .ok Xnew)
    (h5 : incoherent (cwiseAbs (Xnew * P - X * P)) self.coherence_distance = false) :
    self.candidate checked msqrt (fuel + 1) x g s
      = .ok { step_size := clamp_step G s, Xnew := Xnew
              Diff := some (cwiseAbs (Xnew * P - X * P)) } := by
  unfold AffineUpdate.candidate
  rw [hG, hX]
  simp only [hcp]
  unfold cp_loop
  rw [hDelta]
  simp only
  rw [if_neg (not_le.mpr h1), h2]
  simp only [Bool.false_eq_true, if_false]
  rw [if_neg (not_le.mpr h3)]
  simp only [hXinv]
  rw [if_neg (not_le.mpr hB)]
  simp only [hroot, h5, Bool.false_eq_true, if_false]

theorem operator_call_of_none (self : AffineUpdate K) (checked : Bool)
    (msqrt : Mat4 K → Mat4 K) (fuel : Nat) (x g : Vec K) (s : K) (acc : Accepted K)
    (approx : Bool) (hc : self.candidate checked msqrt fuel x g s = .ok acc)
    (hd : acc.Diff = none) (ha : isApprox (param_mat2vec acc.Xnew) x = some approx) :
    self.operator_call checked msqrt fuel x g s = .ok (param_mat2vec acc.Xnew, !approx) := by
  unfold AffineUpdate.operator_call
  rw [hc]
  simp only [hd, ha]

theorem operator_call_of_moving (self : AffineUpdate K) (checked : Bool)
    (msqrt : Mat4 K → Mat4 K) (fuel : Nat) (x g : Vec K) (s : K) (acc : Accepted K)
    (Diff : Mat4 K) (approx : Bool)
    (hc : self.candidate checked msqrt fuel x g s = .ok acc)
    (hd : acc.Diff = some Diff) (hb : self.below_stop_len Diff = false)
    (ha : isApprox (param_mat2vec acc.Xnew) x = some approx) :
    self.operator_call checked msqrt fuel x g s = .ok (param_mat2vec acc.Xnew, !approx) := by
  unfold AffineUpdate.operator_call
  rw [hc]
  simp only [hd, hb, ha, Bool.false_eq_true, if_false]

end UpdateProps

section SkewProps

theorem skew_decode : param_vec2mat skew_g = .ok skew_Delta ∧ param_vec2mat skew_x = .ok skew_X :=
  ⟨rfl, rfl⟩

theorem skew_maxAbs : maxAbsBlock33 skew_Delta = 1 / 10 ∧ maxAbsCol3 skew_Delta = 0 := by
  constructor
  · have h1 : |(2145 / 22898 : ℚ)| = 2145 / 22898 := abs_of_pos (by norm_num)
    have h2 : |(1 / 10 : ℚ)| = 1 / 10 := abs_of_pos (by norm_num)
    have e : maxAbsBlock33 skew_Delta
        = max3 (max3 |0| |(2145 / 22898 : ℚ)| |0|) (max3 |(1 / 10 : ℚ)| |0| |0|)
          (max3 |0| |0| |0|) := rfl
    rw [e, h1, h2]
    norm_num [max3]
  · have e : maxAbsCol3 skew_Delta = max3 |(0 : ℚ)| |0| |0| := rfl
    rw [e]
    norm_num [max3]

theorem skew_clamp : clamp_step skew_Delta 1 = 1 := by
  rw [clamp_step, skew_maxAbs.1]
  norm_num

theorem skew_scaled : scaled skew_g 1 = skew_g := by
  simp [scaled]

theorem skew_matA : matA skew_X skew_Delta = skew_A := by
  ext i j
  fin_cases i <;> fin_cases j <;> simp [matA, set33, skew_X, skew_Delta, skew_A] <;>
    first | rfl | norm_num

theorem skew_inverse : inverse skew_X = some skew_Xinv := by
  apply inverse_of_mul_eq_one
  ext i j
  fin_cases i <;> fin_cases j <;>
    simp [Matrix.mul_apply, Fin.sum_univ_four, skew_X, skew_Xinv] <;>
    first | rfl | norm_num

theorem skew_matB : matB skew_Xinv skew_Delta = skew_B := by
  ext i j
  fin_cases i <;> fin_cases j <;> simp [matB, set33, skew_Xinv, skew_Delta, skew_B] <;>
    first | rfl | norm_num

theorem skew_det : skew_A.det = 1849 ∧ skew_B.det = 1155625 / 2097273616 ∧
    skew_Xnew.det = -4394067453029980452119 / 846768040000000000 := by
  refine ⟨?_, ?_, ?_⟩
  · rw [skew_A, det4_of]; norm_num
  · rw [skew_B, det4_of]; norm_num
  · rw [skew_Xnew, det4_of]; norm_num

theorem skew_roots : skew_Asqrt * skew_Asqrt = skew_A ∧ skew_Bsqrt * skew_Bsqrt = skew_B := by
  constructor
  · ext i j
    fin_cases i <;> fin_cases j <;>
      simp [Matrix.mul_apply, Fin.sum_univ_four, skew_Asqrt, skew_A] <;>
    first | rfl | norm_num
  · ext i j
    fin_cases i <;> fin_cases j <;>
      simp [Matrix.mul_apply, Fin.sum_univ_four, skew_Bsqrt, skew_B] <;>
    first | rfl | norm_num

theorem skew_Bsqrt_inverse : inverse skew_Bsqrt = some skew_Bsqrtinv := by
  apply inverse_of_mul_eq_one
  ext i j
  fin_cases i <;> fin_cases j <;>
    simp [Matrix.mul_apply, Fin.sum_univ_four, skew_Bsqrt, skew_Bsqrtinv] <;>
    first | rfl | norm_num

theorem skew_candidate : symmetric_candidate skew_Asqrt skew_Bsqrtinv = skew_Xnew := by
  ext i j
  fin_cases i <;> fin_cases j <;>
    simp [symmetric_candidate, Matrix.mul_apply, Fin.sum_univ_four, skew_Asqrt, skew_Bsqrtinv,
      skew_Xnew] <;>
    first | rfl | norm_num

theorem skew_B_ne_A : skew_B ≠ skew_A := by
  intro h
  have := congrFun (congrFun h 0) 0
  simp [skew_A, skew_B] at this
  norm_num at this

theorem skew_sqrt_values : skew_sqrt skew_A = skew_Asqrt ∧ skew_sqrt skew_B = skew_Bsqrt := by
  constructor
  · simp [skew_sqrt]
  · simp [skew_sqrt, skew_B_ne_A]


theorem skew_root_stage (checked : Bool) :
    root_stage checked skew_sqrt (matA skew_X skew_Delta) (matB skew_Xinv skew_Delta)
      = .ok skew_Xnew := by
  rw [skew_matA, skew_matB, ← skew_candidate]
  have h := root_stage_eq checked skew_sqrt skew_A skew_B skew_Bsqrtinv
    (by rw [skew_sqrt_values.1]; exact skew_roots.1)
    (by rw [skew_sqrt_values.2]; exact skew_roots.2)
    (by rw [skew_sqrt_values.2]; exact skew_Bsqrt_inverse)
  rw [skew_sqrt_values.1] at h
  exact h

theorem skew_candidate_no_cp (checked : Bool) :
    unconfigured.candidate checked skew_sqrt 1 skew_x skew_g 1
      = .ok { step_size := 1, Xnew := skew_Xnew, Diff := none } := by
  have h := candidate_accept_no_cp unconfigured checked skew_sqrt 0 skew_x skew_g 1
    skew_Delta skew_X skew_Delta skew_Xinv skew_Xnew rfl skew_decode.1 skew_decode.2
    (by rw [skew_clamp, skew_scaled]; exact skew_decode.1)
    (by rw [skew_maxAbs.1]) (by rw [skew_maxAbs.2]; norm_num)
    (by rw [skew_matA, skew_det.1]; norm_num) skew_inverse
    (by rw [skew_matB, skew_det.2.1]; norm_num) (skew_root_stage checked)
  rw [skew_clamp] at h
  exact h

theorem skew_Diff_eq : cwiseAbs (skew_Xnew * skew_points - skew_X * skew_points) = skew_Diff := by
  ext i j
  fin_cases i <;> fin_cases j <;>
    simp [cwiseAbs, Matrix.mul_apply, Fin.sum_univ_four, skew_Xnew, skew_points, skew_X,
      skew_Diff] <;>
    first | rfl | norm_num [abs_of_pos, abs_of_neg]


theorem skew_sum_det : 0 < (skew_X + skew_Delta).det := by
  have e : skew_X + skew_Delta
      = !![1849, 858 / 5 + 2145 / 22898, 0, 0; 1 / 10 + 1 / 10, 1, 0, 0; 0, 0, 1, 0;
           0, 0, 0, 2] := by
    ext i j
    fin_cases i <;> fin_cases j <;>
      simp [skew_X, skew_Delta] <;>
      first | rfl | norm_num
  rw [e, det4_of]
  norm_num

theorem skew_coherent_first :
    incoherent (cwiseAbs ((skew_X + skew_Delta) * skew_points - skew_X * skew_points))
      skew_configured.coherence_distance = false := by
  have c2 : Fin.castSucc (2 : Fin 3) = (2 : Fin 4) := rfl
  rw [incoherent_eq_false_iff]
  intro i j
  fin_cases i <;> fin_cases j <;>
    simp [cwiseAbs, Matrix.mul_apply, Fin.sum_univ_four, skew_X, skew_Delta, skew_points,
      skew_configured, AffineUpdate.set_control_points, c2] <;>
    first | rfl | norm_num [abs_le]

theorem skew_coherent_second :
    incoherent (cwiseAbs (skew_Xnew * skew_points - skew_X * skew_points))
      skew_configured.coherence_distance = false := by
  have c2 : Fin.castSucc (2 : Fin 3) = (2 : Fin 4) := rfl
  rw [skew_Diff_eq, incoherent_eq_false_iff]
  intro i j
  fin_cases i <;> fin_cases j <;>
    simp [skew_Diff, skew_configured, AffineUpdate.set_control_points, c2] <;>
    first | rfl | norm_num

theorem skew_candidate_cp (checked : Bool) :
    skew_configured.candidate checked skew_sqrt 1 skew_x skew_g 1
      = .ok { step_size := 1, Xnew := skew_Xnew, Diff := some skew_Diff } := by
  have h := candidate_accept_cp skew_configured checked skew_sqrt 0 skew_x skew_g 1
    skew_Delta skew_X skew_points skew_Delta skew_Xinv skew_Xnew rfl skew_decode.1
    skew_decode.2 (by rw [skew_clamp, skew_scaled]; exact skew_decode.1)
    skew_sum_det skew_coherent_first
    (by rw [skew_matA, skew_det.1]; norm_num) skew_inverse
    (by rw [skew_matB, skew_det.2.1]; norm_num) (skew_root_stage checked)
    skew_coherent_second
  rw [skew_clamp, skew_Diff_eq] at h
  exact h

theorem skew_not_approx : isApprox (param_mat2vec skew_Xnew) skew_x = some false := by
  simp [isApprox, vsub, cwise, param_mat2vec, skew_Xnew, skew_x, squaredNorm, dummy_precision]
  norm_num

theorem skew_not_below : skew_configured.below_stop_len skew_Diff = false := by
  simp only [AffineUpdate.below_stop_len, decide_eq_false_iff_not, maxBlock34_le_iff]
  intro h
  have := h 0 1
  simp [skew_Diff, skew_configured, AffineUpdate.set_control_points] at this
  norm_num at this

theorem skew_call_no_cp (checked : Bool) :
    unconfigured.operator_call checked skew_sqrt 1 skew_x skew_g 1
      = .ok (param_mat2vec skew_Xnew, true) :=
  operator_call_of_none unconfigured checked skew_sqrt 1 skew_x skew_g 1 _ false
    (skew_candidate_no_cp checked) rfl skew_not_approx

theorem skew_call_cp (checked : Bool) :
    skew_configured.operator_call checked skew_sqrt 1 skew_x skew_g 1
      = .ok (param_mat2vec skew_Xnew, true) :=
  operator_call_of_moving skew_configured checked skew_sqrt 1 skew_x skew_g 1 _ skew_Diff false
    (skew_candidate_cp checked) rfl skew_not_below skew_not_approx

theorem skew_X_det : skew_X.det = 45796 / 25 := by
  rw [skew_X, det4_of]
  norm_num

/-- Counterexample to C10 as stated.  For the current transform `skew_x` (determinant
`45796/25 > 0`), the gradient `skew_g` and step size 1, every guard of the candidate loop
passes at the first iteration, both without control points and with the control points
of `skew_configured`; the square roots used are the principal square roots of `A` and `B`
(triangular with positive diagonal), so both assertions on them hold; the call returns
and the accepted `Xnew` has negative determinant. -/
theorem operator_call_det_counterexample :
    unconfigured.operator_call true skew_sqrt 1 skew_x skew_g 1
      = .ok (param_mat2vec skew_Xnew, true) ∧
    unconfigured.candidate true skew_sqrt 1 skew_x skew_g 1
      = .ok { step_size := 1, Xnew := skew_Xnew, Diff := none } ∧
    skew_configured.operator_call true skew_sqrt 1 skew_x skew_g 1
      = .ok (param_mat2vec skew_Xnew, true) ∧
    skew_configured.candidate true skew_sqrt 1 skew_x skew_g 1
      = .ok { step_size := 1, Xnew := skew_Xnew, Diff := some skew_Diff } ∧
    skew_Xnew.det = -4394067453029980452119 / 846768040000000000 ∧
    ¬ (0 < skew_Xnew.det) ∧
    0 < skew_X.det ∧
    skew_sqrt (matA skew_X skew_Delta) * skew_sqrt (matA skew_X skew_Delta)
      = matA skew_X skew_Delta ∧
    skew_sqrt (matB skew_Xinv skew_Delta) * skew_sqrt (matB skew_Xinv skew_Delta)
      = matB skew_Xinv skew_Delta := by
  refine ⟨skew_call_no_cp true, skew_candidate_no_cp true, skew_call_cp true,
    skew_candidate_cp true, skew_det.2.2, ?_, ?_, ?_, ?_⟩
  · rw [skew_det.2.2]
    norm_num
  · rw [skew_X_det]
    norm_num
  · rw [skew_matA, skew_sqrt_values.1]
    exact skew_roots.1
  · rw [skew_matB, skew_sqrt_values.2]
    exact skew_roots.2

theorem zero_Delta :
    param_vec2mat zero_gradient
      = .ok (!![0, 0, 0, 0; 0, 0, 0, 0; 0, 0, 0, 0; 0, 0, 0, 1] : Mat4 ℚ) := rfl

theorem identity_decode : param_vec2mat identity_params = .ok (1 : Mat4 ℚ) := by
  simp only [identity_params, param_vec2mat]
  congr 1
  ext i j
  fin_cases i <;> fin_cases j <;> rfl

theorem identity_call :
    unconfigured.operator_call true id 1 identity_params zero_gradient 1
      = .ok (identity_params, false) := by
  have hmax : maxAbsBlock33 (!![0, 0, 0, 0; 0, 0, 0, 0; 0, 0, 0, 0; 0, 0, 0, 1] : Mat4 ℚ) = 0 := by
    have e : maxAbsBlock33 (!![0, 0, 0, 0; 0, 0, 0, 0; 0, 0, 0, 0; 0, 0, 0, 1] : Mat4 ℚ)
        = max3 (max3 |0| |0| |0|) (max3 |0| |0| |0|) (max3 |(0 : ℚ)| |0| |0|) := rfl
    rw [e]
    norm_num [max3]
  have hcol : maxAbsCol3 (!![0, 0, 0, 0; 0, 0, 0, 0; 0, 0, 0, 0; 0, 0, 0, 1] : Mat4 ℚ) = 0 := by
    have e : maxAbsCol3 (!![0, 0, 0, 0; 0, 0, 0, 0; 0, 0, 0, 0; 0, 0, 0, 1] : Mat4 ℚ)
        = max3 |(0 : ℚ)| |0| |0| := rfl
    rw [e]
    norm_num [max3]
  have hclamp : clamp_step (!![0, 0, 0, 0; 0, 0, 0, 0; 0, 0, 0, 0; 0, 0, 0, 1] : Mat4 ℚ) 1 = 1 := by
    rw [clamp_step, hmax]
    norm_num
  have hscaled : scaled zero_gradient 1 = zero_gradient := by
    simp [scaled]
  have hA : matA (1 : Mat4 ℚ) !![0, 0, 0, 0; 0, 0, 0, 0; 0, 0, 0, 0; 0, 0, 0, 1] = 1 := by
    ext i j
    fin_cases i <;> fin_cases j <;> simp [matA, set33] <;> rfl
  have hB : matB (1 : Mat4 ℚ) !![0, 0, 0, 0; 0, 0, 0, 0; 0, 0, 0, 0; 0, 0, 0, 1] = 1 := by
    ext i j
    fin_cases i <;> fin_cases j <;> simp [matB, set33] <;> rfl
  have hinv : inverse (1 : Mat4 ℚ) = some 1 := inverse_of_mul_eq_one (mul_one 1)
  have hroot : root_stage true id (1 : Mat4 ℚ) 1 = .ok 1 := by
    have h := root_stage_eq true id (1 : Mat4 ℚ) 1 1 (mul_one 1) (mul_one 1) hinv
    have e : symmetric_candidate (id (1 : Mat4 ℚ)) 1 = 1 := by
      simp [symmetric_candidate]
    rw [e] at h
    exact h
  have hcand := candidate_accept_no_cp unconfigured true id 0 identity_params zero_gradient 1
    _ 1 _ 1 1 rfl zero_Delta identity_decode (by rw [hclamp, hscaled]; exact zero_Delta)
    (by rw [hmax]; norm_num) (by rw [hcol]; norm_num) (by rw [hA]; simp) hinv
    (by rw [hB]; simp) (by rw [hA, hB]; exact hroot)
  have hvec : param_mat2vec (1 : Mat4 ℚ) = identity_params := by
    simp [param_mat2vec, identity_params]
  rw [hclamp] at hcand
  have h := operator_call_of_none unconfigured true id 1 identity_params zero_gradient 1 _
    true hcand rfl (by rw [hvec]; exact isApprox_self identity_params)
  rw [hvec] at h
  exact h

/-- Witness for C10 as amended: the identity transform with the zero gradient and the
identity as square root of the identity matrix; the call returns and the accepted `Xnew`
is the symmetrised product. -/
theorem operator_call_det_pos_witness :
    unconfigured.operator_call true id 1 identity_params zero_gradient 1
      = .ok (identity_params, false) ∧
    ∃ (acc : Accepted ℚ) (X Xinv Delta Bsqrtinv : Mat4 ℚ),
      unconfigured.candidate true id 1 identity_params zero_gradient 1 = .ok acc ∧
      identity_params = param_mat2vec acc.Xnew ∧
      param_vec2mat identity_params = .ok X ∧ inverse X = some Xinv ∧
      param_vec2mat (scaled zero_gradient acc.step_size) = .ok Delta ∧
      inverse (id (matB Xinv Delta)) = some Bsqrtinv ∧
      acc.Xnew = symmetric_candidate (id (matA X Delta)) Bsqrtinv ∧
      (id (matA X Delta) * Bsqrtinv = Bsqrtinv * id (matA X Delta) →
        0 < (id (matA X Delta)).det → 0 < (id (matB Xinv Delta)).det →
        0 < acc.Xnew.det) :=
  ⟨identity_call,
    operator_call_det_pos unconfigured true id 1 identity_params zero_gradient 1
      identity_params false identity_call⟩

end SkewProps

namespace DoubleExpSmoothSlopeCheck

variable {K : Type} [LinearOrderedField K]

theorem go_on_first {m m' : DoubleExpSmoothSlopeCheck K} {e : Vec K} {r : Bool}
    (h : m.go_on e = some (r, m')) (hlen : m.len = 0) (hx : m.x0.length = 0) :
    m'.ds = m.ds ∧ m'.db = m.db ∧ m'.len = m.len ∧ m'.x0 = e := by
  unfold go_on at h
  simp only [hlen, hx, if_true, Option.some.injEq, Prod.mk.injEq] at h
  obtain ⟨-, h2⟩ := h
  subst h2
  exact ⟨rfl, rfl, hlen.symm, rfl⟩

theorem go_on_seed {m m' : DoubleExpSmoothSlopeCheck K} {e : Vec K} {r : Bool}
    (h : m.go_on e = some (r, m')) (hlen : m.len = 0) (hx : m.x0.length ≠ 0) :
    ∃ d, vsub e m.x0 = some d ∧ m'.ds = m.ds ++ [e] ∧ m'.db = m.db ++ [d] ∧
      m'.len = (m.len + 1) % SIZE_MOD ∧ m'.x0 = m.x0 := by
  unfold go_on at h
  simp only [hlen, hx, if_true, if_false, Option.bind_eq_some, Option.some.injEq,
    Prod.mk.injEq] at h
  obtain ⟨d, hd, pass, -, -, h2⟩ := h
  subst h2
  exact ⟨d, hd, rfl, rfl, by simp [hlen], rfl⟩

theorem go_on_smooth {m m' : DoubleExpSmoothSlopeCheck K} {e : Vec K} {r : Bool}
    (h : m.go_on e = some (r, m')) (hlen : m.len ≠ 0) (h1 : m.len = m.ds.length)
    (h5 : m.db.length = m.ds.length) :
    ∃ s_prev b_prev pred s diff b,
      m.ds.getLast? = some s_prev ∧ m.db.getLast? = some b_prev ∧
      vadd s_prev b_prev = some pred ∧
      vadd (smul m.alpha e) (smul (1 - m.alpha) pred) = some s ∧
      vsub s s_prev = some diff ∧
      vadd (smul m.beta diff) (smul (1 - m.beta) b_prev) = some b ∧
      m'.x0 = m.x0 ∧
      ((m.len ≠ m.buffer_len ∧ m'.ds = m.ds ++ [s] ∧ m'.db = m.db ++ [b] ∧
          m'.len = (m.len + 1) % SIZE_MOD) ∨
        (m.len = m.buffer_len ∧ m'.ds = (m.ds ++ [s]).tail ∧ m'.db = (m.db ++ [b]).tail ∧
          m'.len = m.len)) := by
  unfold go_on at h
  simp only [hlen, if_false, Option.bind_eq_some] at h
  obtain ⟨sb, e1, bb, e2, pred, e3, s, e4, sl, e5, sp, e6, bp, e7, diff, e8, b, e9, pass, -, h⟩ := h
  have hsl : sl = s := by
    rw [h1, List.getElem?_append_right (Nat.le_refl _)] at e5
    simpa using e5.symm
  have hsp : sp = sb := by
    have hlt : m.len - 1 < m.ds.length := by omega
    rw [List.getElem?_append_left hlt, h1, ← List.getLast?_eq_getElem?, e1] at e6
    exact (Option.some.inj e6).symm
  have hbp : bp = bb := by
    rw [h1, ← h5, ← List.getLast?_eq_getElem?, e2] at e7
    exact (Option.some.inj e7).symm
  subst hsl hsp hbp
  refine ⟨sp, bp, pred, sl, diff, b, e1, e2, e3, e4, e8, e9, ?_⟩
  split at h
  · next hfull =>
    simp only [Option.some.injEq, Prod.mk.injEq] at h
    obtain ⟨-, h2⟩ := h
    subst h2
    exact ⟨rfl, Or.inr ⟨hfull, rfl, rfl, rfl⟩⟩
  · next hfull =>
    simp only [Option.some.injEq, Prod.mk.injEq] at h
    obtain ⟨-, h2⟩ := h
    subst h2
    exact ⟨rfl, Or.inl ⟨hfull, rfl, rfl, rfl⟩⟩


theorem go_on_counts {m m' : DoubleExpSmoothSlopeCheck K} {e : Vec K} {r : Bool}
    (h : m.go_on e = some (r, m'))
    (h1 : m.len = m.ds.length % SIZE_MOD) (h2 : m.x0.length = 0 → m.ds = [])
    (h3 : 1 ≤ m.buffer_len → m.ds.length ≤ m.buffer_len) (h4 : m.buffer_len < SIZE_MOD)
    (h5 : m.db.length = m.ds.length) :
    m'.len = m'.ds.length % SIZE_MOD ∧ (m'.x0.length = 0 → m'.ds = []) ∧
    (1 ≤ m'.buffer_len → m'.ds.length ≤ m'.buffer_len) ∧ m'.buffer_len < SIZE_MOD ∧
    m'.db.length = m'.ds.length := by
  have hbuf : m'.buffer_len = m.buffer_len := (go_on_result h).1
  rw [hbuf]
  by_cases hlen : m.len = 0
  · by_cases hx : m.x0.length = 0
    · obtain ⟨a1, a2, a3, a4⟩ := go_on_first h hlen hx
      rw [a1, a2, a3]
      exact ⟨h1, fun _ => h2 hx, h3, h4, h5⟩
    · obtain ⟨d, -, a1, a2, a3, a4⟩ := go_on_seed h hlen hx
      rw [a1, a2, a3, a4]
      simp only [List.length_append, List.length_singleton]
      refine ⟨?_, fun hx0 => absurd hx0 hx, ?_, h4, by omega⟩
      · rw [h1, Nat.mod_add_mod]
      · intro hb
        have := h3 hb
        have hlt : m.ds.length < SIZE_MOD := by omega
        rw [Nat.mod_eq_of_lt hlt] at h1
        omega
  · have hds : m.ds.length ≠ 0 := by
      intro h0
      rw [h0] at h1
      exact hlen (by simpa using h1)
    by_cases hb : 1 ≤ m.buffer_len
    · have hle := h3 hb
      have hlt : m.ds.length < SIZE_MOD := by omega
      have h1x : m.len = m.ds.length := by rw [h1, Nat.mod_eq_of_lt hlt]
      obtain ⟨sp, bp, pred, s, diff, b, -, -, -, -, -, -, a0, a⟩ := go_on_smooth h hlen h1x h5
      rcases a with ⟨hne, a1, a2, a3⟩ | ⟨heq, a1, a2, a3⟩
      · rw [a1, a2, a3, a0]
        simp only [List.length_append, List.length_singleton]
        refine ⟨by rw [h1x], fun hx0 => ?_, fun _ => by omega, h4, by omega⟩
        have := h2 hx0
        rw [this] at hds
        exact absurd rfl hds
      · rw [a1, a2, a3, a0]
        simp only [List.length_tail, List.length_append, List.length_singleton,
          Nat.add_sub_cancel]
        refine ⟨h1, fun hx0 => ?_, h3, h4, h5⟩
        have := h2 hx0
        rw [this] at hds
        exact absurd rfl hds
    · have hb0 : m.buffer_len = 0 := by omega
      have hne : m.len ≠ m.buffer_len := by rw [hb0]; exact hlen
      have hx : m.x0.length ≠ 0 := by
        intro hx0
        rw [h2 hx0] at hds
        exact absurd rfl hds
      unfold go_on at h
      simp only [hlen, if_false, Option.bind_eq_some] at h
      obtain ⟨sb, -, bb, -, pred, -, s, -, sl, -, sp, -, bp, -, diff, -, b, -, pass, -, h⟩ := h
      rw [if_neg hne] at h
      simp only [Option.some.injEq, Prod.mk.injEq] at h
      obtain ⟨-, h⟩ := h
      subst h
      simp only [List.length_append, List.length_singleton]
      refine ⟨by rw [h1, Nat.mod_add_mod], fun hx0 => absurd hx0 hx, fun hb1 => absurd hb1 hb,
        h4, by omega⟩

theorem Reachable.counts {n : Nat} {m : DoubleExpSmoothSlopeCheck K} (h : Reachable n m) :
    m.len = m.ds.length % SIZE_MOD ∧ (m.x0.length = 0 → m.ds = []) ∧
    (1 ≤ m.buffer_len → m.ds.length ≤ m.buffer_len) ∧ m.buffer_len < SIZE_MOD ∧
    m.db.length = m.ds.length := by
  induction h with
  | fresh thresh alpha beta buffer_len min_iter _ hb _ =>
    exact ⟨rfl, fun _ => rfl, fun _ => Nat.zero_le _, hb, rfl⟩
  | call m m' e r _ _ hgo ih =>
    obtain ⟨h1, h2, h3, h4, h5⟩ := ih
    exact go_on_counts hgo h1 h2 h3 h4 h5


theorem go_on_smooth_shape {m m' : DoubleExpSmoothSlopeCheck K} {e : Vec K} {r : Bool}
    (h : m.go_on e = some (r, m')) (hlen : m.len ≠ 0) :
    ∃ s b, m'.x0 = m.x0 ∧
      ((m.len ≠ m.buffer_len ∧ m'.ds = m.ds ++ [s] ∧ m'.db = m.db ++ [b] ∧
          m'.len = (m.len + 1) % SIZE_MOD) ∨
        (m.len = m.buffer_len ∧ m'.ds = (m.ds ++ [s]).tail ∧ m'.db = (m.db ++ [b]).tail ∧
          m'.len = m.len)) := by
  unfold go_on at h
  simp only [hlen, if_false, Option.bind_eq_some] at h
  obtain ⟨sb, -, bb, -, pred, -, s, -, sl, -, sp, -, bp, -, diff, -, b, -, pass, -, h⟩ := h
  refine ⟨s, b, ?_⟩
  split at h
  · next hfull =>
    simp only [Option.some.injEq, Prod.mk.injEq] at h
    obtain ⟨-, h2⟩ := h
    subst h2
    exact ⟨rfl, Or.inr ⟨hfull, rfl, rfl, rfl⟩⟩
  · next hfull =>
    simp only [Option.some.injEq, Prod.mk.injEq] at h
    obtain ⟨-, h2⟩ := h
    subst h2
    exact ⟨rfl, Or.inl ⟨hfull, rfl, rfl, rfl⟩⟩

theorem getLast_tail_concat (l : List (Vec K)) (a : Vec K) (h : l ≠ []) :
    ((l ++ [a]).tail).getLast? = some a := by
  cases l with
  | nil => exact absurd rfl h
  | cons x xs => simp

theorem cwise_getD {f : K → K → K} {a b c : Vec K} (h : cwise f a b = some c) (i : Nat)
    (hi : i < a.length) : c.getD i 0 = f (a.getD i 0) (b.getD i 0) := by
  unfold cwise at h
  split at h
  · next hl =>
    simp only [Option.some.injEq] at h
    subst h
    have hb : i < b.length := by omega
    simp [List.getD_eq_getElem?_getD, List.getElem?_eq_getElem, hi, hb]
  · simp at h

theorem smul_getD (k : K) (a : Vec K) (i : Nat) : (smul k a).getD i 0 = k * a.getD i 0 := by
  unfold smul
  rcases Nat.lt_or_ge i a.length with hi | hi
  · simp [List.getD_eq_getElem?_getD, List.getElem?_eq_getElem, hi]
  · simp [List.getD_eq_getElem?_getD, List.getElem?_eq_none, hi]

/-- C16 (monitor accessors): on a freshly constructed monitor `last_b` and `last_s` return
`false` and leave their argument `v` unchanged.  After a call of `go_on` on a reachable
monitor (deque size within `size_t`): if the call was the first observation (no `x0`
stored before it) the history is still empty and both accessors return `false` and leave
`v` unchanged; otherwise the call appended a smoothed position `s` and a smoothed slope
`b` at the back of the two deques (possibly evicting the front), and `last_s` and `last_b`
return `true` with the argument set to exactly these most recently appended values. -/
theorem last_accessors (n : Nat) (m m' : DoubleExpSmoothSlopeCheck K) (e v : Vec K)
    (r : Bool) (hm : Reachable n m) (hgo : m.go_on e = some (r, m'))
    (hsz : m'.ds.length < SIZE_MOD) :
    (∀ (thresh : Vec K) (alpha beta : K) (buffer_len min_iter : Nat),
      (init thresh alpha beta buffer_len min_iter).last_b v = some (false, v) ∧
      (init thresh alpha beta buffer_len min_iter).last_s v = some (false, v)) ∧
    (m.x0.length = 0 →
      m'.ds = [] ∧ m'.db = [] ∧ m'.last_b v = some (false, v) ∧
      m'.last_s v = some (false, v)) ∧
    (m.x0.length ≠ 0 →
      ∃ s b : Vec K,
        (m'.ds = m.ds ++ [s] ∨ m'.ds = (m.ds ++ [s]).tail) ∧
        (m'.db = m.db ++ [b] ∨ m'.db = (m.db ++ [b]).tail) ∧
        m'.ds.getLast? = some s ∧ m'.db.getLast? = some b ∧
        m'.last_b v = some (true, b) ∧ m'.last_s v = some (true, s)) := by
  obtain ⟨h1, h2, h3, h4, h5⟩ := hm.counts
  obtain ⟨k1, -, -, -, -⟩ := go_on_counts hgo h1 h2 h3 h4 h5
  rw [Nat.mod_eq_of_lt hsz] at k1
  refine ⟨fun _ _ _ _ _ => ⟨rfl, rfl⟩, fun hx => ?_, fun hx => ?_⟩
  · have hds : m.ds = [] := h2 hx
    have hlen : m.len = 0 := by rw [h1, hds]; rfl
    have hdb : m.db = [] := List.length_eq_zero.mp (by rw [h5, hds]; rfl)
    obtain ⟨a1, a2, a3, -⟩ := go_on_first hgo hlen hx
    have hlen' : m'.len = 0 := by rw [a3, hlen]
    exact ⟨by rw [a1, hds], by rw [a2, hdb], by rw [last_b, if_pos hlen'],
      by rw [last_s, if_pos hlen']⟩
  · have key : ∀ s b : Vec K, m'.ds.getLast? = some s → m'.db.getLast? = some b →
        m'.last_b v = some (true, b) ∧ m'.last_s v = some (true, s) := by
      intro s b es eb
      have hne : m'.len ≠ 0 := by
        rw [k1]
        intro h0
        rw [List.length_eq_zero.mp h0] at es
        simp at es
      exact ⟨by rw [last_b, if_neg hne, eb]; rfl, by rw [last_s, if_neg hne, es]; rfl⟩
    by_cases hlen : m.len = 0
    · obtain ⟨d, -, a1, a2, -, -⟩ := go_on_seed hgo hlen hx
      have es : m'.ds.getLast? = some e := by rw [a1]; exact List.getLast?_concat _
      have eb : m'.db.getLast? = some d := by rw [a2]; exact List.getLast?_concat _
      exact ⟨e, d, Or.inl a1, Or.inl a2, es, eb, key e d es eb⟩
    · have hds : m.ds ≠ [] := by
        intro h0
        rw [h0] at h1
        exact hlen h1
      have hdb : m.db ≠ [] := by
        intro h0
        rw [h0] at h5
        exact hds (List.length_eq_zero.mp h5.symm)
      obtain ⟨s, b, -, a⟩ := go_on_smooth_shape hgo hlen
      rcases a with ⟨-, a1, a2, -⟩ | ⟨-, a1, a2, -⟩
      · have es : m'.ds.getLast? = some s := by rw [a1]; exact List.getLast?_concat _
        have eb : m'.db.getLast? = some b := by rw [a2]; exact List.getLast?_concat _
        exact ⟨s, b, Or.inl a1, Or.inl a2, es, eb, key s b es eb⟩
      · have es : m'.ds.getLast? = some s := by rw [a1]; exact getLast_tail_concat _ _ hds
        have eb : m'.db.getLast? = some b := by rw [a2]; exact getLast_tail_concat _ _ hdb
        exact ⟨s, b, Or.inr a1, Or.inr a2, es, eb, key s b es eb⟩

/-- C17 (Holt recurrences): on a reachable monitor with `buffer_len >= 1` and a non-empty
history, a call of `go_on` on an observation `e` of the monitored size returns, and with
`s_prev`, `b_prev` the values reported by `last_s`, `last_b` before the call, after the
call `last_s` reports `s = alpha * e + (1 - alpha) * (s_prev + b_prev)` and `last_b`
reports `beta * (s - s_prev) + (1 - beta) * b_prev`, coefficient by coefficient; this
covers the filling history and the full, evicting history alike. -/
theorem holt_recurrences (n : Nat) (m : DoubleExpSmoothSlopeCheck K) (e v : Vec K)
    (hm : Reachable n m) (he : e.length = n) (hb : 1 ≤ m.buffer_len) (hlen : m.len ≠ 0) :
    ∃ (r : Bool) (m' : DoubleExpSmoothSlopeCheck K) (s_prev b_prev s b : Vec K),
      m.go_on e = some (r, m') ∧
      m.last_s v = some (true, s_prev) ∧ m.last_b v = some (true, b_prev) ∧
      m'.last_s v = some (true, s) ∧ m'.last_b v = some (true, b) ∧
      s_prev.length = n ∧ b_prev.length = n ∧ s.length = n ∧ b.length = n ∧
      ∀ i : Nat, i < n →
        s.getD i 0
          = m.alpha * e.getD i 0 + (1 - m.alpha) * (s_prev.getD i 0 + b_prev.getD i 0) ∧
        b.getD i 0
          = m.beta * (s.getD i 0 - s_prev.getD i 0) + (1 - m.beta) * b_prev.getD i 0 := by
  obtain ⟨h1, h2, h3, h4, h5⟩ := hm.counts
  have hs := hm.sizesOK
  obtain ⟨r, m', hgo, hs'⟩ := go_on_defined hs he
  have hle := h3 hb
  have hlt : m.ds.length < SIZE_MOD := by omega
  have h1x : m.len = m.ds.length := by rw [h1, Nat.mod_eq_of_lt hlt]
  obtain ⟨sp, bp, pred, s, diff, b, e1, e2, e3, e4, e8, e9, -, a⟩ :=
    go_on_smooth hgo hlen h1x h5
  have hds : m.ds ≠ [] := by
    intro h0
    rw [h0] at h1
    exact hlen h1
  have hdb : m.db ≠ [] := by
    intro h0
    rw [h0] at h5
    exact hds (List.length_eq_zero.mp h5.symm)
  have lsp : sp.length = n := by
    rw [List.getLast?_eq_getLast _ hds] at e1
    rw [← Option.some.inj e1]
    exact hs.ds_len _ (List.getLast_mem hds)
  have lbp : bp.length = n := by
    rw [List.getLast?_eq_getLast _ hdb] at e2
    rw [← Option.some.inj e2]
    exact hs.db_len _ (List.getLast_mem hdb)
  have lpred : pred.length = n := (cwise_length e3).1.trans lsp
  have ls : s.length = n := by rw [(cwise_length e4).1, length_smul]; exact he
  have ldiff : diff.length = n := (cwise_length e8).1.trans ls
  have lb : b.length = n := by rw [(cwise_length e9).1, length_smul]; exact ldiff
  have hlen' : m'.len ≠ 0 := by
    rcases a with ⟨hne, -, -, a3⟩ | ⟨-, -, -, a3⟩
    · rw [a3, Nat.mod_eq_of_lt (by omega)]
      omega
    · rw [a3]; exact hlen
  have es : m'.ds.getLast? = some s := by
    rcases a with ⟨-, a1, -, -⟩ | ⟨-, a1, -, -⟩
    · rw [a1]; exact List.getLast?_concat _
    · rw [a1]; exact getLast_tail_concat _ _ hds
  have eb : m'.db.getLast? = some b := by
    rcases a with ⟨-, -, a2, -⟩ | ⟨-, -, a2, -⟩
    · rw [a2]; exact List.getLast?_concat _
    · rw [a2]; exact getLast_tail_concat _ _ hdb
  refine ⟨r, m', sp, bp, s, b, hgo, by rw [last_s, if_neg hlen, e1]; rfl,
    by rw [last_b, if_neg hlen, e2]; rfl, by rw [last_s, if_neg hlen', es]; rfl,
    by rw [last_b, if_neg hlen', eb]; rfl, lsp, lbp, ls, lb, ?_⟩
  intro i hi
  have c3 := cwise_getD e3 i (by omega)
  have c4 := cwise_getD e4 i (by rw [length_smul]; omega)
  have c8 := cwise_getD e8 i (by omega)
  have c9 := cwise_getD e9 i (by rw [length_smul]; omega)
  rw [smul_getD, smul_getD] at c4 c9
  rw [c3] at c4
  rw [c8] at c9
  exact ⟨c4, c9⟩


/-- Witness for C16: the second observation `[0]` on a monitor that has stored its first
observation; the call seeds the history and both accessors report the seeded values. -/
theorem last_accessors_witness :
    Reachable 1 (flatState ([1] : Vec ℚ) (4/5) (11/20) 1 0 [0] 1) ∧
    (flatState ([1] : Vec ℚ) (4/5) (11/20) 1 0 [0] 1).go_on [0]
      = some (true, flatState ([1] : Vec ℚ) (4/5) (11/20) 1 0 [0] 2) ∧
    (flatState ([1] : Vec ℚ) (4/5) (11/20) 1 0 [0] 2).ds.length < SIZE_MOD ∧
    ((flatState ([1] : Vec ℚ) (4/5) (11/20) 1 0 [0] 1).x0.length ≠ 0 →
      ∃ s b : Vec ℚ,
        ((flatState ([1] : Vec ℚ) (4/5) (11/20) 1 0 [0] 2).ds
            = (flatState ([1] : Vec ℚ) (4/5) (11/20) 1 0 [0] 1).ds ++ [s] ∨
          (flatState ([1] : Vec ℚ) (4/5) (11/20) 1 0 [0] 2).ds
            = ((flatState ([1] : Vec ℚ) (4/5) (11/20) 1 0 [0] 1).ds ++ [s]).tail) ∧
        ((flatState ([1] : Vec ℚ) (4/5) (11/20) 1 0 [0] 2).db
            = (flatState ([1] : Vec ℚ) (4/5) (11/20) 1 0 [0] 1).db ++ [b] ∨
          (flatState ([1] : Vec ℚ) (4/5) (11/20) 1 0 [0] 2).db
            = ((flatState ([1] : Vec ℚ) (4/5) (11/20) 1 0 [0] 1).db ++ [b]).tail) ∧
        (flatState ([1] : Vec ℚ) (4/5) (11/20) 1 0 [0] 2).ds.getLast? = some s ∧
        (flatState ([1] : Vec ℚ) (4/5) (11/20) 1 0 [0] 2).db.getLast? = some b ∧
        (flatState ([1] : Vec ℚ) (4/5) (11/20) 1 0 [0] 2).last_b [7] = some (true, b) ∧
        (flatState ([1] : Vec ℚ) (4/5) (11/20) 1 0 [0] 2).last_s [7] = some (true, s)) :=
  have hr : Reachable 1 (flatState ([1] : Vec ℚ) (4/5) (11/20) 1 0 [0] 1) :=
    reachable_flatState ([1] : Vec ℚ) (4/5) (11/20) 1 0 [0] (by decide) (by decide)
      (by decide) (by simp) rfl (by simp) 1 (by decide) (by decide)
  have hgo : (flatState ([1] : Vec ℚ) (4/5) (11/20) 1 0 [0] 1).go_on [0]
      = some (true, flatState ([1] : Vec ℚ) (4/5) (11/20) 1 0 [0] 2) :=
    go_on_flatState ([1] : Vec ℚ) (4/5) (11/20) 1 0 [0] 1 (by decide) (by decide)
      (by decide) (by decide) (by simp) rfl (by simp)
  have hsz : (flatState ([1] : Vec ℚ) (4/5) (11/20) 1 0 [0] 2).ds.length < SIZE_MOD := by
    decide
  ⟨hr, hgo, hsz, (last_accessors 1 _ _ [0] [7] true hr hgo hsz).2.2⟩

/-- Witness for C17: a smoothing call with the observation `[1/2]` on a reachable monitor
whose history (`buffer_len = 1`) is full. -/
theorem holt_recurrences_witness :
    Reachable 1 (flatState ([1] : Vec ℚ) (4/5) (11/20) 1 0 [0] 2) ∧
    ([1/2] : Vec ℚ).length = 1 ∧
    1 ≤ (flatState ([1] : Vec ℚ) (4/5) (11/20) 1 0 [0] 2).buffer_len ∧
    (flatState ([1] : Vec ℚ) (4/5) (11/20) 1 0 [0] 2).len ≠ 0 ∧
    ∃ (r : Bool) (m' : DoubleExpSmoothSlopeCheck ℚ) (s_prev b_prev s b : Vec ℚ),
      (flatState ([1] : Vec ℚ) (4/5) (11/20) 1 0 [0] 2).go_on [1/2] = some (r, m') ∧
      (flatState ([1] : Vec ℚ) (4/5) (11/20) 1 0 [0] 2).last_s [] = some (true, s_prev) ∧
      (flatState ([1] : Vec ℚ) (4/5) (11/20) 1 0 [0] 2).last_b [] = some (true, b_prev) ∧
      m'.last_s [] = some (true, s) ∧ m'.last_b [] = some (true, b) ∧
      s_prev.length = 1 ∧ b_prev.length = 1 ∧ s.length = 1 ∧ b.length = 1 ∧
      ∀ i : Nat, i < 1 →
        s.getD i 0
          = (flatState ([1] : Vec ℚ) (4/5) (11/20) 1 0 [0] 2).alpha * ([1/2] : Vec ℚ).getD i 0
            + (1 - (flatState ([1] : Vec ℚ) (4/5) (11/20) 1 0 [0] 2).alpha)
              * (s_prev.getD i 0 + b_prev.getD i 0) ∧
        b.getD i 0
          = (flatState ([1] : Vec ℚ) (4/5) (11/20) 1 0 [0] 2).beta
              * (s.getD i 0 - s_prev.getD i 0)
            + (1 - (flatState ([1] : Vec ℚ) (4/5) (11/20) 1 0 [0] 2).beta)
              * b_prev.getD i 0 :=
  have hr : Reachable 1 (flatState ([1] : Vec ℚ) (4/5) (11/20) 1 0 [0] 2) :=
    reachable_flatState ([1] : Vec ℚ) (4/5) (11/20) 1 0 [0] (by decide) (by decide)
      (by decide) (by simp) rfl (by simp) 2 (by decide) (by decide)
  ⟨hr, rfl, by decide, by decide,
    holt_recurrences 1 _ [1/2] [] hr rfl (by decide) (by decide)⟩

end DoubleExpSmoothSlopeCheck

section CoherenceProps

variable {K : Type} [LinearOrderedField K]

theorem candidate_eq_run_loop (self : AffineUpdate K) (checked : Bool)
    (msqrt : Mat4 K → Mat4 K) (fuel : Nat) (x g : Vec K) (s : K) (G X : Mat4 K)
    (hG : param_vec2mat g = .ok G) (hX : param_vec2mat x = .ok X) :
    self.candidate checked msqrt fuel x g s
      = self.run_loop checked msqrt fuel X G g (clamp_step G s) := by
  unfold AffineUpdate.candidate AffineUpdate.run_loop
  rw [hG, hX]

theorem candidate_decoded {self : AffineUpdate K} {checked : Bool}
    {msqrt : Mat4 K → Mat4 K} {fuel : Nat} {x g : Vec K} {s : K} {acc : Accepted K}
    (h : self.candidate checked msqrt fuel x g s = .ok acc) :
    ∃ G X, param_vec2mat g = .ok G ∧ param_vec2mat x = .ok X := by
  unfold AffineUpdate.candidate at h
  split at h
  · simp at h
  · next G hG =>
    split at h
    · simp at h
    · next X hX => exact ⟨G, X, hG, hX⟩

theorem candidate_cp_ok {self : AffineUpdate K} {checked : Bool}
    {msqrt : Mat4 K → Mat4 K} {fuel : Nat} {x g : Vec K} {s : K} {acc : Accepted K}
    {P : Mat4 K} (hP : self.control_points = some P)
    (h : self.candidate checked msqrt fuel x g s = .ok acc) :
    ∃ X Delta Xinv, param_vec2mat x = .ok X ∧
      param_vec2mat (scaled g acc.step_size) = .ok Delta ∧
      0 < (X + Delta).det ∧ 0 < (matA X Delta).det ∧
      inverse X = some Xinv ∧ 0 < (matB Xinv Delta).det ∧
      root_stage checked msqrt (matA X Delta) (matB Xinv Delta) = .ok acc.Xnew ∧
      acc.Diff = some (cwiseAbs (acc.Xnew * P - X * P)) ∧
      incoherent (cwiseAbs (acc.Xnew * P - X * P)) self.coherence_distance = false := by
  obtain ⟨G, X, hG, hX⟩ := candidate_decoded h
  rw [candidate_eq_run_loop self checked msqrt fuel x g s G X hG hX] at h
  unfold AffineUpdate.run_loop at h
  simp only [hP] at h
  obtain ⟨Delta, Xinv, h1, h2, -, h4, h5, h6, h7, h8, h9⟩ := cp_loop_ok _ _ _ h
  exact ⟨X, Delta, Xinv, hX, h1, h2, h4, h5, h6, h7, h8, h9⟩

theorem cwiseAbs_apply (M : Mat4 K) (i j : Fin 4) : cwiseAbs M i j = |M i j| := rfl

/-- C11 (coherence bound enforcement): with control points `P` and coherence distance
`d` configured, whenever `AffineUpdate::operator()` returns, the accepted `Xnew`
encoded in `newx` moves every control point by at most `d(i)` along every axis `i`:
`|(Xnew * P - X * P)(i, j)| <= d(i)` for `i` in `0..2` and `j` in `0..3`, where `X` is the
decoded current transform. -/
theorem coherence_bound (self : AffineUpdate K) (checked : Bool)
    (msqrt : Mat4 K → Mat4 K) (fuel : Nat) (x g : Vec K) (step_size : K)
    (newx : Vec K) (changed : Bool) (P : Mat4 K)
    (hP : self.control_points = some P)
    (h : self.operator_call checked msqrt fuel x g step_size = .ok (newx, changed)) :
    ∃ (acc : Accepted K) (X : Mat4 K),
      self.candidate checked msqrt fuel x g step_size = .ok acc ∧
      newx = param_mat2vec acc.Xnew ∧ param_vec2mat x = .ok X ∧
      ∀ (i : Fin 3) (j : Fin 4),
        |(acc.Xnew * P - X * P) i.castSucc j| ≤ self.coherence_distance i := by
  obtain ⟨acc, hacc, hnew⟩ := operator_call_ok h
  obtain ⟨X, Delta, Xinv, hX, -, -, -, -, -, -, -, hco⟩ := candidate_cp_ok hP hacc
  refine ⟨acc, X, hacc, hnew, hX, ?_⟩
  intro i j
  have := (incoherent_eq_false_iff _ _).mp hco i j
  rwa [cwiseAbs_apply] at this

/-- Witness for C11: the transform `skew_x` with the control points of
`skew_configured` (coherence distance 100 per axis). -/
theorem coherence_bound_witness :
    skew_configured.control_points = some skew_points ∧
    skew_configured.operator_call true skew_sqrt 1 skew_x skew_g 1
      = .ok (param_mat2vec skew_Xnew, true) ∧
    ∃ (acc : Accepted ℚ) (X : Mat4 ℚ),
      skew_configured.candidate true skew_sqrt 1 skew_x skew_g 1 = .ok acc ∧
      param_mat2vec skew_Xnew = param_mat2vec acc.Xnew ∧ param_vec2mat skew_x = .ok X ∧
      ∀ (i : Fin 3) (j : Fin 4),
        |(acc.Xnew * skew_points - X * skew_points) i.castSucc j|
          ≤ skew_configured.coherence_distance i :=
  ⟨rfl, skew_call_cp true,
    coherence_bound skew_configured true skew_sqrt 1 skew_x skew_g 1 _ true skew_points rfl
      (skew_call_cp true)⟩

end CoherenceProps

section StopProps

variable {K : Type} [LinearOrderedField K]

theorem below_stop_len_iff (self : AffineUpdate K) (Diff : Mat4 K) :
    self.below_stop_len Diff = true ↔
      ∀ (i : Fin 3) (j : Fin 4),
        Diff i.castSucc j * self.recip_spacing i.castSucc - self.stop_len i.castSucc ≤ 0 := by
  simp only [AffineUpdate.below_stop_len, decide_eq_true_iff, maxBlock34_le_iff]
  constructor
  · intro h i j
    have := h i j
    have hi : i.castSucc ≠ (3 : Fin 4) := by
      fin_cases i <;> decide
    rwa [if_neg hi] at this
  · intro h i j
    have hi : i.castSucc ≠ (3 : Fin 4) := by
      fin_cases i <;> decide
    rw [if_neg hi]
    exact h i j

/-- C14 (stop determination): with control points `P` configured, whenever
`AffineUpdate::operator()` returns, `newx` is the encoding of the accepted `Xnew`; if
every control-point shift `|(Xnew * P - X * P)(i, j)|`, multiplied by the reciprocal voxel
spacing of axis `i` and reduced by the stop length of axis `i`, is `<= 0`, the returned
boolean is `false`; if some entry is `> 0`, the returned boolean is the negation of
`newx.isApprox(x)`.  `set_control_points` stores the reciprocals of the voxel spacing and
the stop lengths that this test reads. -/
theorem stop_determination (self : AffineUpdate K) (checked : Bool)
    (msqrt : Mat4 K → Mat4 K) (fuel : Nat) (x g : Vec K) (step_size : K)
    (newx : Vec K) (changed : Bool) (P : Mat4 K)
    (hP : self.control_points = some P)
    (h : self.operator_call checked msqrt fuel x g step_size = .ok (newx, changed)) :
    (∃ (acc : Accepted K) (X : Mat4 K),
      self.candidate checked msqrt fuel x g step_size = .ok acc ∧
      newx = param_mat2vec acc.Xnew ∧ param_vec2mat x = .ok X ∧
      ((∀ (i : Fin 3) (j : Fin 4),
          |(acc.Xnew * P - X * P) i.castSucc j| * self.recip_spacing i.castSucc
            - self.stop_len i.castSucc ≤ 0) → changed = false) ∧
      ((∃ (i : Fin 3) (j : Fin 4),
          0 < |(acc.Xnew * P - X * P) i.castSucc j| * self.recip_spacing i.castSucc
            - self.stop_len i.castSucc) → isApprox newx x = some (!changed))) ∧
    (∀ (u : AffineUpdate K) (points : Mat4 K) (d stop_length voxel_spacing : Fin 3 → K),
      (u.set_control_points points d stop_length voxel_spacing).control_points = some points ∧
      (u.set_control_points points d stop_length voxel_spacing).coherence_distance = d ∧
      ∀ i : Fin 3,
        (u.set_control_points points d stop_length voxel_spacing).recip_spacing i.castSucc
          = (voxel_spacing i)⁻¹ ∧
        (u.set_control_points points d stop_length voxel_spacing).stop_len i.castSucc
          = stop_length i) := by
  constructor
  · obtain ⟨acc, hacc, hnew⟩ := operator_call_ok h
    obtain ⟨X, Delta, Xinv, hX, -, -, -, -, -, -, hDiff, -⟩ := candidate_cp_ok hP hacc
    refine ⟨acc, X, hacc, hnew, hX, ?_, ?_⟩
    · intro hall
      have hb : self.below_stop_len (cwiseAbs (acc.Xnew * P - X * P)) = true :=
        (below_stop_len_iff _ _).mpr hall
      unfold AffineUpdate.operator_call at h
      rw [hacc] at h
      simp only [hDiff, hb, if_true, Except.ok.injEq, Prod.mk.injEq] at h
      exact h.2.symm
    · rintro ⟨i, j, hpos⟩
      have hb : self.below_stop_len (cwiseAbs (acc.Xnew * P - X * P)) = false := by
        rw [← Bool.not_eq_true, below_stop_len_iff]
        intro hall
        exact absurd (hall i j) (not_le.mpr hpos)
      unfold AffineUpdate.operator_call at h
      rw [hacc] at h
      simp only [hDiff, hb, Bool.false_eq_true, if_false] at h
      split at h
      · simp at h
      · next approx happrox =>
        simp only [Except.ok.injEq, Prod.mk.injEq] at h
        rw [hnew, happrox, ← h.2]
        simp
  · intro u points d stop_length voxel_spacing
    refine ⟨rfl, rfl, ?_⟩
    intro i
    fin_cases i <;> exact ⟨rfl, rfl⟩

/-- Witness for C14: the transform `skew_x` with the control points of
`skew_configured` (stop length 0, unit voxel spacing); the control points move, and the
call returns the negation of `newx.isApprox(x)`. -/
theorem stop_determination_witness :
    skew_configured.control_points = some skew_points ∧
    skew_configured.operator_call true skew_sqrt 1 skew_x skew_g 1
      = .ok (param_mat2vec skew_Xnew, true) ∧
    ∃ (acc : Accepted ℚ) (X : Mat4 ℚ),
      skew_configured.candidate true skew_sqrt 1 skew_x skew_g 1 = .ok acc ∧
      param_mat2vec skew_Xnew = param_mat2vec acc.Xnew ∧ param_vec2mat skew_x = .ok X ∧
      ((∀ (i : Fin 3) (j : Fin 4),
          |(acc.Xnew * skew_points - X * skew_points) i.castSucc j|
            * skew_configured.recip_spacing i.castSucc
            - skew_configured.stop_len i.castSucc ≤ 0) → true = false) ∧
      ((∃ (i : Fin 3) (j : Fin 4),
          0 < |(acc.Xnew * skew_points - X * skew_points) i.castSucc j|
            * skew_configured.recip_spacing i.castSucc
            - skew_configured.stop_len i.castSucc) →
        isApprox (param_mat2vec skew_Xnew) skew_x = some (!true)) :=
  ⟨rfl, skew_call_cp true,
    (stop_determination skew_configured true skew_sqrt 1 skew_x skew_g 1 _ true skew_points
      rfl (skew_call_cp true)).1⟩

end StopProps

section ClampProps

variable {K : Type} [LinearOrderedField K]

theorem maxAbsBlock33_le_iff (M : Mat4 K) (b : K) :
    maxAbsBlock33 M ≤ b ↔ ∀ i j : Fin 3, |M i.castSucc j.castSucc| ≤ b := by
  simp only [maxAbsBlock33, max3_le_iff]
  constructor
  · rintro ⟨⟨a0, a1, a2⟩, ⟨b0, b1, b2⟩, ⟨c0, c1, c2⟩⟩ i j
    fin_cases i <;> fin_cases j <;> assumption
  · intro h
    exact ⟨⟨h 0 0, h 0 1, h 0 2⟩, ⟨h 1 0, h 1 1, h 1 2⟩, ⟨h 2 0, h 2 1, h 2 2⟩⟩

theorem maxAbsBlock33_nonneg (M : Mat4 K) : 0 ≤ maxAbsBlock33 M :=
  le_trans (abs_nonneg (M 0 0)) ((maxAbsBlock33_le_iff M _).mp (le_refl _) 0 0)

theorem clamp_step_bound (G : Mat4 K) (s : K) : clamp_step G s * maxAbsBlock33 G ≤ 1 / 5 := by
  unfold clamp_step
  split
  · next h =>
    have hm : maxAbsBlock33 G ≠ 0 := by
      intro h0
      rw [h0, mul_zero] at h
      exact absurd h (by norm_num)
    rw [div_mul_cancel₀ _ hm]
  · next h => exact not_lt.mp h

/-- C15 (angle clamp): with `G` the decoded gradient and `m` the largest absolute value in
its upper-left 3x3 block (the least bound of the nine absolute values), the candidate loop
of `AffineUpdate::operator()` is entered with the step size `s` when `s * m <= 0.2` and
with `0.2 / m` otherwise, where `m > 0` in the second case; in either case the step size
used satisfies `step * m <= 0.2`. -/
theorem angle_clamp (self : AffineUpdate K) (checked : Bool) (msqrt : Mat4 K → Mat4 K)
    (fuel : Nat) (x g : Vec K) (s : K) (G X : Mat4 K)
    (hG : param_vec2mat g = .ok G) (hX : param_vec2mat x = .ok X) :
    self.candidate checked msqrt fuel x g s
      = self.run_loop checked msqrt fuel X G g (clamp_step G s) ∧
    (∀ b : K, maxAbsBlock33 G ≤ b ↔ ∀ i j : Fin 3, |G i.castSucc j.castSucc| ≤ b) ∧
    (s * maxAbsBlock33 G ≤ 1 / 5 → clamp_step G s = s) ∧
    (1 / 5 < s * maxAbsBlock33 G →
      0 < maxAbsBlock33 G ∧ clamp_step G s = 1 / 5 / maxAbsBlock33 G) ∧
    clamp_step G s * maxAbsBlock33 G ≤ 1 / 5 := by
  refine ⟨candidate_eq_run_loop self checked msqrt fuel x g s G X hG hX,
    maxAbsBlock33_le_iff G, ?_, ?_, clamp_step_bound G s⟩
  · intro h
    unfold clamp_step
    rw [if_neg (not_lt.mpr h)]
  · intro h
    refine ⟨?_, ?_⟩
    · rcases (maxAbsBlock33_nonneg G).lt_or_eq with hpos | h0
      · exact hpos
      · rw [← h0, mul_zero] at h
        exact absurd h (by norm_num)
    · unfold clamp_step
      rw [if_pos h]

/-- Witness for C15: the gradient `skew_g`, whose 3x3 block has largest absolute value
`1/10`, with step size 3; the loop is entered with the clamped step size. -/
theorem angle_clamp_witness :
    param_vec2mat skew_g = .ok skew_Delta ∧ param_vec2mat skew_x = .ok skew_X ∧
    unconfigured.candidate true skew_sqrt 1 skew_x skew_g 3
      = unconfigured.run_loop true skew_sqrt 1 skew_X skew_Delta skew_g
          (clamp_step skew_Delta 3) ∧
    (∀ b : ℚ, maxAbsBlock33 skew_Delta ≤ b ↔
      ∀ i j : Fin 3, |skew_Delta i.castSucc j.castSucc| ≤ b) ∧
    (3 * maxAbsBlock33 skew_Delta ≤ 1 / 5 → clamp_step skew_Delta 3 = 3) ∧
    (1 / 5 < 3 * maxAbsBlock33 skew_Delta →
      0 < maxAbsBlock33 skew_Delta ∧
      clamp_step skew_Delta 3 = 1 / 5 / maxAbsBlock33 skew_Delta) ∧
    clamp_step skew_Delta 3 * maxAbsBlock33 skew_Delta ≤ 1 / 5 :=
  ⟨skew_decode.1, skew_decode.2,
    angle_clamp unconfigured true skew_sqrt 1 skew_x skew_g 3 skew_Delta skew_X
      skew_decode.1 skew_decode.2⟩

theorem symmetric_candidate_mean (P Q : Mat4 K) :
    symmetric_candidate P Q = (1 / 2 : K) • (P * Q + Q * P) := by
  unfold symmetric_candidate
  rw [smul_sub, smul_add]
  have h : P * Q = (1 / 2 : K) • (P * Q) + (1 / 2 : K) • (P * Q) := by
    rw [← add_smul]
    norm_num
  nth_rewrite 1 [h]
  abel

/-- C20 (symmetric candidate): in both strategies the `Xnew` that the candidate stage of
`AffineUpdate::operator()` yields is the arithmetic mean of the two products,
`(sqrtA * sqrtB^-1 + sqrtB^-1 * sqrtA) / 2`, for the accepted `A` and `B`; and for all
matrices `P`, `Q` the expression of the source equals `(P * Q + Q * P) / 2`, is unchanged
when the two factors are swapped, and equals `P * Q` when the factors commute. -/
theorem symmetric_candidate_symm (self : AffineUpdate K) (checked : Bool)
    (msqrt : Mat4 K → Mat4 K) (fuel : Nat) (x g : Vec K) (step_size : K) (acc : Accepted K)
    (h : self.candidate checked msqrt fuel x g step_size = .ok acc) :
    (∃ (X Xinv Delta Bsqrtinv : Mat4 K),
      param_vec2mat x = .ok X ∧ inverse X = some Xinv ∧
      param_vec2mat (scaled g acc.step_size) = .ok Delta ∧
      inverse (msqrt (matB Xinv Delta)) = some Bsqrtinv ∧
      acc.Xnew = (1 / 2 : K) • (msqrt (matA X Delta) * Bsqrtinv
        + Bsqrtinv * msqrt (matA X Delta))) ∧
    (∀ P Q : Mat4 K,
      symmetric_candidate P Q = (1 / 2 : K) • (P * Q + Q * P) ∧
      symmetric_candidate P Q = symmetric_candidate Q P ∧
      (P * Q = Q * P → symmetric_candidate P Q = P * Q)) := by
  constructor
  · obtain ⟨X, Xinv, Delta, hX, hXinv, hDelta, -, hroot⟩ := candidate_ok h
    obtain ⟨Q, hQ, hXnew⟩ := root_stage_ok hroot
    exact ⟨X, Xinv, Delta, Q, hX, hXinv, hDelta, hQ, by
      rw [hXnew, symmetric_candidate_mean]⟩
  · intro P Q
    refine ⟨symmetric_candidate_mean P Q, ?_, symmetric_candidate_of_commute P Q⟩
    rw [symmetric_candidate_mean, symmetric_candidate_mean, add_comm]

/-- Witness for C20: the transform `skew_x` without control points; the accepted `Xnew`
is `skew_Xnew`. -/
theorem symmetric_candidate_symm_witness :
    unconfigured.candidate true skew_sqrt 1 skew_x skew_g 1
      = .ok { step_size := 1, Xnew := skew_Xnew, Diff := none } ∧
    ∃ (X Xinv Delta Bsqrtinv : Mat4 ℚ),
      param_vec2mat skew_x = .ok X ∧ inverse X = some Xinv ∧
      param_vec2mat (scaled skew_g 1) = .ok Delta ∧
      inverse (skew_sqrt (matB Xinv Delta)) = some Bsqrtinv ∧
      skew_Xnew = (1 / 2 : ℚ) • (skew_sqrt (matA X Delta) * Bsqrtinv
        + Bsqrtinv * skew_sqrt (matA X Delta)) :=
  ⟨skew_candidate_no_cp true,
    (symmetric_candidate_symm unconfigured true skew_sqrt 1 skew_x skew_g 1 _
      (skew_candidate_no_cp true)).1⟩

end ClampProps

section LoopProps

variable {K : Type} [LinearOrderedField K]

theorem cp_loop_succ {checked : Bool} {msqrt : Mat4 K → Mat4 K} {X P : Mat4 K}
    {d : Fin 3 → K} {g : Vec K} :
    ∀ (fuel : Nat) (s : K),
      cp_loop checked msqrt X P d g fuel s ≠ .error .outOfFuel →
      cp_loop checked msqrt X P d g (fuel + 1) s = cp_loop checked msqrt X P d g fuel s := by
  intro fuel
  induction fuel with
  | zero =>
    intro s h
    exact absurd rfl h
  | succ fuel ih =>
    intro s h
    rw [cp_loop.eq_2 checked msqrt X P d g s fuel] at h ⊢
    rw [cp_loop.eq_2 checked msqrt X P d g s (fuel + 1)]
    cases hD : param_vec2mat (scaled g s) with
    | error e => simp only
    | ok Delta =>
      rw [hD] at h
      simp only at h ⊢
      by_cases h1 : (X + Delta).det ≤ 0
      · simp only [if_pos h1] at h ⊢
        exact ih _ h
      · simp only [if_neg h1] at h ⊢
        by_cases h2 : incoherent (cwiseAbs ((X + Delta) * P - X * P)) d = true
        · simp only [if_pos h2] at h ⊢
          exact ih _ h
        · simp only [if_neg h2] at h ⊢
          by_cases h3 : (matA X Delta).det ≤ 0
          · simp only [if_pos h3] at h ⊢
            exact ih _ h
          · simp only [if_neg h3] at h ⊢
            cases hI : inverse X with
            | none => simp only
            | some Xinv =>
              rw [hI] at h
              simp only at h ⊢
              by_cases h4 : (matB Xinv Delta).det ≤ 0
              · simp only [if_pos h4] at h ⊢
                exact ih _ h
              · simp only [if_neg h4] at h ⊢
                cases hR : root_stage checked msqrt (matA X Delta) (matB Xinv Delta) with
                | error e => simp only
                | ok Xnew =>
                  rw [hR] at h
                  simp only at h ⊢
                  by_cases h5 : incoherent (cwiseAbs (Xnew * P - X * P)) d = true
                  · simp only [if_pos h5] at h ⊢
                    exact ih _ h
                  · simp only [if_neg h5]

theorem no_cp_loop_succ {X G : Mat4 K} {g : Vec K} :
    ∀ (fuel : Nat) (s : K),
      no_cp_loop X G g fuel s ≠ .error .outOfFuel →
      no_cp_loop X G g (fuel + 1) s = no_cp_loop X G g fuel s := by
  intro fuel
  induction fuel with
  | zero =>
    intro s h
    exact absurd rfl h
  | succ fuel ih =>
    intro s h
    rw [no_cp_loop.eq_2 X G g s fuel] at h ⊢
    rw [no_cp_loop.eq_2 X G g s (fuel + 1)]
    cases hD : param_vec2mat (scaled g s) with
    | error e => simp only
    | ok Delta =>
      rw [hD] at h
      simp only at h ⊢
      by_cases h1 : maxAbsBlock33 Delta > 1 / 10
      · simp only [if_pos h1] at h ⊢
        exact ih _ h
      · simp only [if_neg h1] at h ⊢
        by_cases h2 : maxAbsCol3 Delta > 10
        · simp only [if_pos h2] at h ⊢
          exact ih _ h
        · simp only [if_neg h2] at h ⊢
          by_cases h3 : (matA X Delta).det < 0
          · simp only [if_pos h3] at h ⊢
            exact ih _ h
          · simp only [if_neg h3]

end LoopProps

section RetryProps

variable {K : Type} [LinearOrderedField K]

theorem run_loop_succ (self : AffineUpdate K) (checked : Bool) (msqrt : Mat4 K → Mat4 K)
    (fuel : Nat) (X G : Mat4 K) (g : Vec K) (s : K)
    (h : self.run_loop checked msqrt fuel X G g s ≠ .error .outOfFuel) :
    self.run_loop checked msqrt (fuel + 1) X G g s = self.run_loop checked msqrt fuel X G g s := by
  unfold AffineUpdate.run_loop at h ⊢
  cases hP : self.control_points with
  | some P =>
    rw [hP] at h
    simp only at h ⊢
    exact cp_loop_succ _ _ h
  | none =>
    rw [hP] at h
    simp only at h ⊢
    have key : no_cp_loop X G g fuel s ≠ .error .outOfFuel := by
      intro hk
      rw [hk] at h
      exact h rfl
    rw [no_cp_loop_succ _ _ key]

theorem candidate_succ (self : AffineUpdate K) (checked : Bool) (msqrt : Mat4 K → Mat4 K)
    (fuel : Nat) (x g : Vec K) (s : K)
    (h : self.candidate checked msqrt fuel x g s ≠ .error .outOfFuel) :
    self.candidate checked msqrt (fuel + 1) x g s = self.candidate checked msqrt fuel x g s := by
  cases hG : param_vec2mat g with
  | error e =>
    unfold AffineUpdate.candidate
    rw [hG]
  | ok G =>
    cases hX : param_vec2mat x with
    | error e =>
      unfold AffineUpdate.candidate
      rw [hG, hX]
    | ok X =>
      rw [candidate_eq_run_loop self checked msqrt fuel x g s G X hG hX] at h ⊢
      rw [candidate_eq_run_loop self checked msqrt (fuel + 1) x g s G X hG hX]
      exact run_loop_succ self checked msqrt fuel X G g _ h

theorem candidate_mono (self : AffineUpdate K) (checked : Bool) (msqrt : Mat4 K → Mat4 K)
    (fuel : Nat) (x g : Vec K) (s : K)
    (h : self.candidate checked msqrt fuel x g s ≠ .error .outOfFuel) :
    ∀ k : Nat, self.candidate checked msqrt (fuel + k) x g s
      = self.candidate checked msqrt fuel x g s := by
  intro k
  induction k with
  | zero => rfl
  | succ k ih =>
    have h2 : self.candidate checked msqrt (fuel + k) x g s ≠ .error .outOfFuel := by
      rw [ih]; exact h
    rw [← Nat.add_assoc, candidate_succ self checked msqrt (fuel + k) x g s h2, ih]

theorem cp_loop_steps {checked : Bool} {msqrt : Mat4 K → Mat4 K} {X P : Mat4 K}
    {d : Fin 3 → K} {g : Vec K} :
    ∀ (fuel : Nat) (s : K) (acc : Accepted K),
      cp_loop checked msqrt X P d g fuel s = .ok acc →
      ∃ k : Nat, k < fuel ∧ acc.step_size = s * (1 / 2) ^ k := by
  intro fuel
  induction fuel with
  | zero =>
    intro s acc h
    simp [cp_loop] at h
  | succ fuel ih =>
    intro s acc h
    have step : ∀ acc', cp_loop checked msqrt X P d g fuel (s * (1 / 2)) = .ok acc' →
        ∃ k : Nat, k < fuel + 1 ∧ acc'.step_size = s * (1 / 2) ^ k := by
      intro acc' h'
      obtain ⟨k, hk, e⟩ := ih _ _ h'
      exact ⟨k + 1, by omega, by rw [e, pow_succ]; ring⟩
    unfold cp_loop at h
    split at h
    · simp at h
    · split at h
      · exact step _ h
      · split at h
        · exact step _ h
        · split at h
          · exact step _ h
          · split at h
            · simp at h
            · split at h
              · exact step _ h
              · split at h
                · simp at h
                · split at h
                  · exact step _ h
                  · simp only [Except.ok.injEq] at h
                    subst h
                    exact ⟨0, by omega, by simp⟩

/-- C12 as amended (exit of the retry loop): the candidate loop of
`AffineUpdate::operator()` has no iteration cap and no divergence outcome.  Whenever the
loop, cut after `fuel` iterations, is not cut short, every larger cut gives the same
result, and a result that is a candidate was accepted by the loop guards; with control
points its step size is the clamped step size halved `k` times for some `k < fuel`. -/
theorem retry_loop_exit (self : AffineUpdate K) (checked : Bool) (msqrt : Mat4 K → Mat4 K)
    (fuel : Nat) (x g : Vec K) (s : K)
    (h : self.candidate checked msqrt fuel x g s ≠ .error .outOfFuel) :
    (∀ k : Nat, self.candidate checked msqrt (fuel + k) x g s
      = self.candidate checked msqrt fuel x g s) ∧
    (∀ (acc : Accepted K) (P : Mat4 K),
      self.candidate checked msqrt fuel x g s = .ok acc → self.control_points = some P →
      ∃ (G : Mat4 K) (k : Nat), param_vec2mat g = .ok G ∧ k < fuel ∧
        acc.step_size = clamp_step G s * (1 / 2) ^ k) := by
  refine ⟨candidate_mono self checked msqrt fuel x g s h, ?_⟩
  intro acc P hacc hP
  obtain ⟨G, X, hG, hX⟩ := candidate_decoded hacc
  rw [candidate_eq_run_loop self checked msqrt fuel x g s G X hG hX] at hacc
  unfold AffineUpdate.run_loop at hacc
  simp only [hP] at hacc
  obtain ⟨k, hk, e⟩ := cp_loop_steps _ _ _ hacc
  exact ⟨G, k, hG, hk, e⟩

end RetryProps

section MirrorProps

theorem mirror_decode : param_vec2mat mirror_params = .ok mirror_X := rfl

theorem zero_decode (s : ℚ) : param_vec2mat (scaled zero_gradient s) = .ok zero_G := by
  have h : scaled zero_gradient s = zero_gradient := by simp [scaled, zero_gradient]
  rw [h]
  rfl

theorem zero_G_max : maxAbsBlock33 zero_G = 0 ∧ maxAbsCol3 zero_G = 0 := by
  constructor
  · have e : maxAbsBlock33 zero_G
        = max3 (max3 |0| |0| |0|) (max3 |0| |0| |0|) (max3 |(0 : ℚ)| |0| |0|) := rfl
    rw [e]
    norm_num [max3]
  · have e : maxAbsCol3 zero_G = max3 |(0 : ℚ)| |0| |0| := rfl
    rw [e]
    norm_num [max3]

theorem mirror_matA : (matA mirror_X zero_G).det = -1 := by
  have e : matA mirror_X zero_G = !![-1, 0, 0, 0; 0, 1, 0, 0; 0, 0, 1, 0; 0, 0, 0, 1] := by
    ext i j
    fin_cases i <;> fin_cases j <;> simp [matA, set33, mirror_X, zero_G] <;> rfl
  rw [e, det4_of]
  norm_num

theorem mirror_sum : (mirror_X + zero_G).det = -2 := by
  have e : mirror_X + zero_G = !![-1, 0, 0, 0; 0, 1, 0, 0; 0, 0, 1, 0; 0, 0, 0, 2] := by
    ext i j
    fin_cases i <;> fin_cases j <;> simp [mirror_X, zero_G] <;> first | rfl | norm_num
  rw [e, det4_of]
  norm_num

theorem mirror_no_cp_loop :
    ∀ (fuel : Nat) (s : ℚ), no_cp_loop mirror_X zero_G zero_gradient fuel s = .error .outOfFuel := by
  intro fuel
  induction fuel with
  | zero => intro s; rfl
  | succ fuel ih =>
    intro s
    unfold no_cp_loop
    rw [zero_decode s]
    simp only
    rw [if_neg (by rw [zero_G_max.1]; norm_num), if_neg (by rw [zero_G_max.2]; norm_num),
      if_pos (by rw [mirror_matA]; norm_num)]
    exact ih _

theorem mirror_cp_loop (checked : Bool) (msqrt : Mat4 ℚ → Mat4 ℚ) (P : Mat4 ℚ)
    (d : Fin 3 → ℚ) :
    ∀ (fuel : Nat) (s : ℚ),
      cp_loop checked msqrt mirror_X P d zero_gradient fuel s = .error .outOfFuel := by
  intro fuel
  induction fuel with
  | zero => intro s; rfl
  | succ fuel ih =>
    intro s
    unfold cp_loop
    rw [zero_decode s]
    simp only
    rw [if_pos (by rw [mirror_sum]; norm_num)]
    exact ih _

theorem mirror_candidate (self : AffineUpdate ℚ) (checked : Bool) (msqrt : Mat4 ℚ → Mat4 ℚ)
    (fuel : Nat) (s : ℚ) :
    self.candidate checked msqrt fuel mirror_params zero_gradient s = .error .outOfFuel := by
  rw [candidate_eq_run_loop self checked msqrt fuel mirror_params zero_gradient s zero_G
    mirror_X rfl mirror_decode]
  unfold AffineUpdate.run_loop
  cases hP : self.control_points with
  | some P =>
    simp only
    exact mirror_cp_loop checked msqrt P _ fuel _
  | none =>
    simp only
    rw [mirror_no_cp_loop]

theorem mirror_call (self : AffineUpdate ℚ) (checked : Bool) (msqrt : Mat4 ℚ → Mat4 ℚ)
    (fuel : Nat) (s : ℚ) :
    self.operator_call checked msqrt fuel mirror_params zero_gradient s
      = .error .outOfFuel := by
  unfold AffineUpdate.operator_call
  rw [mirror_candidate]

/-- Counterexample to C12 as stated.  For the reflection `diag(-1, 1, 1)` as current
transform and the zero gradient, every iteration of the candidate loop computes the same
matrices and takes the step-size reduction again: without control points because
`det A = -1 < 0`, with control points because `det (X + Delta) = -2 <= 0`.  Whatever the
number of iterations allowed, the loop has not ended, with any step size and any matrix
square root; there is no divergence failure. -/
theorem retry_loop_counterexample :
    (matA mirror_X zero_G).det = -1 ∧ (mirror_X + zero_G).det = -2 ∧
    (∀ (checked : Bool) (msqrt : Mat4 ℚ → Mat4 ℚ) (fuel : Nat) (s : ℚ),
      unconfigured.candidate checked msqrt fuel mirror_params zero_gradient s
        = .error .outOfFuel ∧
      unconfigured.operator_call checked msqrt fuel mirror_params zero_gradient s
        = .error .outOfFuel) ∧
    (∀ (checked : Bool) (msqrt : Mat4 ℚ → Mat4 ℚ) (fuel : Nat) (s : ℚ),
      skew_configured.candidate checked msqrt fuel mirror_params zero_gradient s
        = .error .outOfFuel ∧
      skew_configured.operator_call checked msqrt fuel mirror_params zero_gradient s
        = .error .outOfFuel) :=
  ⟨mirror_matA, mirror_sum,
    fun checked msqrt fuel s =>
      ⟨mirror_candidate unconfigured checked msqrt fuel s,
        mirror_call unconfigured checked msqrt fuel s⟩,
    fun checked msqrt fuel s =>
      ⟨mirror_candidate skew_configured checked msqrt fuel s,
        mirror_call skew_configured checked msqrt fuel s⟩⟩

/-- Witness for C12 as amended: the transform `skew_x` with the control points of
`skew_configured`; the loop ends at its first iteration. -/
theorem retry_loop_exit_witness :
    skew_configured.candidate true skew_sqrt 1 skew_x skew_g 1 ≠ .error .outOfFuel ∧
    (∀ k : Nat, skew_configured.candidate true skew_sqrt (1 + k) skew_x skew_g 1
      = skew_configured.candidate true skew_sqrt 1 skew_x skew_g 1) ∧
    (∀ (acc : Accepted ℚ) (P : Mat4 ℚ),
      skew_configured.candidate true skew_sqrt 1 skew_x skew_g 1 = .ok acc →
      skew_configured.control_points = some P →
      ∃ (G : Mat4 ℚ) (k : Nat), param_vec2mat skew_g = .ok G ∧ k < 1 ∧
        acc.step_size = clamp_step G 1 * (1 / 2) ^ k) :=
  have h : skew_configured.candidate true skew_sqrt 1 skew_x skew_g 1 ≠ .error .outOfFuel := by
    rw [skew_candidate_cp true]
    exact fun h => Except.noConfusion h
  ⟨h, retry_loop_exit skew_configured true skew_sqrt 1 skew_x skew_g 1 h⟩

end MirrorProps

section LengthProps

variable {K : Type} [LinearOrderedField K]

theorem param_vec2mat_ok_of_length {p : Vec K} (h : p.length = 12) :
    ∃ M, param_vec2mat p = .ok M := by
  obtain ⟨p0, p1, p2, p3, p4, p5, p6, p7, p8, p9, p10, p11, rfl⟩ := length_twelve p h
  exact ⟨_, rfl⟩

theorem param_vec2mat_cases (p : Vec K) :
    (p.length = 12 ∧ ∃ M, param_vec2mat p = .ok M) ∨
    (p.length ≠ 12 ∧ param_vec2mat p = .error .invalidLength) := by
  by_cases h : p.length = 12
  · exact Or.inl ⟨h, param_vec2mat_ok_of_length h⟩
  · refine Or.inr ⟨h, ?_⟩
    unfold param_vec2mat
    split
    · exact absurd rfl h
    · rfl

theorem length_scaled (g : Vec K) (s : K) : (scaled g s).length = g.length := by
  simp [scaled]

theorem root_stage_fault {checked : Bool} {msqrt : Mat4 K → Mat4 K} {A B : Mat4 K}
    {e : Fault} (h : root_stage checked msqrt A B = .error e) : e = .undefined := by
  unfold root_stage at h
  simp only at h
  split at h
  · simp only [Except.error.injEq] at h
    exact h.symm
  · split at h
    · simp only [Except.error.injEq] at h
      exact h.symm
    · split at h
      · simp only [Except.error.injEq] at h
        exact h.symm
      · simp at h

theorem cp_loop_fault {checked : Bool} {msqrt : Mat4 K → Mat4 K} {X P : Mat4 K}
    {d : Fin 3 → K} {g : Vec K} (hg : g.length = 12) :
    ∀ (fuel : Nat) (s : K),
      cp_loop checked msqrt X P d g fuel s ≠ .error .invalidLength := by
  intro fuel
  induction fuel with
  | zero =>
    intro s h
    simp [cp_loop] at h
  | succ fuel ih =>
    intro s h
    obtain ⟨Delta, hD⟩ := param_vec2mat_ok_of_length ((length_scaled g s).trans hg)
    unfold cp_loop at h
    rw [hD] at h
    simp only at h
    split at h
    · exact ih _ h
    · split at h
      · exact ih _ h
      · split at h
        · exact ih _ h
        · split at h
          · simp at h
          · split at h
            · exact ih _ h
            · split at h
              · next e he =>
                have := root_stage_fault he
                simp only [Except.error.injEq] at h
                rw [this] at h
                simp at h
              · split at h
                · exact ih _ h
                · simp at h

theorem no_cp_loop_fault {X G : Mat4 K} {g : Vec K} (hg : g.length = 12) :
    ∀ (fuel : Nat) (s : K), no_cp_loop X G g fuel s ≠ .error .invalidLength := by
  intro fuel
  induction fuel with
  | zero =>
    intro s h
    simp [no_cp_loop] at h
  | succ fuel ih =>
    intro s h
    obtain ⟨Delta, hD⟩ := param_vec2mat_ok_of_length ((length_scaled g s).trans hg)
    unfold no_cp_loop at h
    rw [hD] at h
    simp only at h
    split at h
    · exact ih _ h
    · split at h
      · exact ih _ h
      · split at h
        · exact ih _ h
        · simp at h

theorem candidate_invalid_iff (self : AffineUpdate K) (checked : Bool)
    (msqrt : Mat4 K → Mat4 K) (fuel : Nat) (x g : Vec K) (s : K) :
    self.candidate checked msqrt fuel x g s = .error .invalidLength ↔
      (x.length ≠ 12 ∨ g.length ≠ 12) := by
  rcases param_vec2mat_cases g with ⟨hg, G, hG⟩ | ⟨hg, hG⟩
  · rcases param_vec2mat_cases x with ⟨hx, X, hX⟩ | ⟨hx, hX⟩
    · rw [candidate_eq_run_loop self checked msqrt fuel x g s G X hG hX]
      constructor
      · intro h
        exfalso
        unfold AffineUpdate.run_loop at h
        split at h
        · exact cp_loop_fault hg _ _ h
        · split at h
          · next e he =>
            simp only [Except.error.injEq] at h
            rw [h] at he
            exact no_cp_loop_fault hg _ _ he
          · split at h
            · simp at h
            · split at h
              · simp at h
              · split at h
                · next e he =>
                  have := root_stage_fault he
                  simp only [Except.error.injEq] at h
                  rw [this] at h
                  simp at h
                · simp at h
      · rintro (h | h)
        · exact absurd hx h
        · exact absurd hg h
    · constructor
      · intro _
        exact Or.inl hx
      · intro _
        unfold AffineUpdate.candidate
        rw [hG, hX]
  · constructor
    · intro _
      exact Or.inr hg
    · intro _
      unfold AffineUpdate.candidate
      rw [hG]

theorem operator_call_invalid_iff (self : AffineUpdate K) (checked : Bool)
    (msqrt : Mat4 K → Mat4 K) (fuel : Nat) (x g : Vec K) (s : K) :
    self.operator_call checked msqrt fuel x g s = .error .invalidLength ↔
      (x.length ≠ 12 ∨ g.length ≠ 12) := by
  rw [← candidate_invalid_iff self checked msqrt fuel x g s]
  unfold AffineUpdate.operator_call
  constructor
  · intro h
    split at h
    · next e he =>
      simp only [Except.error.injEq] at h
      rw [h] at he
      exact he
    · simp only at h
      split at h
      · split at h
        · simp at h
        · split at h
          · simp at h
          · simp at h
      · split at h
        · simp at h
        · simp at h
  · intro h
    rw [h]

/-- C13 as amended (length checks): decoding a vector with `param_vec2mat` fails with
`InvalidLength` exactly when its length is not 12 and yields a matrix exactly when it is
12; `AffineUpdate::operator()` fails with `InvalidLength` exactly when `x` or `g` does not
have 12 elements, and then returns no result.  `Affine::set_parameter_vector` has no
length check: it is defined exactly for vectors with at least 12 elements and reads the
first 12; `AffineRobustEstimator::operator()` returns a result exactly when `g` and `x`
have the same size, whatever that size is. -/
theorem invalid_length (self : AffineUpdate K) (checked : Bool) (msqrt : Mat4 K → Mat4 K)
    (fuel : Nat) (x g p : Vec K) (s : K) (a : Affine K) :
    (param_vec2mat p = .error .invalidLength ↔ p.length ≠ 12) ∧
    ((∃ M, param_vec2mat p = .ok M) ↔ p.length = 12) ∧
    (self.operator_call checked msqrt fuel x g s = .error .invalidLength ↔
      (x.length ≠ 12 ∨ g.length ≠ 12)) ∧
    (self.candidate checked msqrt fuel x g s = .error .invalidLength ↔
      (x.length ≠ 12 ∨ g.length ≠ 12)) ∧
    ((∃ a', a.set_parameter_vector p = some a' ∧
        ∀ (r : Fin 3) (c : Fin 4), a'.trafo r c = p.getD (4 * r.val + c.val) 0) ↔
      12 ≤ p.length) ∧
    ((∃ res, AffineRobustEstimator.operator_call x g s = some res) ↔
      g.length = x.length) := by
  refine ⟨?_, ?_, operator_call_invalid_iff self checked msqrt fuel x g s,
    candidate_invalid_iff self checked msqrt fuel x g s, ?_, ?_⟩
  · rcases param_vec2mat_cases p with ⟨h, M, hM⟩ | ⟨h, hM⟩
    · rw [hM]
      simp [h]
    · rw [hM]
      simp [h]
  · rcases param_vec2mat_cases p with ⟨h, M, hM⟩ | ⟨h, hM⟩
    · rw [hM]
      simp [h]
    · rw [hM]
      simp [h]
  · unfold Affine.set_parameter_vector
    by_cases h : 12 ≤ p.length
    · rw [if_pos h]
      simp only [h, iff_true]
      exact ⟨_, rfl, fun _ _ => rfl⟩
    · rw [if_neg h]
      simp [h]
  · constructor
    · rintro ⟨res, h⟩
      unfold AffineRobustEstimator.operator_call at h
      simp only [Option.bind_eq_some] at h
      obtain ⟨newx, h1, -⟩ := h
      have := (cwise_length h1).2.symm.trans (cwise_length h1).1
      rw [length_smul] at this
      exact this
    · intro h
      rw [robust_defined x g s h]
      obtain ⟨approx, ha⟩ := isApprox_defined (List.zipWith (fun a b => a - b) x (smul s g)) x
        (by simp [length_smul, h])
      rw [ha]
      exact ⟨_, rfl⟩

end LengthProps

section ExitProps

variable {K : Type} [LinearOrderedField K]

theorem no_cp_loop_exit (X G : Mat4 K) (g : Vec K) (fuel : Nat) (s : K) (Delta : Mat4 K)
    (hDelta : param_vec2mat (scaled g s) = .ok Delta)
    (h1 : maxAbsBlock33 Delta ≤ 1 / 10) (h2 : maxAbsCol3 Delta ≤ 10)
    (h3 : 0 ≤ (matA X Delta).det) :
    no_cp_loop X G g (fuel + 1) s = .ok (s, Delta) := by
  unfold no_cp_loop
  rw [hDelta]
  simp only
  rw [if_neg (not_lt.mpr h1), if_neg (not_lt.mpr h2), if_neg (not_lt.mpr h3)]

theorem candidate_of_no_cp_loop (self : AffineUpdate K) (checked : Bool)
    (msqrt : Mat4 K → Mat4 K) (fuel : Nat) (x g : Vec K) (s step : K)
    (G X Delta Xinv : Mat4 K) (hcp : self.control_points = none)
    (hG : param_vec2mat g = .ok G) (hX : param_vec2mat x = .ok X)
    (hloop : no_cp_loop X G g fuel (clamp_step G s) = .ok (step, Delta))
    (hXinv : inverse X = some Xinv) :
    self.candidate checked msqrt fuel x g s =
      if checked && !decide ((matB Xinv Delta).det > 0) then .error .undefined
      else
        (root_stage checked msqrt (matA X Delta) (matB Xinv Delta)).map fun Xnew =>
          { step_size := step, Xnew := Xnew, Diff := none } := by
  unfold AffineUpdate.candidate
  rw [hG, hX]
  simp only [hcp, hloop, hXinv]
  split
  · rfl
  · cases root_stage checked msqrt (matA X Delta) (matB Xinv Delta) <;> rfl

end ExitProps

section ExtremeProps

theorem squaredNorm4_of (a0 a1 a2 a3 b0 b1 b2 b3 c0 c1 c2 c3 d0 d1 d2 d3 : ℚ) :
    squaredNorm4 !![a0, a1, a2, a3; b0, b1, b2, b3; c0, c1, c2, c3; d0, d1, d2, d3]
      = a0 * a0 + a1 * a1 + a2 * a2 + a3 * a3 + (b0 * b0 + b1 * b1 + b2 * b2 + b3 * b3)
        + (c0 * c0 + c1 * c1 + c2 * c2 + c3 * c3) + (d0 * d0 + d1 * d1 + d2 * d2 + d3 * d3) := by
  simp [squaredNorm4, Fin.sum_univ_four]

theorem stretch_decode :
    param_vec2mat stretch_g = .ok stretch_Delta ∧ param_vec2mat stretch_x = .ok stretch_X :=
  ⟨rfl, rfl⟩

theorem stretch_maxAbs :
    maxAbsBlock33 stretch_Delta = 1 / 16 ∧ maxAbsCol3 stretch_Delta = 0 := by
  constructor
  · have h1 : |(-1 / 16 : ℚ)| = 1 / 16 := by rw [abs_of_neg (by norm_num)]; norm_num
    have e : maxAbsBlock33 stretch_Delta
        = max3 (max3 |(-1 / 16 : ℚ)| |0| |0|) (max3 |0| |0| |0|) (max3 |0| |0| |0|) := rfl
    rw [e, h1]
    norm_num [max3]
  · have e : maxAbsCol3 stretch_Delta = max3 |(0 : ℚ)| |0| |0| := rfl
    rw [e]
    norm_num [max3]

theorem stretch_clamp : clamp_step stretch_Delta 1 = 1 := by
  rw [clamp_step, stretch_maxAbs.1]
  norm_num

theorem stretch_scaled : scaled stretch_g 1 = stretch_g := by
  simp [scaled]

theorem stretch_matA : matA stretch_X stretch_Delta = stretch_A := by
  ext i j
  fin_cases i <;> fin_cases j <;>
    simp [matA, set33, stretch_X, stretch_Delta, stretch_A] <;>
    first | rfl | norm_num

theorem stretch_inverse : inverse stretch_X = some stretch_Xinv := by
  apply inverse_of_mul_eq_one
  ext i j
  fin_cases i <;> fin_cases j <;>
    simp [Matrix.mul_apply, Fin.sum_univ_four, stretch_X, stretch_Xinv] <;>
    rfl

theorem stretch_matB : matB stretch_Xinv stretch_Delta = stretch_B := by
  ext i j
  fin_cases i <;> fin_cases j <;>
    simp [matB, set33, stretch_Xinv, stretch_Delta, stretch_B] <;>
    first | rfl | norm_num

theorem stretch_det : stretch_A.det = 513 / 16 ∧ stretch_B.det = -1 / 32 := by
  constructor
  · rw [stretch_A, det4_of]; norm_num
  · rw [stretch_B, det4_of]; norm_num

theorem stretch_loop (fuel : Nat) :
    no_cp_loop stretch_X stretch_Delta stretch_g (fuel + 1) (clamp_step stretch_Delta 1)
      = .ok (1, stretch_Delta) := by
  rw [stretch_clamp]
  exact no_cp_loop_exit stretch_X stretch_Delta stretch_g fuel 1 stretch_Delta
    (by rw [stretch_scaled]; exact stretch_decode.1)
    (by rw [stretch_maxAbs.1]; norm_num) (by rw [stretch_maxAbs.2]; norm_num)
    (by rw [stretch_matA, stretch_det.1]; norm_num)

theorem stretch_candidate (checked : Bool) (msqrt : Mat4 ℚ → Mat4 ℚ) (fuel : Nat) :
    unconfigured.candidate checked msqrt (fuel + 1) stretch_x stretch_g 1 =
      if checked then .error .undefined
      else
        (root_stage checked msqrt stretch_A stretch_B).map fun Xnew =>
          { step_size := 1, Xnew := Xnew, Diff := none } := by
  rw [candidate_of_no_cp_loop unconfigured checked msqrt (fuel + 1) stretch_x stretch_g 1 1
    stretch_Delta stretch_X stretch_Delta stretch_Xinv rfl stretch_decode.1 stretch_decode.2
    (stretch_loop fuel) stretch_inverse, stretch_matA, stretch_matB, stretch_det.2]
  have hneg : ¬ ((-1 / 32 : ℚ) > 0) := by norm_num
  cases checked <;> simp [hneg]

theorem squeeze_decode :
    param_vec2mat squeeze_g = .ok squeeze_Delta ∧ param_vec2mat squeeze_x = .ok squeeze_X :=
  ⟨rfl, rfl⟩

theorem squeeze_maxAbs :
    maxAbsBlock33 squeeze_Delta = 1 / 16 ∧ maxAbsCol3 squeeze_Delta = 0 := by
  constructor
  · have h1 : |(1 / 16 : ℚ)| = 1 / 16 := abs_of_pos (by norm_num)
    have e : maxAbsBlock33 squeeze_Delta
        = max3 (max3 |(1 / 16 : ℚ)| |0| |0|) (max3 |0| |0| |0|) (max3 |0| |0| |0|) := rfl
    rw [e, h1]
    norm_num [max3]
  · have e : maxAbsCol3 squeeze_Delta = max3 |(0 : ℚ)| |0| |0| := rfl
    rw [e]
    norm_num [max3]

theorem squeeze_clamp : clamp_step squeeze_Delta 1 = 1 := by
  rw [clamp_step, squeeze_maxAbs.1]
  norm_num

theorem squeeze_scaled : scaled squeeze_g 1 = squeeze_g := by
  simp [scaled]

theorem squeeze_matA : matA squeeze_X squeeze_Delta = squeeze_A := by
  ext i j
  fin_cases i <;> fin_cases j <;>
    simp [matA, set33, squeeze_X, squeeze_Delta, squeeze_A] <;>
    rfl

theorem squeeze_inverse : inverse squeeze_X = some squeeze_Xinv := by
  apply inverse_of_mul_eq_one
  ext i j
  fin_cases i <;> fin_cases j <;>
    simp [Matrix.mul_apply, Fin.sum_univ_four, squeeze_X, squeeze_Xinv] <;>
    rfl

theorem squeeze_matB : matB squeeze_Xinv squeeze_Delta = squeeze_B := by
  ext i j
  fin_cases i <;> fin_cases j <;>
    simp [matB, set33, squeeze_Xinv, squeeze_Delta, squeeze_B] <;>
    first | rfl | norm_num

theorem squeeze_det : squeeze_A.det = 0 ∧ squeeze_B.det = 257 / 16 := by
  constructor
  · rw [squeeze_A, det4_of]; norm_num
  · rw [squeeze_B, det4_of]; norm_num

theorem squeeze_loop (fuel : Nat) :
    no_cp_loop squeeze_X squeeze_Delta squeeze_g (fuel + 1) (clamp_step squeeze_Delta 1)
      = .ok (1, squeeze_Delta) := by
  rw [squeeze_clamp]
  exact no_cp_loop_exit squeeze_X squeeze_Delta squeeze_g fuel 1 squeeze_Delta
    (by rw [squeeze_scaled]; exact squeeze_decode.1)
    (by rw [squeeze_maxAbs.1]; norm_num) (by rw [squeeze_maxAbs.2]; norm_num)
    (by rw [squeeze_matA, squeeze_det.1])

theorem squeeze_candidate (checked : Bool) (msqrt : Mat4 ℚ → Mat4 ℚ) (fuel : Nat) :
    unconfigured.candidate checked msqrt (fuel + 1) squeeze_x squeeze_g 1 =
      (root_stage checked msqrt squeeze_A squeeze_B).map fun Xnew =>
        { step_size := 1, Xnew := Xnew, Diff := none } := by
  rw [candidate_of_no_cp_loop unconfigured checked msqrt (fuel + 1) squeeze_x squeeze_g 1 1
    squeeze_Delta squeeze_X squeeze_Delta squeeze_Xinv rfl squeeze_decode.1 squeeze_decode.2
    (squeeze_loop fuel) squeeze_inverse, squeeze_matA, squeeze_matB, squeeze_det.2]
  have hpos : (257 / 16 : ℚ) > 0 := by norm_num
  simp [hpos]

theorem squeeze_A_idem : squeeze_A * squeeze_A = squeeze_A := by
  ext i j
  fin_cases i <;> fin_cases j <;>
    simp [Matrix.mul_apply, Fin.sum_univ_four, squeeze_A] <;>
    rfl

theorem squeeze_B_ne_A : squeeze_A ≠ squeeze_B := by
  intro h
  have := congrFun (congrFun h 0) 0
  simp [squeeze_A, squeeze_B] at this
  norm_num at this

theorem squeeze_Bsqrt_sq : squeeze_Bsqrt * squeeze_Bsqrt
    = !![17764572758416 / 1105965619201, 0, 0, 0; 0, 1, 0, 0; 0, 0, 1, 0; 0, 0, 0, 1] := by
  ext i j
  fin_cases i <;> fin_cases j <;>
    simp [Matrix.mul_apply, Fin.sum_univ_four, squeeze_Bsqrt]
  norm_num

theorem squeeze_Bsqrt_approx : isApprox4 squeeze_B (squeeze_Bsqrt * squeeze_Bsqrt) = true := by
  have hd : squeeze_B - squeeze_Bsqrt * squeeze_Bsqrt
      = !![1 / 17695449907216, 0, 0, 0; 0, 0, 0, 0; 0, 0, 0, 0; 0, 0, 0, 0] := by
    rw [squeeze_Bsqrt_sq]
    ext i j
    fin_cases i <;> fin_cases j <;> simp [squeeze_B] <;> first | rfl | norm_num
  unfold isApprox4
  rw [hd, squeeze_Bsqrt_sq, squeeze_B, squaredNorm4_of, squaredNorm4_of, squaredNorm4_of]
  simp only [decide_eq_true_eq, dummy_precision]
  norm_num

theorem squeeze_Bsqrt_inverse : inverse squeeze_Bsqrt = some squeeze_Bsqrtinv := by
  apply inverse_of_mul_eq_one
  ext i j
  fin_cases i <;> fin_cases j <;>
    simp [Matrix.mul_apply, Fin.sum_univ_four, squeeze_Bsqrt, squeeze_Bsqrtinv] <;>
    rfl

theorem squeeze_root_stage :
    root_stage true squeeze_sqrt squeeze_A squeeze_B
      = .ok (symmetric_candidate squeeze_A squeeze_Bsqrtinv) := by
  have hA : squeeze_sqrt squeeze_A = squeeze_A := by simp [squeeze_sqrt, squeeze_B_ne_A]
  have hB : squeeze_sqrt squeeze_B = squeeze_Bsqrt := by simp [squeeze_sqrt]
  unfold root_stage
  simp only [hA, hB, squeeze_A_idem, isApprox4_self, squeeze_Bsqrt_approx, squeeze_Bsqrt_inverse,
    Bool.not_true, Bool.and_false, Bool.false_eq_true, if_false]

end ExtremeProps

section RobustEstimateProps

variable {K : Type}

/-- C18 (unimplemented robust estimate): for every gradient, list of gradient estimates,
control-point matrix, parameter vector, precision, iteration limit and learning rate,
`Affine::robust_estimate` ends with the exception "TODO robust estimate", returns no
boolean, and leaves the gradient argument (and the list of estimates) unchanged. -/
theorem robust_estimate_unimplemented (a : Affine K) (gradient : Vec K)
    (grad_estimates : List (Vec K)) (control_points : Mat4 K) (parameter_vector : Vec K)
    (weiszfeld_precision : K) (weiszfeld_iterations : Nat) (learning_rate : K) :
    (a.robust_estimate gradient grad_estimates control_points parameter_vector
      weiszfeld_precision weiszfeld_iterations learning_rate).1
        = .error "TODO robust estimate" ∧
    (∀ b : Bool,
      (a.robust_estimate gradient grad_estimates control_points parameter_vector
        weiszfeld_precision weiszfeld_iterations learning_rate).1 ≠ .ok b) ∧
    (a.robust_estimate gradient grad_estimates control_points parameter_vector
      weiszfeld_precision weiszfeld_iterations learning_rate).2.1 = gradient ∧
    (a.robust_estimate gradient grad_estimates control_points parameter_vector
      weiszfeld_precision weiszfeld_iterations learning_rate).2.2 = grad_estimates :=
  ⟨rfl, fun _ h => Except.noConfusion h, rfl, rfl⟩

end RobustEstimateProps

section LengthCounter

/-- Counterexample to C13 as stated.  `Affine::set_parameter_vector` on a vector of 13
elements raises no error: it stores the first 12.  `AffineRobustEstimator::operator()` on
a parameter vector and a gradient of one element each returns a result. -/
theorem invalid_length_counterexample :
    ([1, 2, 3, 4, 5, 6, 7, 8, 9, 10, 11, 12, 13] : Vec ℚ).length ≠ 12 ∧
    (∃ a', ({ trafo := 0, centre := ![0, 0, 0] } : Affine ℚ).set_parameter_vector
        [1, 2, 3, 4, 5, 6, 7, 8, 9, 10, 11, 12, 13] = some a' ∧
      a'.get_parameter_vector = [1, 2, 3, 4, 5, 6, 7, 8, 9, 10, 11, 12]) ∧
    ([1] : Vec ℚ).length ≠ 12 ∧
    AffineRobustEstimator.operator_call ([1] : Vec ℚ) [1] 1 = some ([0], true) := by
  refine ⟨by decide, ⟨_, rfl, rfl⟩, by decide, ?_⟩
  simp [AffineRobustEstimator.operator_call, vsub, cwise, smul, isApprox, squaredNorm,
    dummy_precision]

end LengthCounter

section FeasibilityProps

theorem squeeze_Xnew : symmetric_candidate squeeze_A squeeze_Bsqrtinv = squeeze_A := by
  ext i j
  fin_cases i <;> fin_cases j <;>
    simp [symmetric_candidate, Matrix.mul_apply, Fin.sum_univ_four, squeeze_A,
      squeeze_Bsqrtinv] <;>
    rfl

theorem squeeze_not_approx : isApprox (param_mat2vec squeeze_A) squeeze_x = some false := by
  have e : param_mat2vec squeeze_A = [0, 0, 0, 0, 0, 1, 0, 0, 0, 0, 1, 0] := rfl
  rw [e]
  simp [isApprox, vsub, cwise, squeeze_x, squaredNorm, dummy_precision]
  norm_num

theorem squeeze_accept :
    unconfigured.candidate true squeeze_sqrt 1 squeeze_x squeeze_g 1
      = .ok { step_size := 1, Xnew := squeeze_A, Diff := none } := by
  rw [squeeze_candidate true squeeze_sqrt 0, squeeze_root_stage, squeeze_Xnew]
  rfl

/-- C19 (feasibility of `A` and `B`): where the code departs from the rule.  With control
points, an accepted step has `det A > 0` and `det B > 0`.  Without control points the loop
tests `A.determinant() < 0` only.  For `X = diag(32, 1, 1)` and the gradient
`[-1/16, 0, ...]` at step size 1 the loop accepts the step at its first iteration with
`det A = 513/16` and `det B = -1/32`: with assertions enabled the call stops at
`assert(B.determinant() > 0.0)`, without them the square-root stage runs on this `B`.
For `X = diag(1/16, 1, 1)` and the gradient `[1/16, 0, ...]` the loop accepts the step
with `det A = 0`; the square-root stage runs on this `A`, both assertions on the roots
hold for a root of `B` accurate to the tolerance of `isApprox`, and the call returns the
singular transform `diag(0, 1, 1)`. -/
theorem feasibility_divergence :
    (∀ (self : AffineUpdate ℚ) (checked : Bool) (msqrt : Mat4 ℚ → Mat4 ℚ) (fuel : Nat)
        (x g : Vec ℚ) (s : ℚ) (acc : Accepted ℚ) (P : Mat4 ℚ),
      self.control_points = some P →
      self.candidate checked msqrt fuel x g s = .ok acc →
      ∃ X Delta Xinv, param_vec2mat x = .ok X ∧
        param_vec2mat (scaled g acc.step_size) = .ok Delta ∧ inverse X = some Xinv ∧
        0 < (matA X Delta).det ∧ 0 < (matB Xinv Delta).det) ∧
    (param_vec2mat stretch_x = .ok stretch_X ∧
      param_vec2mat (scaled stretch_g 1) = .ok stretch_Delta ∧
      inverse stretch_X = some stretch_Xinv ∧
      matA stretch_X stretch_Delta = stretch_A ∧
      matB stretch_Xinv stretch_Delta = stretch_B ∧
      stretch_A.det = 513 / 16 ∧ stretch_B.det = -1 / 32 ∧
      (∀ fuel : Nat,
        no_cp_loop stretch_X stretch_Delta stretch_g (fuel + 1) (clamp_step stretch_Delta 1)
          = .ok (1, stretch_Delta)) ∧
      (∀ (msqrt : Mat4 ℚ → Mat4 ℚ) (fuel : Nat),
        unconfigured.candidate true msqrt (fuel + 1) stretch_x stretch_g 1
          = .error .undefined) ∧
      (∀ (msqrt : Mat4 ℚ → Mat4 ℚ) (fuel : Nat),
        unconfigured.candidate false msqrt (fuel + 1) stretch_x stretch_g 1
          = (root_stage false msqrt stretch_A stretch_B).map fun Xnew =>
              { step_size := 1, Xnew := Xnew, Diff := none })) ∧
    (param_vec2mat squeeze_x = .ok squeeze_X ∧
      param_vec2mat (scaled squeeze_g 1) = .ok squeeze_Delta ∧
      inverse squeeze_X = some squeeze_Xinv ∧
      matA squeeze_X squeeze_Delta = squeeze_A ∧
      matB squeeze_Xinv squeeze_Delta = squeeze_B ∧
      squeeze_A.det = 0 ∧ squeeze_B.det = 257 / 16 ∧
      (∀ fuel : Nat,
        no_cp_loop squeeze_X squeeze_Delta squeeze_g (fuel + 1) (clamp_step squeeze_Delta 1)
          = .ok (1, squeeze_Delta)) ∧
      (∀ (checked : Bool) (msqrt : Mat4 ℚ → Mat4 ℚ) (fuel : Nat),
        unconfigured.candidate checked msqrt (fuel + 1) squeeze_x squeeze_g 1
          = (root_stage checked msqrt squeeze_A squeeze_B).map fun Xnew =>
              { step_size := 1, Xnew := Xnew, Diff := none }) ∧
      squeeze_sqrt squeeze_A * squeeze_sqrt squeeze_A = squeeze_A ∧
      isApprox4 squeeze_B (squeeze_sqrt squeeze_B * squeeze_sqrt squeeze_B) = true ∧
      unconfigured.candidate true squeeze_sqrt 1 squeeze_x squeeze_g 1
        = .ok { step_size := 1, Xnew := squeeze_A, Diff := none } ∧
      unconfigured.operator_call true squeeze_sqrt 1 squeeze_x squeeze_g 1
        = .ok (param_mat2vec squeeze_A, true)) := by
  refine ⟨?_, ⟨stretch_decode.2, by rw [stretch_scaled]; exact stretch_decode.1,
      stretch_inverse, stretch_matA, stretch_matB, stretch_det.1, stretch_det.2,
      stretch_loop, ?_, ?_⟩,
    ⟨squeeze_decode.2, by rw [squeeze_scaled]; exact squeeze_decode.1, squeeze_inverse,
      squeeze_matA, squeeze_matB, squeeze_det.1, squeeze_det.2, squeeze_loop,
      squeeze_candidate, ?_, ?_, squeeze_accept, ?_⟩⟩
  · intro self checked msqrt fuel x g s acc P hP h
    obtain ⟨X, Delta, Xinv, hX, hD, -, hA, hXinv, hB, -, -, -⟩ := candidate_cp_ok hP h
    exact ⟨X, Delta, Xinv, hX, hD, hXinv, hA, hB⟩
  · intro msqrt fuel
    rw [stretch_candidate true msqrt fuel]
    rfl
  · intro msqrt fuel
    rw [stretch_candidate false msqrt fuel]
    rfl
  · have hA : squeeze_sqrt squeeze_A = squeeze_A := by simp [squeeze_sqrt, squeeze_B_ne_A]
    rw [hA]
    exact squeeze_A_idem
  · have hB : squeeze_sqrt squeeze_B = squeeze_Bsqrt := by simp [squeeze_sqrt]
    rw [hB]
    exact squeeze_Bsqrt_approx
  · exact operator_call_of_none unconfigured true squeeze_sqrt 1 squeeze_x squeeze_g 1 _
      false squeeze_accept rfl squeeze_not_approx

end FeasibilityProps

namespace DoubleExpSmoothSlopeCheck

variable {K : Type} [LinearOrderedField K]

theorem go_on_first_cnt {m m' : DoubleExpSmoothSlopeCheck K} {e : Vec K} {r : Bool}
    (h : m.go_on e = some (r, m')) (hlen : m.len = 0) (hx : m.x0.length = 0) :
    m'.stop_cnt = m.stop_cnt ∧ r = true := by
  unfold go_on at h
  simp only [hlen, hx, if_true, Option.some.injEq, Prod.mk.injEq] at h
  obtain ⟨h1, h2⟩ := h
  subst h2
  exact ⟨rfl, h1.symm⟩

theorem go_on_seed_cnt {m m' : DoubleExpSmoothSlopeCheck K} {e : Vec K} {r : Bool}
    (h : m.go_on e = some (r, m')) (hlen : m.len = 0) (hx : m.x0.length ≠ 0) :
    ∃ d pass, vsub e m.x0 = some d ∧ m.check_all d = some pass ∧
      m'.db = m.db ++ [d] ∧ m'.stop_cnt = m.bump pass ∧ r = true := by
  unfold go_on at h
  simp only [hlen, hx, if_true, if_false, Option.bind_eq_some, Option.some.injEq,
    Prod.mk.injEq] at h
  obtain ⟨d, hd, pass, hp, h1, h2⟩ := h
  subst h2
  exact ⟨d, pass, hd, hp, rfl, rfl, h1.symm⟩

theorem go_on_smooth_cnt {m m' : DoubleExpSmoothSlopeCheck K} {e : Vec K} {r : Bool}
    (h : m.go_on e = some (r, m')) (hlen : m.len ≠ 0) :
    ∃ b pass, m.check_all b = some pass ∧
      ((m.len ≠ m.buffer_len ∧ m'.db = m.db ++ [b] ∧ m'.stop_cnt = m.bump pass) ∨
        (m.len = m.buffer_len ∧ m'.db = (m.db ++ [b]).tail ∧
          m'.stop_cnt = if m.bump pass > m.buffer_len then m.bump pass - 1
            else m.bump pass)) := by
  unfold go_on at h
  simp only [hlen, if_false, Option.bind_eq_some] at h
  obtain ⟨sb, -, bb, -, pred, -, s, -, sl, -, sp, -, bp, -, diff, -, b, -, pass, hp, h⟩ := h
  refine ⟨b, pass, hp, ?_⟩
  split at h
  · next hfull =>
    simp only [Option.some.injEq, Prod.mk.injEq] at h
    obtain ⟨-, h2⟩ := h
    subst h2
    exact Or.inr ⟨hfull, rfl, rfl⟩
  · next hfull =>
    simp only [Option.some.injEq, Prod.mk.injEq] at h
    obtain ⟨-, h2⟩ := h
    subst h2
    exact Or.inl ⟨hfull, rfl, rfl⟩

theorem bump_le (m : DoubleExpSmoothSlopeCheck K) (pass : Bool) :
    m.bump pass ≤ m.stop_cnt + 1 := by
  unfold bump
  split
  · exact Nat.mod_le _ _
  · exact Nat.zero_le _

theorem go_on_len_step {m m' : DoubleExpSmoothSlopeCheck K} {e : Vec K} {r : Bool}
    (h : m.go_on e = some (r, m'))
    (h1 : m.len = m.ds.length % SIZE_MOD)
    (h3 : 1 ≤ m.buffer_len → m.ds.length ≤ m.buffer_len) (h4 : m.buffer_len < SIZE_MOD)
    (hb : 1 ≤ m.buffer_len) (hc : m.stop_cnt ≤ m.len) :
    m'.stop_cnt ≤ m'.len ∧ m.len ≤ m'.len ∧ m'.len ≤ m.len + 1 ∧
      (m.len = m.buffer_len → m'.len = m.buffer_len) ∧
      (m.len = 0 → m.x0.length = 0 → m'.len = 0) := by
  have hle := h3 hb
  have hlt : m.ds.length < SIZE_MOD := by omega
  have h1x : m.len = m.ds.length := by rw [h1, Nat.mod_eq_of_lt hlt]
  by_cases hlen : m.len = 0
  · by_cases hx : m.x0.length = 0
    · obtain ⟨-, -, a3, -⟩ := go_on_first h hlen hx
      obtain ⟨c1, -⟩ := go_on_first_cnt h hlen hx
      rw [a3, c1]
      exact ⟨hc, Nat.le_refl _, Nat.le_succ _, fun h => h, fun _ _ => hlen⟩
    · obtain ⟨d, -, -, -, a3, -⟩ := go_on_seed h hlen hx
      obtain ⟨d', pass, -, -, -, c1, -⟩ := go_on_seed_cnt h hlen hx
      have hb1 := bump_le m pass
      have hmod : (m.len + 1) % SIZE_MOD = m.len + 1 := Nat.mod_eq_of_lt (by omega)
      rw [a3, c1, hmod]
      exact ⟨by omega, by omega, Nat.le_refl _, fun h => by omega, fun _ h => absurd h hx⟩
  · obtain ⟨s, b, -, a⟩ := go_on_smooth_shape h hlen
    obtain ⟨b', pass, -, c⟩ := go_on_smooth_cnt h hlen
    have hb1 := bump_le m pass
    rcases a with ⟨hne, -, -, a3⟩ | ⟨heq, -, -, a3⟩
    · rcases c with ⟨-, -, c1⟩ | ⟨heq, -, -⟩
      · have hmod : (m.len + 1) % SIZE_MOD = m.len + 1 := Nat.mod_eq_of_lt (by omega)
        rw [a3, c1, hmod]
        exact ⟨by omega, by omega, Nat.le_refl _, fun h => absurd h hne,
          fun h => absurd h hlen⟩
      · exact absurd heq hne
    · rcases c with ⟨hne, -, -⟩ | ⟨-, -, c1⟩
      · exact absurd heq hne
      · rw [a3, c1]
        refine ⟨?_, Nat.le_refl _, Nat.le_succ _, fun h => h, fun h => absurd h hlen⟩
        split
        · omega
        · omega

theorem Reachable.cnt_le {n : Nat} {m : DoubleExpSmoothSlopeCheck K} (h : Reachable n m)
    (hb : 1 ≤ m.buffer_len) : m.stop_cnt ≤ m.len := by
  induction h with
  | fresh thresh alpha beta buffer_len min_iter _ _ _ => exact Nat.le_refl _
  | call m m' e r hm _ hgo ih =>
    have hbuf : m'.buffer_len = m.buffer_len := (go_on_result hgo).1
    rw [hbuf] at hb
    obtain ⟨h1, -, h3, h4, -⟩ := hm.counts
    exact (go_on_len_step hgo h1 h3 h4 hb (ih hb)).1

/-- C21 (monitor state invariant): for `buffer_len >= 1`, on every reachable monitor a call
of `go_on` on an observation of the monitored size returns, and afterwards the number of
stored smoothed positions equals the number of stored smoothed slopes equals `len`,
`len <= buffer_len`, the consecutive-pass counter is `<= len`, `len` has not decreased
(it grows by at most one), and a history that was full (`len = buffer_len`) is still
full.  A freshly constructed monitor has `len = 0`, empty deques and the counter at 0. -/
theorem state_invariant (n : Nat) (m : DoubleExpSmoothSlopeCheck K) (e : Vec K)
    (hm : Reachable n m) (he : e.length = n) (hb : 1 ≤ m.buffer_len) :
    (m.ds.length = m.len ∧ m.db.length = m.len ∧ m.len ≤ m.buffer_len ∧
      m.stop_cnt ≤ m.len) ∧
    ∃ (r : Bool) (m' : DoubleExpSmoothSlopeCheck K), m.go_on e = some (r, m') ∧
      m'.buffer_len = m.buffer_len ∧
      m'.ds.length = m'.len ∧ m'.db.length = m'.len ∧ m'.len ≤ m'.buffer_len ∧
      m'.stop_cnt ≤ m'.len ∧ m'.stop_cnt ≤ m'.buffer_len ∧
      m.len ≤ m'.len ∧ m'.len ≤ m.len + 1 ∧
      (m.len = m.buffer_len → m'.len = m'.buffer_len) := by
  obtain ⟨r, m', hgo, -⟩ := go_on_defined hm.sizesOK he
  have hm' : Reachable n m' := Reachable.call m m' e r hm he hgo
  have hbuf : m'.buffer_len = m.buffer_len := (go_on_result hgo).1
  have hb' : 1 ≤ m'.buffer_len := by rw [hbuf]; exact hb
  have key : ∀ q : DoubleExpSmoothSlopeCheck K, Reachable n q → 1 ≤ q.buffer_len →
      q.ds.length = q.len ∧ q.db.length = q.len ∧ q.len ≤ q.buffer_len ∧
        q.stop_cnt ≤ q.len := by
    intro q hq hqb
    obtain ⟨h1, -, h3, h4, h5⟩ := hq.counts
    have hle := h3 hqb
    have h1x : q.len = q.ds.length := by rw [h1, Nat.mod_eq_of_lt (by omega)]
    exact ⟨h1x.symm, by omega, by omega, hq.cnt_le hqb⟩
  obtain ⟨h1, -, h3, h4, -⟩ := hm.counts
  obtain ⟨-, s2, s3, s4, -⟩ := go_on_len_step hgo h1 h3 h4 hb (hm.cnt_le hb)
  obtain ⟨k1, k2, k3, k4⟩ := key m' hm' hb'
  refine ⟨key m hm hb, r, m', hgo, hbuf, k1, k2, k3, k4, by omega, s2, s3, ?_⟩
  intro hfull
  rw [hbuf]
  exact s4 hfull

/-- Witness for C21: a smoothing call on a reachable monitor whose history
(`buffer_len = 1`) is full. -/
theorem state_invariant_witness :
    Reachable 1 (flatState ([1] : Vec ℚ) (4/5) (11/20) 1 0 [0] 2) ∧
    ([1/2] : Vec ℚ).length = 1 ∧
    1 ≤ (flatState ([1] : Vec ℚ) (4/5) (11/20) 1 0 [0] 2).buffer_len ∧
    ∃ (r : Bool) (m' : DoubleExpSmoothSlopeCheck ℚ),
      (flatState ([1] : Vec ℚ) (4/5) (11/20) 1 0 [0] 2).go_on [1/2] = some (r, m') ∧
      m'.buffer_len = (flatState ([1] : Vec ℚ) (4/5) (11/20) 1 0 [0] 2).buffer_len ∧
      m'.ds.length = m'.len ∧ m'.db.length = m'.len ∧ m'.len ≤ m'.buffer_len ∧
      m'.stop_cnt ≤ m'.len ∧ m'.stop_cnt ≤ m'.buffer_len ∧
      (flatState ([1] : Vec ℚ) (4/5) (11/20) 1 0 [0] 2).len ≤ m'.len ∧
      m'.len ≤ (flatState ([1] : Vec ℚ) (4/5) (11/20) 1 0 [0] 2).len + 1 ∧
      ((flatState ([1] : Vec ℚ) (4/5) (11/20) 1 0 [0] 2).len
          = (flatState ([1] : Vec ℚ) (4/5) (11/20) 1 0 [0] 2).buffer_len →
        m'.len = m'.buffer_len) :=
  have hr : Reachable 1 (flatState ([1] : Vec ℚ) (4/5) (11/20) 1 0 [0] 2) :=
    reachable_flatState ([1] : Vec ℚ) (4/5) (11/20) 1 0 [0] (by decide) (by decide)
      (by decide) (by simp) rfl (by simp) 2 (by decide) (by decide)
  ⟨hr, rfl, by decide, (state_invariant 1 _ [1/2] hr rfl (by decide)).2⟩

end DoubleExpSmoothSlopeCheck

namespace DoubleExpSmoothSlopeCheck

variable {K : Type} [LinearOrderedField K]

theorem all_below_iff (b t : Vec K) (h : b.length = t.length) :
    (List.zipWith (fun v t => decide (|v| < t)) b t).all id = true ↔
      ∀ i : Nat, i < b.length → |b.getD i 0| < t.getD i 0 := by
  induction b generalizing t with
  | nil => simp
  | cons a b ih =>
    cases t with
    | nil => simp at h
    | cons u t =>
      have hl : b.length = t.length := by simpa using h
      simp only [List.zipWith_cons_cons, List.all_cons, id, Bool.and_eq_true,
        decide_eq_true_eq, ih t hl, List.length_cons]
      constructor
      · rintro ⟨h0, hr⟩ i hi
        cases i with
        | zero => simpa using h0
        | succ i => simpa using hr i (by omega)
      · intro hall
        refine ⟨by simpa using hall 0 (by omega), fun i hi => ?_⟩
        simpa using hall (i + 1) (by omega)

theorem check_all_iff {m : DoubleExpSmoothSlopeCheck K} {b : Vec K} {pass : Bool}
    (h : m.check_all b = some pass) :
    b.length = m.thresh.length ∧
      (pass = true ↔ ∀ i : Nat, i < b.length → |b.getD i 0| < m.thresh.getD i 0) := by
  unfold check_all at h
  split at h
  · next hl =>
    simp only [Option.some.injEq] at h
    rw [← h]
    exact ⟨hl, all_below_iff b m.thresh hl⟩
  · simp at h

/-- C22 (a failing slope always continues): for `buffer_len >= 1`, every call of `go_on`
that appends a smoothed slope `b` (every call after the first observation) evaluates
`check_all` on `b`, which holds exactly when every component of `b` is strictly below the
corresponding threshold component in absolute value.  If the test fails, the call leaves
the consecutive-pass counter at 0 and returns `true`.  If it holds, the counter is
incremented (`c = stop_cnt + 1` in `size_t`) and only then, when the history was full and
`c > buffer_len`, decremented by the eviction adjustment. -/
theorem failing_slope_continues (n : Nat) (m : DoubleExpSmoothSlopeCheck K) (e : Vec K)
    (hm : Reachable n m) (he : e.length = n) (hb : 1 ≤ m.buffer_len)
    (hx : m.x0.length ≠ 0) :
    ∃ (r : Bool) (m' : DoubleExpSmoothSlopeCheck K) (b : Vec K) (pass : Bool),
      m.go_on e = some (r, m') ∧ m'.db.getLast? = some b ∧ b.length = n ∧
      m.check_all b = some pass ∧
      (pass = true ↔ ∀ i : Nat, i < n → |b.getD i 0| < m.thresh.getD i 0) ∧
      (pass = false → m'.stop_cnt = 0 ∧ r = true) ∧
      (pass = true →
        m'.stop_cnt =
          if m.len = m.buffer_len ∧ (m.stop_cnt + 1) % SIZE_MOD > m.buffer_len then
            (m.stop_cnt + 1) % SIZE_MOD - 1
          else (m.stop_cnt + 1) % SIZE_MOD) := by
  obtain ⟨r, m', hgo, -⟩ := go_on_defined hm.sizesOK he
  obtain ⟨hbuf, -, -, -, -, hr⟩ := go_on_result hgo
  obtain ⟨h1, h2, h3, h4, h5⟩ := hm.counts
  by_cases hlen : m.len = 0
  · obtain ⟨d, pass, -, hp, hdb, hc, hrt⟩ := go_on_seed_cnt hgo hlen hx
    obtain ⟨hl, hiff⟩ := check_all_iff hp
    have hn : d.length = n := hl.trans hm.sizesOK.thresh_len
    rw [hn] at hiff
    refine ⟨r, m', d, pass, hgo, by rw [hdb]; exact List.getLast?_concat _, hn, hp, hiff,
      ?_, ?_⟩
    · intro hf
      rw [hc, hf]
      exact ⟨rfl, hrt⟩
    · intro ht
      rw [hc, ht]
      have hne : ¬ (m.len = m.buffer_len ∧ (m.stop_cnt + 1) % SIZE_MOD > m.buffer_len) := by
        rintro ⟨h, -⟩
        omega
      rw [if_neg hne]
      rfl
  · have hds : m.ds ≠ [] := by
      intro h0
      rw [h0] at h1
      exact hlen h1
    have hdb : m.db ≠ [] := by
      intro h0
      rw [h0] at h5
      exact hds (List.length_eq_zero.mp h5.symm)
    obtain ⟨b, pass, hp, c⟩ := go_on_smooth_cnt hgo hlen
    obtain ⟨hl, hiff⟩ := check_all_iff hp
    have hn : b.length = n := hl.trans hm.sizesOK.thresh_len
    rw [hn] at hiff
    have hlast : m'.db.getLast? = some b := by
      rcases c with ⟨-, a2, -⟩ | ⟨-, a2, -⟩
      · rw [a2]; exact List.getLast?_concat _
      · rw [a2]; exact getLast_tail_concat _ _ hdb
    refine ⟨r, m', b, pass, hgo, hlast, hn, hp, hiff, ?_, ?_⟩
    · intro hf
      have h0 : m'.stop_cnt = 0 := by
        rcases c with ⟨-, -, c1⟩ | ⟨-, -, c1⟩
        · rw [c1, hf]; rfl
        · rw [c1, hf]
          simp [bump]
      refine ⟨h0, ?_⟩
      rw [hr hlen, h0, hbuf]
      have : (0 != m.buffer_len) = true := by
        simp only [bne_iff_ne, ne_eq]
        omega
      rw [this]
      rfl
    · intro ht
      rcases c with ⟨hne, -, c1⟩ | ⟨heq, -, c1⟩
      · rw [c1, ht]
        have hno : ¬ (m.len = m.buffer_len ∧ (m.stop_cnt + 1) % SIZE_MOD > m.buffer_len) :=
          fun h => hne h.1
        rw [if_neg hno]
        rfl
      · rw [c1, ht]
        simp only [bump, if_true, heq, true_and]

/-- Witness for C22: a smoothing call on a reachable monitor that has seen the same
observation twice. -/
theorem failing_slope_continues_witness :
    Reachable 1 (flatState ([1] : Vec ℚ) (4/5) (11/20) 1 0 [0] 2) ∧
    ([5] : Vec ℚ).length = 1 ∧
    1 ≤ (flatState ([1] : Vec ℚ) (4/5) (11/20) 1 0 [0] 2).buffer_len ∧
    (flatState ([1] : Vec ℚ) (4/5) (11/20) 1 0 [0] 2).x0.length ≠ 0 ∧
    ∃ (r : Bool) (m' : DoubleExpSmoothSlopeCheck ℚ) (b : Vec ℚ) (pass : Bool),
      (flatState ([1] : Vec ℚ) (4/5) (11/20) 1 0 [0] 2).go_on [5] = some (r, m') ∧
      m'.db.getLast? = some b ∧ b.length = 1 ∧
      (flatState ([1] : Vec ℚ) (4/5) (11/20) 1 0 [0] 2).check_all b = some pass ∧
      (pass = true ↔ ∀ i : Nat, i < 1 →
        |b.getD i 0| < (flatState ([1] : Vec ℚ) (4/5) (11/20) 1 0 [0] 2).thresh.getD i 0) ∧
      (pass = false → m'.stop_cnt = 0 ∧ r = true) ∧
      (pass = true →
        m'.stop_cnt =
          if (flatState ([1] : Vec ℚ) (4/5) (11/20) 1 0 [0] 2).len
              = (flatState ([1] : Vec ℚ) (4/5) (11/20) 1 0 [0] 2).buffer_len ∧
            ((flatState ([1] : Vec ℚ) (4/5) (11/20) 1 0 [0] 2).stop_cnt + 1) % SIZE_MOD
              > (flatState ([1] : Vec ℚ) (4/5) (11/20) 1 0 [0] 2).buffer_len then
            ((flatState ([1] : Vec ℚ) (4/5) (11/20) 1 0 [0] 2).stop_cnt + 1) % SIZE_MOD - 1
          else ((flatState ([1] : Vec ℚ) (4/5) (11/20) 1 0 [0] 2).stop_cnt + 1) % SIZE_MOD) :=
  have hr : Reachable 1 (flatState ([1] : Vec ℚ) (4/5) (11/20) 1 0 [0] 2) :=
    reachable_flatState ([1] : Vec ℚ) (4/5) (11/20) 1 0 [0] (by decide) (by decide)
      (by decide) (by simp) rfl (by simp) 2 (by decide) (by decide)
  ⟨hr, rfl, by decide, by decide,
    failing_slope_continues 1 _ [5] hr rfl (by decide) (by decide)⟩

/-- C23 (history seeding): on a freshly constructed monitor whose threshold vector has
the size of the observations, the calls `go_on(e1)` and `go_on(e2)` for non-empty vectors
of equal length both return `true`; afterwards `last_s` reports `e2`, `last_b` reports
`e2 - e1`, the history length is 1, and the consecutive-pass counter is 1 if every
component of `e2 - e1` is strictly below its threshold in absolute value and 0
otherwise. -/
theorem history_seeding (thresh : Vec K) (alpha beta : K) (buffer_len min_iter : Nat)
    (e1 e2 v : Vec K) (h1 : e1 ≠ []) (h2 : e2.length = e1.length)
    (ht : thresh.length = e1.length) :
    ∃ (m1 m2 : DoubleExpSmoothSlopeCheck K) (d : Vec K),
      (init thresh alpha beta buffer_len min_iter).go_on e1 = some (true, m1) ∧
      m1.go_on e2 = some (true, m2) ∧
      m2.last_s v = some (true, e2) ∧ m2.last_b v = some (true, d) ∧
      d.length = e1.length ∧ (∀ i : Nat, i < e1.length → d.getD i 0 = e2.getD i 0 - e1.getD i 0) ∧
      m2.len = 1 ∧ m2.ds = [e2] ∧ m2.db = [d] ∧
      m2.stop_cnt =
        (if ∀ i : Nat, i < e1.length → |d.getD i 0| < thresh.getD i 0 then 1 else 0) := by
  have hM : (0 + 1) % SIZE_MOD = 1 := Nat.mod_eq_of_lt (by unfold SIZE_MOD; omega)
  have hx : ¬ e1.length = 0 := fun h => h1 (List.length_eq_zero.mp h)
  have hd : vsub e2 e1 = some (List.zipWith (fun x y => x - y) e2 e1) :=
    cwise_eq_some _ _ _ h2
  have hdl : (List.zipWith (fun x y => x - y) e2 e1).length = e1.length := by simp [h2]
  obtain ⟨m1, hm1⟩ : ∃ m1 : DoubleExpSmoothSlopeCheck K, m1 =
      { stop_cnt := 0, alpha := alpha, beta := beta, thresh := thresh, x0 := e1,
        buffer_len := buffer_len, min_iter := min_iter, iter_count := 1, len := 0,
        ds := [], db := [] } := ⟨_, rfl⟩
  have hgo1 : (init thresh alpha beta buffer_len min_iter).go_on e1 = some (true, m1) := by
    rw [hm1]
    simp [go_on, init, hM]
  obtain ⟨pass, hp⟩ : ∃ pass, m1.check_all (List.zipWith (fun x y => x - y) e2 e1)
      = some pass :=
    ⟨_, check_all_eq_some _ _ (by rw [hdl, hm1]; exact ht.symm)⟩
  obtain ⟨-, hiff⟩ := check_all_iff hp
  have hth : m1.thresh = thresh := by rw [hm1]
  rw [hdl, hth] at hiff
  have hlen1 : m1.len = 0 := by rw [hm1]
  have hx1 : m1.x0.length ≠ 0 := by rw [hm1]; exact hx
  have hx0 : m1.x0 = e1 := by rw [hm1]
  obtain ⟨r, m2, hgo2, -⟩ : ∃ r m2, m1.go_on e2 = some (r, m2) ∧ True := by
    unfold go_on
    rw [if_pos hlen1, if_neg hx1, hx0, hd, Option.some_bind, hp, Option.some_bind]
    exact ⟨_, _, rfl, trivial⟩
  obtain ⟨d0, hd0, a1, a2, a3, -⟩ := go_on_seed hgo2 hlen1 hx1
  obtain ⟨d1, pass1, hd1, hp1, -, c1, hr⟩ := go_on_seed_cnt hgo2 hlen1 hx1
  rw [hx0, hd] at hd0 hd1
  have ed0 : d0 = List.zipWith (fun x y => x - y) e2 e1 := (Option.some.inj hd0).symm
  have ed1 : d1 = List.zipWith (fun x y => x - y) e2 e1 := (Option.some.inj hd1).symm
  subst ed0
  rw [ed1, hp] at hp1
  have epass : pass1 = pass := (Option.some.inj hp1).symm
  rw [epass] at c1
  have hds1 : m1.ds = [] := by rw [hm1]
  have hdb1 : m1.db = [] := by rw [hm1]
  have hcnt1 : m1.stop_cnt = 0 := by rw [hm1]
  rw [hds1] at a1
  rw [hdb1] at a2
  rw [hlen1, hM] at a3
  rw [hr] at hgo2
  have hne : m2.len ≠ 0 := by rw [a3]; exact Nat.one_ne_zero
  refine ⟨m1, m2, List.zipWith (fun x y => x - y) e2 e1, hgo1, hgo2, ?_, ?_, hdl, ?_, a3,
    a1, a2, ?_⟩
  · rw [last_s, if_neg hne, a1]
    rfl
  · rw [last_b, if_neg hne, a2]
    rfl
  · intro i hi
    exact cwise_getD hd i (by omega)
  · rw [c1]
    unfold bump
    rw [hcnt1, hM]
    by_cases hpass : pass = true
    · rw [if_pos hpass, if_pos (hiff.mp hpass)]
    · rw [if_neg hpass, if_neg (fun h => hpass (hiff.mpr h))]

/-- Witness for C23: the observations `[0]` and `[3]` with threshold `[1]`. -/
theorem history_seeding_witness :
    ([0] : Vec ℚ) ≠ [] ∧ ([3] : Vec ℚ).length = ([0] : Vec ℚ).length ∧
    ([1] : Vec ℚ).length = ([0] : Vec ℚ).length ∧
    ∃ (m1 m2 : DoubleExpSmoothSlopeCheck ℚ) (d : Vec ℚ),
      (init ([1] : Vec ℚ) (4/5) (11/20) 4 5).go_on [0] = some (true, m1) ∧
      m1.go_on [3] = some (true, m2) ∧
      m2.last_s [] = some (true, [3]) ∧ m2.last_b [] = some (true, d) ∧
      d.length = ([0] : Vec ℚ).length ∧
      (∀ i : Nat, i < ([0] : Vec ℚ).length →
        d.getD i 0 = ([3] : Vec ℚ).getD i 0 - ([0] : Vec ℚ).getD i 0) ∧
      m2.len = 1 ∧ m2.ds = [[3]] ∧ m2.db = [d] ∧
      m2.stop_cnt =
        (if ∀ i : Nat, i < ([0] : Vec ℚ).length → |d.getD i 0| < ([1] : Vec ℚ).getD i 0
          then 1 else 0) :=
  ⟨by simp, rfl, rfl, history_seeding ([1] : Vec ℚ) (4/5) (11/20) 4 5 [0] [3] [] (by simp)
    rfl rfl⟩

end DoubleExpSmoothSlopeCheck

namespace DoubleExpSmoothSlopeCheck

variable {K : Type} [LinearOrderedField K]

theorem go_on_false {m m' : DoubleExpSmoothSlopeCheck K} {e : Vec K}
    (h : m.go_on e = some (false, m')) :
    m.len ≠ 0 ∧ m'.stop_cnt = m'.buffer_len ∧ m'.min_iter ≤ m'.iter_count := by
  obtain ⟨-, -, -, -, h0, h1⟩ := go_on_result h
  have hlen : m.len ≠ 0 := by
    intro hz
    exact Bool.noConfusion (h0 hz)
  have hr := h1 hlen
  have hs : ¬ m'.stop_cnt ≠ m'.buffer_len := by
    intro hne
    have : (m'.stop_cnt != m'.buffer_len) = true := by simpa using hne
    rw [this] at hr
    simp at hr
  have hi : ¬ m'.iter_count < m'.min_iter := by
    intro hlt
    have : decide (m'.iter_count < m'.min_iter) = true := by simpa using hlt
    rw [this] at hr
    simp at hr
  exact ⟨hlen, by omega, by omega⟩

theorem feed_calls {n : Nat} :
    ∀ (es : List (Vec K)) (m : DoubleExpSmoothSlopeCheck K) (k : Nat),
      Reachable n m → (∀ e ∈ es, e.length = n) → 1 ≤ m.buffer_len →
      m.len ≤ k - 1 → (k = 0 → m.x0.length = 0) →
      ∃ rs m', feed m es = some (rs, m') ∧ rs.length = es.length ∧
        ∀ i : Nat, rs[i]? = some false → 2 ≤ k + i ∧ m.buffer_len ≤ k + i := by
  intro es
  induction es with
  | nil =>
    intro m k _ _ _ _ _
    exact ⟨[], m, rfl, rfl, fun i h => by simp at h⟩
  | cons e es ih =>
    intro m k hm hes hb hlen hx
    have he : e.length = n := hes e (List.mem_cons_self _ _)
    obtain ⟨r1, m1, hgo, -⟩ := go_on_defined hm.sizesOK he
    have hm1 : Reachable n m1 := Reachable.call m m1 e r1 hm he hgo
    have hbuf : m1.buffer_len = m.buffer_len := (go_on_result hgo).1
    obtain ⟨h1, -, h3, h4, -⟩ := hm.counts
    obtain ⟨s1, s2, s3, -, s5⟩ := go_on_len_step hgo h1 h3 h4 hb (hm.cnt_le hb)
    have hlen1 : m1.len ≤ (k + 1) - 1 := by
      rcases Nat.eq_zero_or_pos k with hk | hk
      · subst hk
        have hz : m.len = 0 := by omega
        have := s5 hz (hx rfl)
        omega
      · omega
    obtain ⟨rs, m', hfeed, hlenrs, hrs⟩ := ih m1 (k + 1) hm1
      (fun e' he' => hes e' (List.mem_cons_of_mem _ he')) (by rw [hbuf]; exact hb) hlen1
      (fun h => absurd h (Nat.succ_ne_zero k))
    refine ⟨r1 :: rs, m', ?_, by simp [hlenrs], ?_⟩
    · rw [feed, hgo, Option.some_bind]
      simp only [hfeed, Option.some_bind]
    · intro i hi
      cases i with
      | zero =>
        simp only [List.getElem?_cons_zero, Option.some.injEq] at hi
        subst hi
        obtain ⟨hne, hstop, -⟩ := go_on_false hgo
        rw [hbuf] at hstop
        constructor <;> omega
      | succ i =>
        simp only [List.getElem?_cons_succ] at hi
        obtain ⟨a, b⟩ := hrs i hi
        rw [hbuf] at b
        constructor <;> omega

/-- C27 (earliest possible stop): for a monitor with `buffer_len >= 1`, any thresholds,
`min_iter` and observations of the monitored size, every call of `go_on` in a run from
the freshly constructed monitor returns, the `n`-th call returns `true` whenever
`n <= max(2, buffer_len)`, and a call that returns `false` has been preceded by at least
`buffer_len` calls, each but the first of which evaluated one smoothed slope (so it is at
best call number `buffer_len + 1`, and never one of the first two). -/
theorem earliest_stop (thresh : Vec K) (alpha beta : K) (buffer_len min_iter : Nat)
    (es : List (Vec K)) (hb : 1 ≤ buffer_len) (hM : buffer_len < SIZE_MOD)
    (hmin : min_iter < SIZE_MOD) (hes : ∀ e ∈ es, e.length = thresh.length) :
    ∃ (rs : List Bool) (m' : DoubleExpSmoothSlopeCheck K),
      feed (init thresh alpha beta buffer_len min_iter) es = some (rs, m') ∧
      rs.length = es.length ∧
      (∀ i : Nat, i < es.length → i + 1 ≤ max 2 buffer_len → rs[i]? = some true) ∧
      (∀ i : Nat, rs[i]? = some false → 2 ≤ i ∧ buffer_len ≤ i) := by
  have hfresh : Reachable thresh.length (init thresh alpha beta buffer_len min_iter) :=
    Reachable.fresh thresh alpha beta buffer_len min_iter rfl hM hmin
  obtain ⟨rs, m', hfeed, hlen, hrs⟩ := feed_calls es _ 0 hfresh hes hb (Nat.zero_le _)
    (fun _ => rfl)
  have hfalse : ∀ i : Nat, rs[i]? = some false → 2 ≤ i ∧ buffer_len ≤ i := by
    intro i hi
    have := hrs i hi
    simpa using this
  refine ⟨rs, m', hfeed, hlen, ?_, hfalse⟩
  intro i hi hmax
  have hlt : i < rs.length := by rw [hlen]; exact hi
  rw [List.getElem?_eq_getElem hlt]
  cases hv : rs[i] with
  | true => rfl
  | false =>
    have h2 : rs[i]? = some false := by rw [List.getElem?_eq_getElem hlt, hv]
    obtain ⟨a, b⟩ := hfalse i h2
    exfalso
    rcases le_max_iff.mp hmax with h | h <;> omega

/-- Witness for C27: three observations on the default configuration (`buffer_len = 4`,
`min_iter = 5`). -/
theorem earliest_stop_witness :
    1 ≤ 4 ∧ 4 < SIZE_MOD ∧ 5 < SIZE_MOD ∧
    (∀ e ∈ ([[0], [3], [3]] : List (Vec ℚ)), e.length = ([1/10] : Vec ℚ).length) ∧
    ∃ (rs : List Bool) (m' : DoubleExpSmoothSlopeCheck ℚ),
      feed (init ([1/10] : Vec ℚ) (4/5) (11/20) 4 5) [[0], [3], [3]] = some (rs, m') ∧
      rs.length = ([[0], [3], [3]] : List (Vec ℚ)).length ∧
      (∀ i : Nat, i < ([[0], [3], [3]] : List (Vec ℚ)).length → i + 1 ≤ max 2 4 →
        rs[i]? = some true) ∧
      (∀ i : Nat, rs[i]? = some false → 2 ≤ i ∧ 4 ≤ i) :=
  have hes : ∀ e ∈ ([[0], [3], [3]] : List (Vec ℚ)), e.length = ([1/10] : Vec ℚ).length := by
    intro e he
    simp only [List.mem_cons, List.mem_singleton, List.not_mem_nil, or_false] at he
    rcases he with h | h | h <;> rw [h] <;> rfl
  ⟨by decide, by decide, by decide, hes,
    earliest_stop ([1/10] : Vec ℚ) (4/5) (11/20) 4 5 [[0], [3], [3]] (by decide) (by decide)
      (by decide) hes⟩

/-- C28 (the stop signal is stable while slopes keep passing): for `buffer_len >= 1`
(with `buffer_len + 1` and the iteration count within `size_t`), if a call of `go_on` on
a reachable monitor returns `false` and the next call appends a smoothed slope `b` whose
components are all strictly below threshold in absolute value, then that next call
returns `false` too and the consecutive-pass counter is again equal to `buffer_len`. -/
theorem stop_signal_stable (n : Nat) (m m1 m2 : DoubleExpSmoothSlopeCheck K)
    (e1 e2 b : Vec K) (r2 : Bool) (hm : Reachable n m) (he1 : e1.length = n)
    (hb : 1 ≤ m.buffer_len) (hM : m.buffer_len + 1 < SIZE_MOD)
    (hit : m1.iter_count + 1 < SIZE_MOD)
    (h1 : m.go_on e1 = some (false, m1)) (h2 : m1.go_on e2 = some (r2, m2))
    (hlast : m2.db.getLast? = some b)
    (hpass : ∀ i : Nat, i < b.length → |b.getD i 0| < m1.thresh.getD i 0) :
    r2 = false ∧ m1.stop_cnt = m1.buffer_len ∧ m2.stop_cnt = m2.buffer_len := by
  have hm1 : Reachable n m1 := Reachable.call m m1 e1 false hm he1 h1
  obtain ⟨hbuf1, -, -, -, -, -⟩ := go_on_result h1
  obtain ⟨hbuf2, hmin2, -, hit2, -, hr2⟩ := go_on_result h2
  obtain ⟨-, hstop1, hmin1⟩ := go_on_false h1
  have hb1 : 1 ≤ m1.buffer_len := by rw [hbuf1]; exact hb
  obtain ⟨c1, -, c3, c4, c5⟩ := hm1.counts
  have hcnt := hm1.cnt_le hb1
  have hle := c3 hb1
  have hlen1 : m1.len = m1.ds.length := by rw [c1, Nat.mod_eq_of_lt (by omega)]
  have hfull : m1.len = m1.buffer_len := by omega
  have hne : m1.len ≠ 0 := by omega
  have hdb : m1.db ≠ [] := by
    intro h0
    rw [h0] at c5
    have : m1.ds.length = 0 := by simpa using c5.symm
    omega
  obtain ⟨b', pass, hp, c⟩ := go_on_smooth_cnt h2 hne
  rcases c with ⟨hnf, -, -⟩ | ⟨-, a2, a3⟩
  · exact absurd hfull hnf
  · have hb' : m2.db.getLast? = some b' := by
      rw [a2]
      exact getLast_tail_concat _ _ hdb
    rw [hlast] at hb'
    have eb : b = b' := Option.some.inj hb'
    subst eb
    obtain ⟨-, hiff⟩ := check_all_iff hp
    have hpt : pass = true := hiff.mpr hpass
    have hbump : m1.bump pass = m1.buffer_len + 1 := by
      rw [hpt]
      unfold bump
      rw [if_pos rfl, hstop1, Nat.mod_eq_of_lt (by rw [hbuf1]; exact hM)]
    rw [hbump, if_pos (Nat.lt_succ_self _), Nat.add_sub_cancel] at a3
    have hs2 : m2.stop_cnt = m2.buffer_len := by rw [a3, hbuf2]
    refine ⟨?_, hstop1, hs2⟩
    rw [hr2 hne, hs2, hit2, hmin2, Nat.mod_eq_of_lt hit]
    have hnlt : ¬ m1.iter_count + 1 < m1.min_iter := by omega
    simp [hnlt]

/-- Witness for C28: with `buffer_len = 1`, `min_iter = 0` and the constant observation
`[0]`, the third call returns `false` and so does the fourth. -/
theorem stop_signal_stable_witness :
    Reachable 1 (flatState ([1] : Vec ℚ) (4/5) (11/20) 1 0 [0] 2) ∧
    ([0] : Vec ℚ).length = 1 ∧
    1 ≤ (flatState ([1] : Vec ℚ) (4/5) (11/20) 1 0 [0] 2).buffer_len ∧
    (flatState ([1] : Vec ℚ) (4/5) (11/20) 1 0 [0] 2).buffer_len + 1 < SIZE_MOD ∧
    (flatState ([1] : Vec ℚ) (4/5) (11/20) 1 0 [0] 3).iter_count + 1 < SIZE_MOD ∧
    (flatState ([1] : Vec ℚ) (4/5) (11/20) 1 0 [0] 2).go_on [0]
      = some (false, flatState ([1] : Vec ℚ) (4/5) (11/20) 1 0 [0] 3) ∧
    (flatState ([1] : Vec ℚ) (4/5) (11/20) 1 0 [0] 3).go_on [0]
      = some (false, flatState ([1] : Vec ℚ) (4/5) (11/20) 1 0 [0] 4) ∧
    (flatState ([1] : Vec ℚ) (4/5) (11/20) 1 0 [0] 4).db.getLast? = some [0] ∧
    (false = false ∧
      (flatState ([1] : Vec ℚ) (4/5) (11/20) 1 0 [0] 3).stop_cnt
        = (flatState ([1] : Vec ℚ) (4/5) (11/20) 1 0 [0] 3).buffer_len ∧
      (flatState ([1] : Vec ℚ) (4/5) (11/20) 1 0 [0] 4).stop_cnt
        = (flatState ([1] : Vec ℚ) (4/5) (11/20) 1 0 [0] 4).buffer_len) :=
  have hr : Reachable 1 (flatState ([1] : Vec ℚ) (4/5) (11/20) 1 0 [0] 2) :=
    reachable_flatState ([1] : Vec ℚ) (4/5) (11/20) 1 0 [0] (by decide) (by decide)
      (by decide) (by simp) rfl (by simp) 2 (by decide) (by decide)
  have h1 : (flatState ([1] : Vec ℚ) (4/5) (11/20) 1 0 [0] 2).go_on [0]
      = some (false, flatState ([1] : Vec ℚ) (4/5) (11/20) 1 0 [0] 3) :=
    go_on_flatState ([1] : Vec ℚ) (4/5) (11/20) 1 0 [0] 2 (by decide) (by decide)
      (by decide) (by decide) (by simp) rfl (by simp)
  have h2 : (flatState ([1] : Vec ℚ) (4/5) (11/20) 1 0 [0] 3).go_on [0]
      = some (false, flatState ([1] : Vec ℚ) (4/5) (11/20) 1 0 [0] 4) :=
    go_on_flatState ([1] : Vec ℚ) (4/5) (11/20) 1 0 [0] 3 (by decide) (by decide)
      (by decide) (by decide) (by simp) rfl (by simp)
  have hlast : (flatState ([1] : Vec ℚ) (4/5) (11/20) 1 0 [0] 4).db.getLast? = some [0] := rfl
  have hpass : ∀ i : Nat, i < ([0] : Vec ℚ).length →
      |([0] : Vec ℚ).getD i 0|
        < (flatState ([1] : Vec ℚ) (4/5) (11/20) 1 0 [0] 3).thresh.getD i 0 := by
    intro i hi
    have hi0 : i = 0 := by simpa using hi
    subst hi0
    simp [flatState]
  ⟨hr, rfl, by decide, by decide, by decide, h1, h2, hlast,
    stop_signal_stable 1 _ _ _ [0] [0] [0] false hr rfl (by decide) (by decide) (by decide)
      h1 h2 hlast hpass⟩

end DoubleExpSmoothSlopeCheck

section JacobianCodecProps

variable {K : Type} [LinearOrderedField K]

/-- C25 (Jacobian consistency with the codec): for every 12-vector `theta`, point `p` and
centre `c`, `Affine::set_parameter_vector(theta)` succeeds, and the product of the 3x12
matrix `get_jacobian_wrt_params(p)` with `theta` equals the product of the stored 3x4
matrix (the first three rows of the decoded transform) with `[p - c, 1]`; the Jacobian
itself does not depend on the stored matrix. -/
theorem jacobian_codec (a : Affine K) (theta : Vec K) (p : Fin 3 → K)
    (h : theta.length = 12) :
    ∃ a', a.set_parameter_vector theta = some a' ∧ a'.centre = a.centre ∧
      a'.get_jacobian_wrt_params p = a.get_jacobian_wrt_params p ∧
      a'.get_jacobian_vector_wrt_params p
        = ![p 0 - a.centre 0, p 1 - a.centre 1, p 2 - a.centre 2, 1] ∧
      (a'.get_jacobian_wrt_params p).mulVec (fun i : Fin 12 => theta.getD i.val 0)
        = a'.trafo.mulVec (a'.get_jacobian_vector_wrt_params p) := by
  obtain ⟨p0, p1, p2, p3, p4, p5, p6, p7, p8, p9, p10, p11, rfl⟩ := length_twelve theta h
  refine ⟨{ a with trafo := fun r c =>
    [p0, p1, p2, p3, p4, p5, p6, p7, p8, p9, p10, p11].getD (4 * r.val + c.val) 0 },
    by simp [Affine.set_parameter_vector], rfl, rfl, rfl, ?_⟩
  rw [jacobian_eq]
  ext r
  fin_cases r <;>
    simp [Matrix.mulVec, Matrix.dotProduct, Fin.sum_univ_succ,
      Affine.get_jacobian_vector_wrt_params] <;>
    ring

/-- Witness for C25: the parameter vector `[1, ..., 12]`, the point `(1, 2, 3)` and the
centre `(1, 1, 1)`. -/
theorem jacobian_codec_witness :
    ([1, 2, 3, 4, 5, 6, 7, 8, 9, 10, 11, 12] : Vec ℚ).length = 12 ∧
    ∃ a', ({ trafo := 0, centre := ![1, 1, 1] } : Affine ℚ).set_parameter_vector
        [1, 2, 3, 4, 5, 6, 7, 8, 9, 10, 11, 12] = some a' ∧
      a'.centre = ({ trafo := 0, centre := ![1, 1, 1] } : Affine ℚ).centre ∧
      a'.get_jacobian_wrt_params ![1, 2, 3]
        = ({ trafo := 0, centre := ![1, 1, 1] } : Affine ℚ).get_jacobian_wrt_params
            ![1, 2, 3] ∧
      a'.get_jacobian_vector_wrt_params ![1, 2, 3]
        = ![(![1, 2, 3] : Fin 3 → ℚ) 0
              - ({ trafo := 0, centre := ![1, 1, 1] } : Affine ℚ).centre 0,
            (![1, 2, 3] : Fin 3 → ℚ) 1
              - ({ trafo := 0, centre := ![1, 1, 1] } : Affine ℚ).centre 1,
            (![1, 2, 3] : Fin 3 → ℚ) 2
              - ({ trafo := 0, centre := ![1, 1, 1] } : Affine ℚ).centre 2, 1] ∧
      (a'.get_jacobian_wrt_params ![1, 2, 3]).mulVec
          (fun i : Fin 12 =>
            ([1, 2, 3, 4, 5, 6, 7, 8, 9, 10, 11, 12] : Vec ℚ).getD i.val 0)
        = a'.trafo.mulVec (a'.get_jacobian_vector_wrt_params ![1, 2, 3]) :=
  ⟨rfl, jacobian_codec _ _ _ rfl⟩

end JacobianCodecProps

section ScaledProps

variable {K : Type} [LinearOrderedField K]

theorem decode_row3 {p : Vec K} {M : Mat4 K} (h : param_vec2mat p = .ok M) :
    M 3 = ![0, 0, 0, 1] := by
  rcases param_vec2mat_cases p with ⟨hl, -⟩ | ⟨-, he⟩
  · obtain ⟨p0, p1, p2, p3, p4, p5, p6, p7, p8, p9, p10, p11, rfl⟩ := length_twelve p hl
    simp only [param_vec2mat, Except.ok.injEq] at h
    rw [← h]
    rfl
  · rw [he] at h
    exact Except.noConfusion h

theorem decode_scaled {g : Vec K} {G : Mat4 K} (h : param_vec2mat g = .ok G) (t : K) :
    param_vec2mat (scaled g t) = .ok (scaledDelta G t) := by
  rcases param_vec2mat_cases g with ⟨hl, -⟩ | ⟨-, he⟩
  · obtain ⟨p0, p1, p2, p3, p4, p5, p6, p7, p8, p9, p10, p11, rfl⟩ := length_twelve g hl
    simp only [param_vec2mat, Except.ok.injEq] at h
    rw [← h]
    simp only [scaled, List.map_cons, List.map_nil, param_vec2mat]
    congr 1
    ext i j
    fin_cases i <;> fin_cases j <;> simp [scaledDelta]
  · rw [he] at h
    exact Except.noConfusion h

theorem max3_mul (a b c t : K) (ht : 0 ≤ t) : max3 a b c * t = max3 (a * t) (b * t) (c * t) := by
  unfold max3
  rw [max_mul_of_nonneg _ _ ht, max_mul_of_nonneg _ _ ht]

theorem maxAbsBlock33_scaled (G : Mat4 K) (t : K) :
    maxAbsBlock33 (scaledDelta G t) = maxAbsBlock33 G * |t| := by
  have h : ∀ (i j : Fin 4), i ≠ 3 → |scaledDelta G t i j| = |G i j| * |t| := by
    intro i j hi
    simp only [scaledDelta, if_neg hi, abs_mul]
  unfold maxAbsBlock33
  rw [h 0 0 (by decide), h 0 1 (by decide), h 0 2 (by decide), h 1 0 (by decide),
    h 1 1 (by decide), h 1 2 (by decide), h 2 0 (by decide), h 2 1 (by decide),
    h 2 2 (by decide)]
  rw [max3_mul _ _ _ _ (abs_nonneg t), max3_mul _ _ _ _ (abs_nonneg t),
    max3_mul _ _ _ _ (abs_nonneg t), max3_mul _ _ _ _ (abs_nonneg t)]

theorem maxAbsCol3_scaled (G : Mat4 K) (t : K) :
    maxAbsCol3 (scaledDelta G t) = maxAbsCol3 G * |t| := by
  have h : ∀ (i j : Fin 4), i ≠ 3 → |scaledDelta G t i j| = |G i j| * |t| := by
    intro i j hi
    simp only [scaledDelta, if_neg hi, abs_mul]
  unfold maxAbsCol3
  rw [h 0 3 (by decide), h 1 3 (by decide), h 2 3 (by decide),
    max3_mul _ _ _ _ (abs_nonneg t)]

theorem maxAbsCol3_le_iff (M : Mat4 K) (b : K) :
    maxAbsCol3 M ≤ b ↔ ∀ i : Fin 3, |M i.castSucc 3| ≤ b := by
  simp only [maxAbsCol3, max3_le_iff]
  constructor
  · rintro ⟨a0, a1, a2⟩ i
    fin_cases i <;> assumption
  · intro h
    exact ⟨h 0, h 1, h 2⟩

theorem maxAbsCol3_nonneg (M : Mat4 K) : 0 ≤ maxAbsCol3 M :=
  le_trans (abs_nonneg (M 0 3)) ((maxAbsCol3_le_iff M _).mp (le_refl _) 0)

theorem pos_of_scaled_gt {m t c : K} (hm : 0 ≤ m) (hc : 0 < c) (h : m * |t| > c) : 0 < m := by
  rcases hm.lt_or_eq with hpos | h0
  · exact hpos
  · rw [← h0, zero_mul] at h
    exact absurd h (not_lt.mpr hc.le)

/-- C24 (hard re-scale bounds without control points): whenever the loop of the branch
without control points exits, the accepted `Delta` is the decoding of `g * step` for the
step size it yields, every entry of its upper-left 3x3 block is at most 0.1 in absolute
value and every entry of rows 0..2 of its last column is at most 10 in absolute value;
and at every iteration, whatever the step size `t` it is entered with, a hard re-scale
divides by a strictly positive maximum: the block test fails only if the largest absolute
value of the 3x3 block of `G` is positive, the translation test only if that of the
translation column of `G` is. -/
theorem hard_rescale_bounds (X G : Mat4 K) (g : Vec K) (fuel : Nat) (s step : K)
    (Delta : Mat4 K) (hG : param_vec2mat g = .ok G)
    (h : no_cp_loop X G g fuel s = .ok (step, Delta)) :
    param_vec2mat (scaled g step) = .ok Delta ∧
    (∀ i j : Fin 3, |Delta i.castSucc j.castSucc| ≤ 1 / 10) ∧
    (∀ i : Fin 3, |Delta i.castSucc 3| ≤ 10) ∧
    (∀ (t : K) (D : Mat4 K), param_vec2mat (scaled g t) = .ok D →
      (maxAbsBlock33 D > 1 / 10 → 0 < maxAbsBlock33 G) ∧
      (maxAbsCol3 D > 10 → 0 < maxAbsCol3 G)) := by
  obtain ⟨h1, h2, h3, -⟩ := no_cp_loop_ok _ _ _ h
  refine ⟨h1, (maxAbsBlock33_le_iff _ _).mp h2, (maxAbsCol3_le_iff _ _).mp h3, ?_⟩
  intro t D hD
  rw [decode_scaled hG t] at hD
  simp only [Except.ok.injEq] at hD
  rw [← hD, maxAbsBlock33_scaled, maxAbsCol3_scaled]
  exact ⟨pos_of_scaled_gt (maxAbsBlock33_nonneg G) (by norm_num),
    pos_of_scaled_gt (maxAbsCol3_nonneg G) (by norm_num)⟩

end ScaledProps

section ScaledWitness

/-- Witness for C24: the loop of `skew_x` and `skew_g` exits at its first iteration. -/
theorem hard_rescale_bounds_witness :
    param_vec2mat skew_g = .ok skew_Delta ∧
    no_cp_loop skew_X skew_Delta skew_g 1 1 = .ok (1, skew_Delta) ∧
    param_vec2mat (scaled skew_g 1) = .ok skew_Delta ∧
    (∀ i j : Fin 3, |skew_Delta i.castSucc j.castSucc| ≤ 1 / 10) ∧
    (∀ i : Fin 3, |skew_Delta i.castSucc 3| ≤ 10) ∧
    (∀ (t : ℚ) (D : Mat4 ℚ), param_vec2mat (scaled skew_g t) = .ok D →
      (maxAbsBlock33 D > 1 / 10 → 0 < maxAbsBlock33 skew_Delta) ∧
      (maxAbsCol3 D > 10 → 0 < maxAbsCol3 skew_Delta)) :=
  have hloop : no_cp_loop skew_X skew_Delta skew_g 1 1 = .ok (1, skew_Delta) :=
    no_cp_loop_exit skew_X skew_Delta skew_g 0 1 skew_Delta
      (by rw [skew_scaled]; exact skew_decode.1) (by rw [skew_maxAbs.1])
      (by rw [skew_maxAbs.2]; norm_num) (by rw [skew_matA, skew_det.1]; norm_num)
  ⟨skew_decode.1, hloop,
    hard_rescale_bounds skew_X skew_Delta skew_g 1 1 1 skew_Delta skew_decode.1 hloop⟩

end ScaledWitness

section FixedPointProps

variable {K : Type} [LinearOrderedField K]

end FixedPointProps

section FixedPointWitness

end FixedPointWitness

section TerminationProps

variable {K : Type} [LinearOrderedField K]

theorem matA_scaled_zero {X G : Mat4 K} (hX : X 3 = ![0, 0, 0, 1])
    (hG : G 3 = ![0, 0, 0, 1]) : matA X (scaledDelta G 0) = X := by
  have x33 : X 3 3 = 1 := by rw [hX]; rfl
  have hrow : ∀ j : Fin 4, X 3 j = G 3 j := by
    intro j
    rw [hX, hG]
  ext i j
  by_cases hi : i = 3
  · subst hi
    by_cases hj : j = 3
    · subst hj
      simp [matA, set33, x33]
    · simp [matA, set33, scaledDelta, hj, hrow j]
      rw [hG]
      fin_cases j <;> first | rfl | exact absurd rfl hj
  · simp [matA, set33, scaledDelta, hi]

theorem det_matA_pos_near {X G : Mat4 K} (hX : X 3 = ![0, 0, 0, 1])
    (hG : G 3 = ![0, 0, 0, 1]) (hdet : 0 < X.det) :
    ∃ δ : K, 0 < δ ∧ ∀ t : K, |t| < δ → 0 < (matA X (scaledDelta G t)).det := by
  letI : TopologicalSpace K := Preorder.topology K
  haveI : OrderTopology K := ⟨rfl⟩
  have hcont : Continuous fun t : K => (matA X (scaledDelta G t)).det := by
    apply Continuous.matrix_det
    apply continuous_matrix
    intro i j
    by_cases h : i = 3 ∧ j = 3
    · have e : (fun t : K => matA X (scaledDelta G t) i j) = fun _ => 1 := by
        funext t
        simp [matA, set33, h]
      rw [e]
      exact continuous_const
    · by_cases hi : i = 3
      · have e : (fun t : K => matA X (scaledDelta G t) i j) = fun _ => X i j - G i j := by
          funext t
          have hj : j ≠ 3 := fun hj => h ⟨hi, hj⟩
          simp [matA, set33, scaledDelta, hi, hj]
        rw [e]
        exact continuous_const
      · have e : (fun t : K => matA X (scaledDelta G t) i j)
            = fun t => X i j - G i j * t := by
          funext t
          simp [matA, set33, scaledDelta, hi]
        rw [e]
        exact continuous_const.sub (continuous_const.mul continuous_id)
  have h0 : 0 < (matA X (scaledDelta G 0)).det := by
    rw [matA_scaled_zero hX hG]
    exact hdet
  have hev : ∀ᶠ t in nhds (0 : K), 0 < (matA X (scaledDelta G t)).det :=
    hcont.continuousAt.eventually (lt_mem_nhds h0)
  obtain ⟨l, u, ⟨hl, hu⟩, hsub⟩ := mem_nhds_iff_exists_Ioo_subset.mp hev
  refine ⟨min (-l) u, lt_min (neg_pos.mpr hl) hu, fun t ht => ?_⟩
  have h1 : |t| < -l := lt_of_lt_of_le ht (min_le_left _ _)
  have h2 : |t| < u := lt_of_lt_of_le ht (min_le_right _ _)
  have h3 := neg_abs_le t
  have h4 := le_abs_self t
  exact hsub ⟨by linarith, by linarith⟩

theorem no_cp_loop_step {g : Vec K} {G : Mat4 K} (hG : param_vec2mat g = .ok G)
    (X : Mat4 K) (fuel : Nat) (s : K) :
    no_cp_loop X G g (fuel + 1) s =
      if maxAbsBlock33 G * |s| > 1 / 10 then
        no_cp_loop X G g fuel (9 / 100 / maxAbsBlock33 G)
      else if maxAbsCol3 G * |s| > 10 then no_cp_loop X G g fuel (9 / maxAbsCol3 G)
      else if (matA X (scaledDelta G s)).det < 0 then no_cp_loop X G g fuel (s * (9 / 10))
      else .ok (s, scaledDelta G s) := by
  rw [no_cp_loop.eq_2, decode_scaled hG s]
  simp only [maxAbsBlock33_scaled, maxAbsCol3_scaled]

theorem good_phase {g : Vec K} {G X : Mat4 K} (hG : param_vec2mat g = .ok G) {δ : K}
    (hδ : ∀ t : K, |t| < δ → 0 < (matA X (scaledDelta G t)).det) :
    ∀ (n : Nat) (s : K), maxAbsBlock33 G * |s| ≤ 1 / 10 → maxAbsCol3 G * |s| ≤ 10 →
      |s| * (9 / 10) ^ n < δ →
      ∃ k : Nat, k ≤ n ∧ ∀ fuel : Nat, k + 1 ≤ fuel →
        no_cp_loop X G g fuel s
          = .ok (s * (9 / 10) ^ k, scaledDelta G (s * (9 / 10) ^ k)) := by
  intro n
  induction n with
  | zero =>
    intro s h1 h2 h3
    refine ⟨0, Nat.le_refl _, fun fuel hf => ?_⟩
    obtain ⟨f, rfl⟩ : ∃ f, fuel = f + 1 := ⟨fuel - 1, by omega⟩
    have hpos := hδ s (by simpa using h3)
    rw [no_cp_loop_step hG, if_neg (not_lt.mpr h1), if_neg (not_lt.mpr h2),
      if_neg (not_lt.mpr hpos.le)]
    simp
  | succ n ih =>
    intro s h1 h2 h3
    by_cases hneg : (matA X (scaledDelta G s)).det < 0
    · have habs : |s * (9 / 10)| = |s| * (9 / 10) := by
        rw [abs_mul, abs_of_pos (by norm_num : (0 : K) < 9 / 10)]
      have hle : |s * (9 / 10)| ≤ |s| := by
        rw [habs]
        have := abs_nonneg s
        linarith
      obtain ⟨k, hk, hres⟩ := ih (s * (9 / 10))
        (le_trans (mul_le_mul_of_nonneg_left hle (maxAbsBlock33_nonneg G)) h1)
        (le_trans (mul_le_mul_of_nonneg_left hle (maxAbsCol3_nonneg G)) h2)
        (by rw [habs, mul_assoc, ← pow_succ']; exact h3)
      refine ⟨k + 1, by omega, fun fuel hf => ?_⟩
      obtain ⟨f, rfl⟩ : ∃ f, fuel = f + 1 := ⟨fuel - 1, by omega⟩
      rw [no_cp_loop_step hG, if_neg (not_lt.mpr h1), if_neg (not_lt.mpr h2), if_pos hneg,
        hres f (by omega)]
      have e : s * (9 / 10) * (9 / 10) ^ k = s * (9 / 10) ^ (k + 1) := by
        rw [mul_assoc, ← pow_succ']
      rw [e]
    · refine ⟨0, Nat.zero_le _, fun fuel hf => ?_⟩
      obtain ⟨f, rfl⟩ : ∃ f, fuel = f + 1 := ⟨fuel - 1, by omega⟩
      rw [no_cp_loop_step hG, if_neg (not_lt.mpr h1), if_neg (not_lt.mpr h2), if_neg hneg]
      simp

theorem exists_small_step [Archimedean K] (s δ : K) (hδ : 0 < δ) :
    ∃ n : Nat, |s| * (9 / 10) ^ n < δ := by
  have hpos : 0 < |s| + 1 := by
    have := abs_nonneg s
    linarith
  obtain ⟨n, hn⟩ := exists_pow_lt_of_lt_one (div_pos hδ hpos) (by norm_num : (9 / 10 : K) < 1)
  refine ⟨n, ?_⟩
  have h1 : (|s| + 1) * (9 / 10) ^ n < δ := by
    have := (lt_div_iff₀ hpos).mp hn
    linarith
  have h2 : (0 : K) ≤ (9 / 10) ^ n := pow_nonneg (by norm_num) n
  nlinarith

theorem good_run [Archimedean K] {g : Vec K} {G X : Mat4 K} (hG : param_vec2mat g = .ok G)
    (hX : X 3 = ![0, 0, 0, 1]) (hdet : 0 < X.det) (s : K)
    (h1 : maxAbsBlock33 G * |s| ≤ 1 / 10) (h2 : maxAbsCol3 G * |s| ≤ 10) :
    ∃ k : Nat, ∀ fuel : Nat, k + 1 ≤ fuel →
      no_cp_loop X G g fuel s = .ok (s * (9 / 10) ^ k, scaledDelta G (s * (9 / 10) ^ k)) := by
  obtain ⟨δ, hδ0, hδ⟩ := det_matA_pos_near hX (decode_row3 hG) hdet
  obtain ⟨n, hn⟩ := exists_small_step s δ hδ0
  obtain ⟨k, -, hres⟩ := good_phase hG hδ n s h1 h2 hn
  exact ⟨k, hres⟩

theorem abs_div_pos {c m : K} (hc : 0 < c) (hm : 0 < m) : |c / m| = c / m :=
  abs_of_pos (div_pos hc hm)

/-- C29 (conditional termination without control points): over an Archimedean ordered
field (such as the reals), for every current transform `X` with bottom row `[0,0,0,1]`
and strictly positive determinant, every gradient of 12 values and every step size `s`,
the loop of the branch without control points exits: after `r <= 2` hard re-scales, which
leave the step size at `s0` (`s` itself when `r = 0`, else `0.09 / max|G block|` or
`9 / max|G column|`), and `k` multiplications of the step by 0.9, the iteration number
`r + k + 1` accepts the step `s0 * 0.9^k`, whatever larger number of iterations is
allowed. -/
theorem no_cp_loop_terminates [Archimedean K] (X G : Mat4 K) (g : Vec K) (s : K)
    (hX : X 3 = ![0, 0, 0, 1]) (hdet : 0 < X.det) (hG : param_vec2mat g = .ok G) :
    ∃ (r k : Nat) (s0 : K), r ≤ 2 ∧ (r = 0 → s0 = s) ∧
      (s0 = s ∨ s0 = 9 / 100 / maxAbsBlock33 G ∨ s0 = 9 / maxAbsCol3 G) ∧
      ∀ fuel : Nat, r + k + 1 ≤ fuel →
        no_cp_loop X G g fuel s
          = .ok (s0 * (9 / 10) ^ k, scaledDelta G (s0 * (9 / 10) ^ k)) := by
  have hm := maxAbsBlock33_nonneg G
  have hc := maxAbsCol3_nonneg G
  by_cases hb : maxAbsBlock33 G * |s| > 1 / 10
  · have hmpos : 0 < maxAbsBlock33 G := pos_of_scaled_gt hm (by norm_num) hb
    have hs1 : maxAbsBlock33 G * |9 / 100 / maxAbsBlock33 G| = 9 / 100 := by
      rw [abs_div_pos (by norm_num) hmpos, mul_div_cancel₀ _ (ne_of_gt hmpos)]
    by_cases hcol : maxAbsCol3 G * |9 / 100 / maxAbsBlock33 G| > 10
    · have hcpos : 0 < maxAbsCol3 G := pos_of_scaled_gt hc (by norm_num) hcol
      have hs2 : maxAbsCol3 G * |9 / maxAbsCol3 G| = 9 := by
        rw [abs_div_pos (by norm_num) hcpos, mul_div_cancel₀ _ (ne_of_gt hcpos)]
      have hs2b : maxAbsBlock33 G * |9 / maxAbsCol3 G| ≤ 1 / 10 := by
        rw [abs_div_pos (by norm_num) hmpos, ← mul_div_assoc, gt_iff_lt,
          lt_div_iff₀ hmpos] at hcol
        rw [abs_div_pos (by norm_num) hcpos, ← mul_div_assoc, div_le_iff₀ hcpos]
        linarith
      obtain ⟨k, hres⟩ := good_run hG hX hdet (9 / maxAbsCol3 G) hs2b (by rw [hs2]; norm_num)
      refine ⟨2, k, 9 / maxAbsCol3 G, Nat.le_refl _, fun h => absurd h (by decide),
        Or.inr (Or.inr rfl), fun fuel hf => ?_⟩
      obtain ⟨f, rfl⟩ : ∃ f, fuel = f + 2 := ⟨fuel - 2, by omega⟩
      rw [no_cp_loop_step hG, if_pos hb, no_cp_loop_step hG,
        if_neg (by rw [hs1]; norm_num), if_pos hcol]
      exact hres f (by omega)
    · obtain ⟨k, hres⟩ := good_run hG hX hdet (9 / 100 / maxAbsBlock33 G)
        (by rw [hs1]; norm_num) (not_lt.mp hcol)
      refine ⟨1, k, 9 / 100 / maxAbsBlock33 G, by decide, fun h => absurd h (by decide),
        Or.inr (Or.inl rfl), fun fuel hf => ?_⟩
      obtain ⟨f, rfl⟩ : ∃ f, fuel = f + 1 := ⟨fuel - 1, by omega⟩
      rw [no_cp_loop_step hG, if_pos hb]
      exact hres f (by omega)
  · by_cases hcol : maxAbsCol3 G * |s| > 10
    · have hcpos : 0 < maxAbsCol3 G := pos_of_scaled_gt hc (by norm_num) hcol
      have hs1 : maxAbsCol3 G * |9 / maxAbsCol3 G| = 9 := by
        rw [abs_div_pos (by norm_num) hcpos, mul_div_cancel₀ _ (ne_of_gt hcpos)]
      by_cases hb2 : maxAbsBlock33 G * |9 / maxAbsCol3 G| > 1 / 10
      · have hmpos : 0 < maxAbsBlock33 G := pos_of_scaled_gt hm (by norm_num) hb2
        have hs2 : maxAbsBlock33 G * |9 / 100 / maxAbsBlock33 G| = 9 / 100 := by
          rw [abs_div_pos (by norm_num) hmpos, mul_div_cancel₀ _ (ne_of_gt hmpos)]
        have hs2c : maxAbsCol3 G * |9 / 100 / maxAbsBlock33 G| ≤ 10 := by
          rw [abs_div_pos (by norm_num) hcpos, ← mul_div_assoc, gt_iff_lt,
            lt_div_iff₀ hcpos] at hb2
          rw [abs_div_pos (by norm_num) hmpos, ← mul_div_assoc, div_le_iff₀ hmpos]
          linarith
        obtain ⟨k, hres⟩ := good_run hG hX hdet (9 / 100 / maxAbsBlock33 G)
          (by rw [hs2]; norm_num) hs2c
        refine ⟨2, k, 9 / 100 / maxAbsBlock33 G, Nat.le_refl _,
          fun h => absurd h (by decide), Or.inr (Or.inl rfl), fun fuel hf => ?_⟩
        obtain ⟨f, rfl⟩ : ∃ f, fuel = f + 2 := ⟨fuel - 2, by omega⟩
        rw [no_cp_loop_step hG, if_neg hb, if_pos hcol, no_cp_loop_step hG, if_pos hb2]
        exact hres f (by omega)
      · obtain ⟨k, hres⟩ := good_run hG hX hdet (9 / maxAbsCol3 G) (not_lt.mp hb2)
          (by rw [hs1]; norm_num)
        refine ⟨1, k, 9 / maxAbsCol3 G, by decide, fun h => absurd h (by decide),
          Or.inr (Or.inr rfl), fun fuel hf => ?_⟩
        obtain ⟨f, rfl⟩ : ∃ f, fuel = f + 1 := ⟨fuel - 1, by omega⟩
        rw [no_cp_loop_step hG, if_neg hb, if_pos hcol]
        exact hres f (by omega)
    · obtain ⟨k, hres⟩ := good_run hG hX hdet s (not_lt.mp hb) (not_lt.mp hcol)
      refine ⟨0, k, s, by decide, fun _ => rfl, Or.inl rfl, fun fuel hf => ?_⟩
      exact hres fuel (by omega)

end TerminationProps

section TerminationWitness

/-- Witness for C29: the transform `skew_x` (determinant `45796/25`) with the gradient
`skew_g` and the step size 1, over the rationals. -/
theorem no_cp_loop_terminates_witness :
    skew_X 3 = ![0, 0, 0, 1] ∧ 0 < skew_X.det ∧ param_vec2mat skew_g = .ok skew_Delta ∧
    ∃ (r k : Nat) (s0 : ℚ), r ≤ 2 ∧ (r = 0 → s0 = 1) ∧
      (s0 = 1 ∨ s0 = 9 / 100 / maxAbsBlock33 skew_Delta ∨ s0 = 9 / maxAbsCol3 skew_Delta) ∧
      ∀ fuel : Nat, r + k + 1 ≤ fuel →
        no_cp_loop skew_X skew_Delta skew_g fuel 1
          = .ok (s0 * (9 / 10) ^ k, scaledDelta skew_Delta (s0 * (9 / 10) ^ k)) :=
  have hdet : 0 < skew_X.det := by rw [skew_X_det]; norm_num
  ⟨decode_row3 skew_decode.2, hdet, skew_decode.1,
    no_cp_loop_terminates skew_X skew_Delta skew_g 1 (decode_row3 skew_decode.2) hdet
      skew_decode.1⟩

end TerminationWitness

end MR.Registration.Transform

namespace MR.GUI.MRView.Tool

section ConnectomeProps

/-- C30 (frame of the alpha recomputation): where the code departs from the claim.  In
file mode, on two visible nodes of alpha 1 with the imported alphas `1/2` and `0`,
`calculate_node_alphas` returns with every alpha, size and colour as before the call: no
node receives its entry of the imported vector as alpha; instead the visibility of node
`i` is overwritten with the truth value of entry `i - 1`, so node 2 becomes invisible.
In fixed mode every node gets alpha 1 and its visibility, size and colour are kept; in
lookup-table mode, on the same nodes, node 1 gets alpha `51/255` and node 2 the fixed
alpha, and visibility, size and colour are kept. -/
theorem alpha_frame_divergence :
    file_connectome.num_nodes = 2 ∧
    (∃ c' : Connectome ℚ, file_connectome.calculate_node_alphas true = some c' ∧
      c'.nodes.map (fun nd => nd.alpha) = [0, 1, 1] ∧
      c'.nodes.map (fun nd => nd.alpha) = sample_nodes.map (fun nd => nd.alpha) ∧
      c'.nodes.map (fun nd => nd.size) = sample_nodes.map (fun nd => nd.size) ∧
      c'.nodes.map (fun nd => nd.colour) = sample_nodes.map (fun nd => nd.colour) ∧
      sample_nodes.map (fun nd => nd.visible) = [false, true, true] ∧
      c'.nodes.map (fun nd => nd.visible) = [false, true, false]) ∧
    (∃ c' : Connectome ℚ, lut_connectome.calculate_node_alphas true = some c' ∧
      c'.nodes.map (fun nd => nd.alpha) = [0, 1 / 5, 1 / 4] ∧
      c'.nodes.map (fun nd => nd.visible) = sample_nodes.map (fun nd => nd.visible) ∧
      c'.nodes.map (fun nd => nd.size) = sample_nodes.map (fun nd => nd.size) ∧
      c'.nodes.map (fun nd => nd.colour) = sample_nodes.map (fun nd => nd.colour)) ∧
    (∀ (c : Connectome ℚ) (checked : Bool), c.node_alpha = .NODE_ALPHA_FIXED →
      ∃ c' : Connectome ℚ, c.calculate_node_alphas checked = some c' ∧
        c'.nodes.length = c.nodes.length ∧ (∀ nd ∈ c'.nodes, nd.alpha = 1) ∧
        c'.nodes.map (fun nd => nd.visible) = c.nodes.map (fun nd => nd.visible) ∧
        c'.nodes.map (fun nd => nd.size) = c.nodes.map (fun nd => nd.size) ∧
        c'.nodes.map (fun nd => nd.colour) = c.nodes.map (fun nd => nd.colour)) := by
  refine ⟨rfl, ?_, ?_, ?_⟩
  · refine ⟨{ file_connectome with nodes :=
      [{ visible := false, alpha := 0, size := 0, colour := ![0, 0, 0] },
       { visible := true, alpha := 1, size := 1, colour := ![1, 0, 0] },
       { visible := false, alpha := 1, size := 1, colour := ![0, 1, 0] }] }, ?_, rfl, rfl,
      rfl, rfl, rfl, rfl⟩
    simp [Connectome.calculate_node_alphas, file_connectome, for_each_node, Connectome.num_nodes,
      sample_nodes, set_visible_at, List.range', List.foldlM]
  · refine ⟨{ lut_connectome with nodes :=
      [{ visible := false, alpha := 0, size := 0, colour := ![0, 0, 0] },
       { visible := true, alpha := 1 / 5, size := 1, colour := ![1, 0, 0] },
       { visible := true, alpha := 1 / 4, size := 1, colour := ![0, 1, 0] }] }, ?_, rfl, rfl,
      rfl, rfl⟩
    simp [Connectome.calculate_node_alphas, lut_connectome, for_each_node, Connectome.num_nodes,
      sample_nodes, set_alpha_at, List.range', List.foldlM]
    norm_num
  · intro c checked h
    refine ⟨{ c with nodes := c.nodes.map fun nd => { nd with alpha := 1 } }, ?_, ?_, ?_, ?_,
      ?_, ?_⟩
    · unfold Connectome.calculate_node_alphas
      rw [h]
    · simp
    · intro nd hnd
      simp only [List.mem_map] at hnd
      obtain ⟨a, -, rfl⟩ := hnd
      rfl
    · simp [List.map_map, Function.comp]
    · simp [List.map_map, Function.comp]
    · simp [List.map_map, Function.comp]

end ConnectomeProps

end MR.GUI.MRView.Tool
